import Mathlib

/-!
# Pipe to Integration translation (`pkg/controller/pipe/integration.go`)

A shallow embedding of `CreateIntegrationFor`, `configureBinding` and
`determineTraitProfile`, and the properties of the Binding Translator proved
about it.

Conventions of the embedding:

* a Go `(value, error)` result is an `Except Error value`, except where the code
  reads both components (`platform.GetForResource`), which stays a pair;
* a Go `map[string]string` is an association list; a `nil` map or slice and an
  empty one are both `[]`;
* `Binding.ApplicationProperties` lists the entries of the map in the order in
  which `range` enumerates them in the run at hand (Go leaves that order open);
* functions and constants of other packages (`bindings.Translate`,
  `Traits.Merge`, `property.EncodePropertyFileEntry`, `json.Marshal`,
  `platform.GetForResource`, ...) are the fields of `Env`.
-/

namespace CamelK

/-! ## Data model -/

/-- Go `error` values: a message, or a message wrapping a cause as in
`fmt.Errorf("<context>: %w", err)`. -/
inductive Error where
  | text (message : String) : Error
  | wrapped (context : String) (cause : Error) : Error
  deriving DecidableEq, Repr

/-- Values of `interface{}` that occur in a YAML DSL document. -/
inductive Value where
  | str (s : String) : Value
  | num (n : Int) : Value
  | bool (b : Bool) : Value
  | null : Value
  | seq (items : List Value) : Value
  | map (fields : List (String × Value)) : Value

/-- A `map[string]interface{}`: the fields of one DSL node. -/
abbrev Dsl := List (String × Value)

/-- Trait profile (`v1.TraitProfile`), a string. -/
abbrev TraitProfile := String

/-- Role of an endpoint (`v1.EndpointType`), as far as this file uses it. -/
inductive EndpointType where
  | source
  | action
  | sink
  deriving DecidableEq, Repr

/-- Role and position of the endpoint under translation (`bindings.EndpointContext`). -/
structure EndpointContext where
  Type_ : EndpointType
  Position : Option Nat := none
  deriving DecidableEq, Repr

/-- Context handed to every translation (`bindings.BindingContext`); the Go
context and the client are ambient. -/
structure BindingContext where
  Namespace : String
  Profile : TraitProfile
  Metadata : List (String × String)
  deriving DecidableEq, Repr

/-- Result of translating one endpoint (`bindings.Binding`). -/
structure Binding (T : Type) where
  URI : String
  Step : Option Dsl
  Traits : T
  ApplicationProperties : List (String × String)

/-- One configuration entry (`v1.ConfigurationSpec`). -/
structure ConfigurationSpec where
  Type_ : String
  Value : String
  deriving DecidableEq, Repr

/-- One flow of an Integration (`v1.Flow`), a raw serialised document. -/
structure Flow (R : Type) where
  RawMessage : R

/-- The fields of `v1.IntegrationSpec` that the translation reads or writes. -/
structure IntegrationSpec (T R : Type) where
  Replicas : Option Int
  Flows : List (Flow R)
  Profile : TraitProfile
  Traits : T
  Configuration : List ConfigurationSpec
  ServiceAccountName : String

/-- Owner reference (`metav1.OwnerReference`). -/
structure OwnerReference where
  APIVersion : String
  Kind : String
  Name : String
  UID : String
  Controller : Option Bool
  BlockOwnerDeletion : Option Bool
  deriving DecidableEq, Repr

/-- Object metadata of the generated Integration (`metav1.ObjectMeta`). -/
structure ObjectMeta where
  Namespace : String
  Name : String
  Annotations : List (String × String)
  Labels : List (String × String)
  OwnerReferences : List OwnerReference
  deriving DecidableEq, Repr

/-- The generated object (`v1.Integration`); its status starts empty and is not
touched here. -/
structure Integration (T R : Type) where
  ObjectMeta : ObjectMeta
  Spec : IntegrationSpec T R

/-- Spec of a Pipe (`v1.PipeSpec`); `Ep` is `v1.Endpoint`, `Eh` is
`v1.ErrorHandlerSpec`. -/
structure PipeSpec (Ep Eh T R : Type) where
  Integration : Option (IntegrationSpec T R)
  Source : Ep
  Sink : Ep
  ErrorHandler : Option Eh
  Steps : List Ep
  Replicas : Option Int
  ServiceAccountName : String

/-- The input object (`v1.Pipe`). -/
structure Pipe (Ep Eh T R : Type) where
  APIVersion : String
  Kind : String
  Namespace : String
  Name : String
  UID : String
  Annotations : List (String × String)
  Labels : List (String × String)
  Spec : PipeSpec Ep Eh T R

/-- Profiles of a platform's spec (`v1.IntegrationPlatformSpec`). -/
structure IntegrationPlatformSpec where
  Profile : TraitProfile
  deriving DecidableEq, Repr

/-- Profile and cluster type of a platform's status (`v1.IntegrationPlatformStatus`). -/
structure IntegrationPlatformStatus where
  Profile : TraitProfile
  Cluster : String
  deriving DecidableEq, Repr

/-- The platform (`v1.IntegrationPlatform`). -/
structure IntegrationPlatform where
  Spec : IntegrationPlatformSpec
  Status : IntegrationPlatformStatus
  deriving DecidableEq, Repr

/-- What `integration.go` calls in other packages, and the constants it reads
from them. -/
structure Env (Ep Eh T R : Type) where
  /-- Constant `v1.AnnotationIcon`. -/
  AnnotationIcon : String
  /-- Constant `kubernetes.CamelCreatorLabelKind`. -/
  CamelCreatorLabelKind : String
  /-- Constant `kubernetes.CamelCreatorLabelName`. -/
  CamelCreatorLabelName : String
  /-- Constant `v1.TraitProfileKnative`. -/
  TraitProfileKnative : TraitProfile
  /-- Constant `v1.DefaultTraitProfile`. -/
  DefaultTraitProfile : TraitProfile
  /-- The zero value of `v1.Traits`. -/
  zeroTraits : T
  /-- Lookup `platform.GetForResource(ctx, c, binding)`: the platform and the error. -/
  GetForResource : Pipe Ep Eh T R → Option IntegrationPlatform × Option Error
  /-- Predicate `k8serrors.IsNotFound`. -/
  IsNotFound : Error → Bool
  /-- Check `knative.IsServingInstalled(c)`. -/
  IsServingInstalled : Except Error Bool
  /-- Function `platform.GetTraitProfile`: the profile derived from the cluster type. -/
  GetTraitProfile : IntegrationPlatform → TraitProfile
  /-- Function `bindings.Translate`. -/
  Translate : BindingContext → EndpointContext → Ep → Except Error (Binding T)
  /-- Function `maybeErrorHandler` of this package; `none` is the nil binding. -/
  maybeErrorHandler : Option Eh → BindingContext → Except Error (Option (Binding T))
  /-- Method `Traits.Merge`: the receiver after the merge, or the conflict. -/
  Merge : T → T → Except Error T
  /-- Function `property.EncodePropertyFileEntry`. -/
  EncodePropertyFileEntry : String → String → Except Error String
  /-- Function `json.Marshal`, on the route document. -/
  Marshal : Value → Except Error R
  /-- Method `Binding.AsYamlDSL`. -/
  AsYamlDSL : Binding T → Dsl

/-! ## Go built-ins and library functions -/

/-- Built-in `delete(m, key)`. -/
def mapDelete (m : List (String × String)) (key : String) : List (String × String) :=
  m.filter (fun kv => kv.1 ≠ key)

/-- Assignment `m[key] = value`. -/
def mapSet (m : List (String × String)) (key value : String) : List (String × String) :=
  if m.any (fun kv => kv.1 = key) then
    m.map (fun kv => if kv.1 = key then (key, value) else kv)
  else m ++ [(key, value)]

/-- Library `sort.SliceStable(xs, less)`: the stable sort of `xs` by `less`. An
element goes in front of the first element that is not less than it, so equal
elements keep their order. -/
def SliceStable {α : Type} (less : α → α → Bool) (xs : List α) : List α :=
  xs.insertionSort (fun a b => less b a = false)

/-! ## The translation -/

variable {Ep Eh T R : Type}

/-- Go's `<` on strings: lexicographic, character by character (the order of the
code points is the order of their UTF-8 bytes). -/
def stringLess (a b : String) : Bool := decide (a.toList < b.toList)

/-- The comparison closure handed to `sort.SliceStable` in `CreateIntegrationFor`. -/
def configurationLess (mi mj : ConfigurationSpec) : Bool :=
  if mi.Type_ ≠ mj.Type_ then stringLess mi.Type_ mj.Type_ else stringLess mi.Value mj.Value

/-- The tail of `determineTraitProfile`, from the Knative check on. -/
def profileAfterPlatform (e : Env Ep Eh T R) (pl : Option IntegrationPlatform) :
    Except Error TraitProfile :=
  match e.IsServingInstalled with
  | .error err => .error err
  | .ok true => .ok e.TraitProfileKnative
  | .ok false =>
    match pl with
    | some p =>
      -- Determine profile from cluster type
      let plProfile := e.GetTraitProfile p
      if plProfile ≠ "" then .ok plProfile else .ok e.DefaultTraitProfile
    | none => .ok e.DefaultTraitProfile

/-- The part of `determineTraitProfile` that follows the platform lookup. -/
def profileFromPlatform (e : Env Ep Eh T R) (pl : Option IntegrationPlatform) :
    Except Error TraitProfile :=
  match pl with
  | some p =>
    if p.Status.Profile ≠ "" then .ok p.Status.Profile
    else if p.Spec.Profile ≠ "" then .ok p.Spec.Profile
    else profileAfterPlatform e pl
  | none => profileAfterPlatform e pl

/-- Function `determineTraitProfile`. -/
def determineTraitProfile (e : Env Ep Eh T R) (binding : Pipe Ep Eh T R) :
    Except Error TraitProfile :=
  let override : TraitProfile :=
    match binding.Spec.Integration with
    | some i => i.Profile
    | none => ""
  if binding.Spec.Integration.isSome ∧ override ≠ "" then .ok override
  else
    match e.GetForResource binding with
    | (pl, some err) =>
      if e.IsNotFound err = false then
        .error (.wrapped "error while retrieving the integration platform" err)
      else profileFromPlatform e pl
    | (pl, none) => profileFromPlatform e pl

/-- The loop of `CreateIntegrationFor` that translates the steps, from index `idx` on. -/
def translateSteps (e : Env Ep Eh T R) (ctx : BindingContext) :
    Nat → List Ep → Except Error (List (Binding T))
  | _, [] => .ok []
  | idx, step :: rest =>
    match e.Translate ctx { Type_ := .action, Position := some idx } step with
    | .error err =>
      .error (.wrapped ("could not determine URI for step " ++ toString idx) err)
    | .ok stepBinding =>
      match translateSteps e ctx (idx + 1) rest with
      | .error err => .error err
      | .ok steps => .ok (stepBinding :: steps)

/-- The loop of `CreateIntegrationFor` that validates the translated steps, from
index `index` on. -/
def validateSteps : Nat → List (Binding T) → Except Error Unit
  | _, [] => .ok ()
  | index, step :: rest =>
    if step.Step.isNone ∧ step.URI = "" then
      .error (.text ("illegal step definition for step " ++ toString index
        ++ ": either Step or URI should be provided"))
    else validateSteps (index + 1) rest

/-- The inner loop of `configureBinding` over `b.ApplicationProperties`. -/
def appendProperties (e : Env Ep Eh T R) (configuration : List ConfigurationSpec) :
    List (String × String) → Except Error (List ConfigurationSpec)
  | [] => .ok configuration
  | (k, v) :: rest =>
    match e.EncodePropertyFileEntry k v with
    | .error err => .error err
    | .ok entry =>
      appendProperties e (configuration ++ [{ Type_ := "property", Value := entry }]) rest

/-- Function `configureBinding`; a `none` is a nil binding. -/
def configureBinding (e : Env Ep Eh T R) (integration : Integration T R) :
    List (Option (Binding T)) → Except Error (Integration T R)
  | [] => .ok integration
  | none :: rest => configureBinding e integration rest
  | some b :: rest =>
    match e.Merge integration.Spec.Traits b.Traits with
    | .error err => .error err
    | .ok traits =>
      match appendProperties e integration.Spec.Configuration b.ApplicationProperties with
      | .error err => .error err
      | .ok configuration =>
        configureBinding e
          { integration with
            Spec := { integration.Spec with Traits := traits, Configuration := configuration } }
          rest

/-- The `dslSteps` slice built by `CreateIntegrationFor`. -/
def dslSteps (e : Env Ep Eh T R) (fromB : Binding T) (steps : List (Binding T))
    (toB : Binding T) : List Dsl :=
  (if fromB.Step.isSome then [e.AsYamlDSL fromB] else [])
    ++ steps.map e.AsYamlDSL
    ++ (if toB.Step.isSome then [e.AsYamlDSL toB] else [])
    ++ [[("to", Value.str toB.URI)]]

/-- The `flowRoute` document built by `CreateIntegrationFor`. -/
def flowRoute (uri : String) (steps : List Dsl) : Value :=
  .map [("route", .map [("id", .str "binding"),
    ("from", .map [("uri", .str uri), ("steps", .seq (steps.map Value.map))])])]

/-- The Integration as `CreateIntegrationFor` sets it up before the profile is known. -/
def initialIntegration (e : Env Ep Eh T R) (binding : Pipe Ep Eh T R) : Integration T R :=
  -- avoid propagating the icon to the integration as it's heavyweight and not needed
  let annotations := mapDelete binding.Annotations e.AnnotationIcon
  -- creator labels
  let labels := mapSet (mapSet binding.Labels e.CamelCreatorLabelKind binding.Kind)
    e.CamelCreatorLabelName binding.Name
  -- start from the integration spec defined in the binding
  let spec : IntegrationSpec T R :=
    match binding.Spec.Integration with
    | some i => i
    | none =>
      { Replicas := none, Flows := [], Profile := "", Traits := e.zeroTraits,
        Configuration := [], ServiceAccountName := "" }
  -- Set replicas (or override podspecable value) if present
  let spec : IntegrationSpec T R :=
    match binding.Spec.Replicas with
    | some replicas => { spec with Replicas := some replicas }
    | none => spec
  { ObjectMeta :=
      { Namespace := binding.Namespace
        Name := binding.Name
        Annotations := annotations
        Labels := labels
        OwnerReferences :=
          [{ APIVersion := binding.APIVersion, Kind := binding.Kind, Name := binding.Name,
             UID := binding.UID, Controller := some true, BlockOwnerDeletion := some true }] }
    Spec := spec }

/-- Function `CreateIntegrationFor`, from the validation of the translated
bindings to the end. -/
def assemble (e : Env Ep Eh T R) (it : Integration T R) (fromB toB : Binding T)
    (errorHandler : Option (Binding T)) (steps : List (Binding T)) :
    Except Error (Integration T R) :=
  if toB.Step.isNone ∧ toB.URI = "" then
    .error (.text "illegal step definition for sink step: either Step or URI should be provided")
  else if fromB.URI = "" then
    .error (.text "illegal step definition for source step: URI should be provided")
  else
    match validateSteps 0 steps with
    | .error err => .error err
    | .ok () =>
    match configureBinding e it [some fromB] with
    | .error err => .error err
    | .ok it =>
    match configureBinding e it (steps.map some) with
    | .error err => .error err
    | .ok it =>
    match configureBinding e it [some toB] with
    | .error err => .error err
    | .ok it =>
    match configureBinding e it [errorHandler] with
    | .error err => .error err
    | .ok it =>
    -- sorting is skipped for a nil slice, which the sort would leave as it is
    let configuration := SliceStable configurationLess it.Spec.Configuration
    match e.Marshal (flowRoute fromB.URI (dslSteps e fromB steps toB)) with
    | .error err => .error err
    | .ok encodedRoute =>
      .ok { it with
            Spec := { it.Spec with
                      Configuration := configuration
                      Flows := it.Spec.Flows ++ [{ RawMessage := encodedRoute }] } }

/-- The `bindingContext` of `CreateIntegrationFor`, once the profile is known. -/
def bindingContextFor (e : Env Ep Eh T R) (binding : Pipe Ep Eh T R)
    (profile : TraitProfile) : BindingContext :=
  { Namespace := (initialIntegration e binding).ObjectMeta.Namespace, Profile := profile,
    Metadata := (initialIntegration e binding).ObjectMeta.Annotations }

/-- The Integration of `CreateIntegrationFor` after the profile and the service
account name are set. -/
def profiledIntegration (e : Env Ep Eh T R) (binding : Pipe Ep Eh T R)
    (profile : TraitProfile) : Integration T R :=
  let it := initialIntegration e binding
  let spec := { it.Spec with Profile := profile }
  let spec :=
    if binding.Spec.ServiceAccountName ≠ "" then
      { spec with ServiceAccountName := binding.Spec.ServiceAccountName }
    else spec
  { it with Spec := spec }

/-- Function `CreateIntegrationFor`. -/
def CreateIntegrationFor (e : Env Ep Eh T R) (binding : Pipe Ep Eh T R) :
    Except Error (Integration T R) :=
  match determineTraitProfile e binding with
  | .error err => .error err
  | .ok profile =>
    let it := profiledIntegration e binding profile
    let bindingContext := bindingContextFor e binding profile
    match e.Translate bindingContext { Type_ := .source } binding.Spec.Source with
    | .error err => .error (.wrapped "could not determine source URI" err)
    | .ok fromB =>
    match e.Translate bindingContext { Type_ := .sink } binding.Spec.Sink with
    | .error err => .error (.wrapped "could not determine sink URI" err)
    | .ok toB =>
    -- error handler is optional
    match e.maybeErrorHandler binding.Spec.ErrorHandler bindingContext with
    | .error err => .error (.wrapped "could not determine error handler" err)
    | .ok errorHandler =>
    match translateSteps e bindingContext 0 binding.Spec.Steps with
    | .error err => .error err
    | .ok steps => assemble e it fromB toB errorHandler steps

/-- Function `CreateIntegrationFor` with its Go result type, the pair
`(*v1.Integration, error)`: every `return` statement of the source, in the
order of the source, with the two values it returns (`none` is `nil`). -/
def CreateIntegrationForPair (e : Env Ep Eh T R) (binding : Pipe Ep Eh T R) :
    Option (Integration T R) × Option Error :=
  match determineTraitProfile e binding with
  | .error err => (none, some err)
  | .ok profile =>
    let it := profiledIntegration e binding profile
    let bindingContext := bindingContextFor e binding profile
    match e.Translate bindingContext { Type_ := .source } binding.Spec.Source with
    | .error err => (none, some (.wrapped "could not determine source URI" err))
    | .ok fromB =>
    match e.Translate bindingContext { Type_ := .sink } binding.Spec.Sink with
    | .error err => (none, some (.wrapped "could not determine sink URI" err))
    | .ok toB =>
    match e.maybeErrorHandler binding.Spec.ErrorHandler bindingContext with
    | .error err => (none, some (.wrapped "could not determine error handler" err))
    | .ok errorHandler =>
    match translateSteps e bindingContext 0 binding.Spec.Steps with
    | .error err => (none, some err)
    | .ok steps =>
    if toB.Step.isNone ∧ toB.URI = "" then
      (none, some (.text
        "illegal step definition for sink step: either Step or URI should be provided"))
    else if fromB.URI = "" then
      (none, some (.text "illegal step definition for source step: URI should be provided"))
    else
    match validateSteps 0 steps with
    | .error err => (none, some err)
    | .ok () =>
    match configureBinding e it [some fromB] with
    | .error err => (none, some err)
    | .ok it =>
    match configureBinding e it (steps.map some) with
    | .error err => (none, some err)
    | .ok it =>
    match configureBinding e it [some toB] with
    | .error err => (none, some err)
    | .ok it =>
    match configureBinding e it [errorHandler] with
    | .error err => (none, some err)
    | .ok it =>
    let configuration := SliceStable configurationLess it.Spec.Configuration
    match e.Marshal (flowRoute fromB.URI (dslSteps e fromB steps toB)) with
    | .error err => (none, some err)
    | .ok encodedRoute =>
      (some { it with
              Spec := { it.Spec with
                        Configuration := configuration
                        Flows := it.Spec.Flows ++ [{ RawMessage := encodedRoute }] } }, none)

/-- The Go result pair that stands for a result of the embedding: the Integration
and a nil error, or a nil Integration and the error. -/
def asPair (r : Except Error (Integration T R)) : Option (Integration T R) × Option Error :=
  match r with
  | .ok it => (some it, none)
  | .error err => (none, some err)

/-! ## Vocabulary of the statements -/

/-- Profile determination and every endpoint translation of `CreateIntegrationFor`
succeed, with the given results. -/
def Translated (e : Env Ep Eh T R) (binding : Pipe Ep Eh T R) (profile : TraitProfile)
    (fromB toB : Binding T) (errorHandler : Option (Binding T))
    (steps : List (Binding T)) : Prop :=
  determineTraitProfile e binding = .ok profile ∧
  e.Translate (bindingContextFor e binding profile) { Type_ := .source } binding.Spec.Source
    = .ok fromB ∧
  e.Translate (bindingContextFor e binding profile) { Type_ := .sink } binding.Spec.Sink
    = .ok toB ∧
  e.maybeErrorHandler binding.Spec.ErrorHandler (bindingContextFor e binding profile)
    = .ok errorHandler ∧
  translateSteps e (bindingContextFor e binding profile) 0 binding.Spec.Steps = .ok steps

/-- A translated binding that offers neither an embedded step nor a URI. -/
def Binding.Empty (b : Binding T) : Prop := b.Step.isNone ∧ b.URI = ""

/-- The bindings in the order in which `CreateIntegrationFor` configures them:
source, steps, sink, error handler when there is one. -/
def configuredBindings (fromB toB : Binding T) (errorHandler : Option (Binding T))
    (steps : List (Binding T)) : List (Binding T) :=
  fromB :: steps ++ [toB] ++ errorHandler.toList

/-- The application properties of a list of bindings, in order. -/
def contributedProperties (bs : List (Binding T)) : List (String × String) :=
  bs.flatMap (fun b => b.ApplicationProperties)

/-- The configuration entries a Pipe inherits from its embedded integration spec. -/
def inheritedConfiguration (binding : Pipe Ep Eh T R) : List ConfigurationSpec :=
  match binding.Spec.Integration with
  | some i => i.Configuration
  | none => []

/-- The flows a Pipe inherits from its embedded integration spec. -/
def inheritedFlows (binding : Pipe Ep Eh T R) : List (Flow R) :=
  match binding.Spec.Integration with
  | some i => i.Flows
  | none => []

/-- The trait configuration a Pipe inherits from its embedded integration spec. -/
def inheritedTraits (e : Env Ep Eh T R) (binding : Pipe Ep Eh T R) : T :=
  match binding.Spec.Integration with
  | some i => i.Traits
  | none => e.zeroTraits

/-- Merging the trait settings of a list of bindings into `t`, one after the
other, stopping at the first conflict. -/
def mergeInOrder (e : Env Ep Eh T R) (t : T) : List (Binding T) → Except Error T
  | [] => .ok t
  | b :: rest =>
    match e.Merge t b.Traits with
    | .error err => .error err
    | .ok t1 => mergeInOrder e t1 rest

/-- Ascending order of configuration entries "by (Type, then Value)": `a` comes no
later than `b` when its type is smaller, or when the types are equal and its
value is not greater; strings are compared character by character. -/
def configurationLE (a b : ConfigurationSpec) : Prop :=
  a.Type_.toList < b.Type_.toList ∨ (a.Type_ = b.Type_ ∧ a.Value.toList ≤ b.Value.toList)

/-- Entry `c` is the configuration entry that `configureBinding` appends for the
application property `kv`: of type "property", its value the encoded pair. -/
def IsPropertyEntry (e : Env Ep Eh T R) (kv : String × String) (c : ConfigurationSpec) : Prop :=
  c.Type_ = "property" ∧ e.EncodePropertyFileEntry kv.1 kv.2 = .ok c.Value

/-- The arguments of the four `configureBinding` calls of `CreateIntegrationFor`,
one after the other. -/
def configureArguments (fromB toB : Binding T) (errorHandler : Option (Binding T))
    (steps : List (Binding T)) : List (Option (Binding T)) :=
  [some fromB] ++ (steps.map some ++ ([some toB] ++ [errorHandler]))

/-- What `CreateIntegrationFor` does to the Integration after the last
`configureBinding`: sort the configuration, append the encoded route. -/
def finish (it : Integration T R) (encodedRoute : R) : Integration T R :=
  { it with
    Spec := { it.Spec with
              Configuration := SliceStable configurationLess it.Spec.Configuration
              Flows := it.Spec.Flows ++ [{ RawMessage := encodedRoute }] } }

/-- The entry that `configureBinding` appends for the application property `kv`
when its encoding succeeds. -/
def entryOf (e : Env Ep Eh T R) (kv : String × String) : ConfigurationSpec :=
  { Type_ := "property"
    Value :=
      match e.EncodePropertyFileEntry kv.1 kv.2 with
      | .ok entry => entry
      | .error _ => "" }

/-- Two bindings that are one and the same translation result, its
`ApplicationProperties` map enumerated in two orders. -/
def Binding.SameUpToMapOrder (a b : Binding T) : Prop :=
  a.URI = b.URI ∧ a.Step = b.Step ∧ a.Traits = b.Traits ∧
    a.ApplicationProperties.Perm b.ApplicationProperties

/-- The relation `Binding.SameUpToMapOrder` on bindings that may be nil. -/
def SameOptionalBinding : Option (Binding T) → Option (Binding T) → Prop
  | none, none => True
  | some a, some b => a.SameUpToMapOrder b
  | _, _ => False

/-- The precedence of profiles in the words of the specification: the first
available of the non-empty override of the embedded integration spec, the
platform's non-empty status profile, the platform's non-empty spec profile, the
Knative profile when Knative serving is installed, the non-empty profile derived
from the platform's cluster type; the global default when none is. -/
def profileByPrecedence (e : Env Ep Eh T R) (binding : Pipe Ep Eh T R)
    (pl : Option IntegrationPlatform) (servingInstalled : Bool) : TraitProfile :=
  let nonEmpty (p : Option TraitProfile) : Option TraitProfile := p.filter (fun x => x ≠ "")
  let candidates : List (Option TraitProfile) :=
    [ nonEmpty (binding.Spec.Integration.map (fun i => i.Profile)),
      nonEmpty (pl.map (fun p => p.Status.Profile)),
      nonEmpty (pl.map (fun p => p.Spec.Profile)),
      if servingInstalled then some e.TraitProfileKnative else none,
      nonEmpty (pl.map e.GetTraitProfile) ]
  candidates.reduceOption.head?.getD e.DefaultTraitProfile

/-- Whether the Knative check answers that serving is installed. -/
def servingInstalled (e : Env Ep Eh T R) : Bool :=
  match e.IsServingInstalled with
  | .ok installed => installed
  | .error _ => false

instance configurationLE_decidable : DecidableRel configurationLE :=
  fun a b => inferInstanceAs (Decidable
    (a.Type_.toList < b.Type_.toList ∨ (a.Type_ = b.Type_ ∧ a.Value.toList ≤ b.Value.toList)))

/-! ## A sample environment, for the examples -/

/-- Trait settings of the sample environment: (name, value) pairs. -/
abbrev SampleTraits := List (String × String)

/-- Merge of the sample environment: a name set to two different values is a
conflict, anything else is added. -/
def sampleMerge (t u : SampleTraits) : Except Error SampleTraits :=
  match u.find? (fun kv => t.any (fun old => old.1 = kv.1 ∧ old.2 ≠ kv.2)) with
  | some kv => .error (.text ("conflicting values for trait setting " ++ kv.1))
  | none => .ok (t ++ u.filter (fun kv => !t.contains kv))

/-- The sample environment. An endpoint is written as the binding it translates
to, or as `none` when it names neither a reference nor a URI, which no provider
translates; an error handler is written as its binding; there is no platform and
no Knative serving; a property is encoded as `key=value`; the route document
stands for its own serialisation; `AsYamlDSL` is the embedded step, or
`to: <uri>` without one. -/
def sampleEnv :
    Env (Option (Binding SampleTraits)) (Binding SampleTraits) SampleTraits Value :=
  { AnnotationIcon := "camel.apache.org/kamelet.icon"
    CamelCreatorLabelKind := "camel.apache.org/created.by.kind"
    CamelCreatorLabelName := "camel.apache.org/created.by.name"
    TraitProfileKnative := "Knative"
    DefaultTraitProfile := "Kubernetes"
    zeroTraits := []
    GetForResource := fun _ => (none, none)
    IsNotFound := fun _ => false
    IsServingInstalled := .ok false
    GetTraitProfile := fun p => if p.Status.Cluster = "OpenShift" then "OpenShift" else ""
    Translate := fun _ _ ep =>
      match ep with
      | some b => .ok b
      | none => .error (.text "no ref or URI specified in endpoint")
    maybeErrorHandler := fun eh _ => .ok eh
    Merge := sampleMerge
    EncodePropertyFileEntry := fun k v => .ok (k ++ "=" ++ v)
    Marshal := fun v => .ok v
    AsYamlDSL := fun b =>
      match b.Step with
      | some step => step
      | none => [("to", Value.str b.URI)] }

/-- The binding of a plain URI. -/
def uriBinding (uri : String) : Binding SampleTraits :=
  { URI := uri, Step := none, Traits := [], ApplicationProperties := [] }

/-- An endpoint of the sample environment given by a URI alone. -/
def uriEndpoint (uri : String) : Option (Binding SampleTraits) := some (uriBinding uri)

/-- A Pipe of the sample environment with the given embedded integration spec,
source, sink, steps and error handler. -/
def samplePipeOver (integration : Option (IntegrationSpec SampleTraits Value))
    (source sink : Option (Binding SampleTraits))
    (steps : List (Option (Binding SampleTraits)))
    (errorHandler : Option (Binding SampleTraits)) :
    Pipe (Option (Binding SampleTraits)) (Binding SampleTraits) SampleTraits Value :=
  { APIVersion := "camel.apache.org/v1", Kind := "Pipe", Namespace := "default",
    Name := "sample", UID := "0", Annotations := [], Labels := [],
    Spec := { Integration := integration, Source := source, Sink := sink,
              ErrorHandler := errorHandler, Steps := steps, Replicas := none,
              ServiceAccountName := "" } }

/-- A Pipe of the sample environment with the given source, sink and steps, no
embedded integration spec and no error handler. -/
def samplePipe (source sink : Option (Binding SampleTraits))
    (steps : List (Option (Binding SampleTraits))) :
    Pipe (Option (Binding SampleTraits)) (Binding SampleTraits) SampleTraits Value :=
  samplePipeOver none source sink steps none

/-- An embedded integration spec that carries the given configuration and flows. -/
def sampleSpec (configuration : List ConfigurationSpec) (flows : List (Flow Value)) :
    IntegrationSpec SampleTraits Value :=
  { Replicas := none, Flows := flows, Profile := "", Traits := [],
    Configuration := configuration, ServiceAccountName := "" }

/-- The binding of a URI that contributes application properties. -/
def propertyBinding (uri : String) (properties : List (String × String)) :
    Binding SampleTraits :=
  { URI := uri, Step := none, Traits := [], ApplicationProperties := properties }

/-- The Pipe of the examples on the configuration: it inherits a `property` and an
`env` entry; its source contributes `b=2` then `a=1`, its sink `c=3`. -/
def configuredPipe :
    Pipe (Option (Binding SampleTraits)) (Binding SampleTraits) SampleTraits Value :=
  samplePipeOver
    (some (sampleSpec [{ Type_ := "property", Value := "z=0" },
      { Type_ := "env", Value := "X=1" }] []))
    (some (propertyBinding "timer:tick" [("b", "2"), ("a", "1")]))
    (some (propertyBinding "log:out" [("c", "3")])) [] none

/-- The Pipe of the example on the order of the configuration: it inherits the
entries `property a=0` and `env z=9`, whose order by type is not their order by
value; its source contributes `c=3` then `b=2`. -/
def typedPipe :
    Pipe (Option (Binding SampleTraits)) (Binding SampleTraits) SampleTraits Value :=
  samplePipeOver
    (some (sampleSpec [{ Type_ := "property", Value := "a=0" },
      { Type_ := "env", Value := "z=9" }] []))
    (some (propertyBinding "timer:tick" [("c", "3"), ("b", "2")]))
    (some (propertyBinding "log:out" [])) [] none

/-- The Pipe of the example on an embedded source step: its source is a Kamelet
whose translation carries a step of its own, its sink is `log:out`, and it has
no steps. -/
def stepSourcePipe :
    Pipe (Option (Binding SampleTraits)) (Binding SampleTraits) SampleTraits Value :=
  samplePipe
    (some { URI := "kamelet:timer-source", Traits := [], ApplicationProperties := [],
            Step := some [("kamelet", Value.map [("name", Value.str "data-type-action")])] })
    (uriEndpoint "log:out") []

/-- The binding of a URI that contributes trait settings. -/
def traitBinding (uri : String) (traits : SampleTraits) : Binding SampleTraits :=
  { URI := uri, Step := none, Traits := traits, ApplicationProperties := [] }

/-- The Pipe of the example on a trait conflict: the source enables the `knative`
trait, the one step sets a `camel` option, the sink disables the `knative` trait. -/
def conflictPipe :
    Pipe (Option (Binding SampleTraits)) (Binding SampleTraits) SampleTraits Value :=
  samplePipe (some (traitBinding "timer:tick" [("knative.enabled", "true")]))
    (some (traitBinding "log:out" [("knative.enabled", "false")]))
    [some (traitBinding "direct:a" [("camel.runtime-version", "3.8.1")])]

/-- The sample environment on a cluster with Knative serving installed and a
platform whose spec sets the profile `OpenShift` and whose status sets none. -/
def platformEnv :
    Env (Option (Binding SampleTraits)) (Binding SampleTraits) SampleTraits Value :=
  { sampleEnv with
    GetForResource := fun _ =>
      (some { Spec := { Profile := "OpenShift" },
              Status := { Profile := "", Cluster := "Kubernetes" } }, none)
    IsServingInstalled := .ok true }

/-- The sample environment with every `ApplicationProperties` map enumerated in
the reverse order. -/
def reversedEnv :
    Env (Option (Binding SampleTraits)) (Binding SampleTraits) SampleTraits Value :=
  { sampleEnv with
    Translate := fun ctx ec ep =>
      match sampleEnv.Translate ctx ec ep with
      | .ok b => .ok { b with ApplicationProperties := b.ApplicationProperties.reverse }
      | .error err => .error err
    maybeErrorHandler := fun eh ctx =>
      match sampleEnv.maybeErrorHandler eh ctx with
      | .ok (some b) =>
        .ok (some { b with ApplicationProperties := b.ApplicationProperties.reverse })
      | .ok none => .ok none
      | .error err => .error err }

/-! ## The knative trait (`pkg/trait/knative.go`)

Conventions, on top of those above:

* a Go function that changes its arguments in place and returns an `error` is a
  function from the state before to the state after and the error (`none` is
  `nil`): the state a failed call leaves behind is part of its result;
* the objects of the Resource Collection are of a type `O` that the collaborators
  choose; the collection is the list of its items, in order;
* `Environment.ClientCalls` is the list of the calls made to the cluster so far,
  oldest first; a cluster function may answer according to it.
-/

namespace Trait

/-- Service type (`knativeapi.CamelServiceType`), a string. -/
abbrev CamelServiceType := String

/-- Endpoint kind (`knativeapi.CamelEndpointKind`), a string. -/
abbrev CamelEndpointKind := String

/-- Constant `knativeapi.CamelServiceTypeEndpoint`. -/
def CamelServiceTypeEndpoint : CamelServiceType := "endpoint"

/-- Constant `knativeapi.CamelServiceTypeChannel`. -/
def CamelServiceTypeChannel : CamelServiceType := "channel"

/-- Constant `knativeapi.CamelServiceTypeEvent`. -/
def CamelServiceTypeEvent : CamelServiceType := "event"

/-- Constant `knativeapi.CamelEndpointKindSource`. -/
def CamelEndpointKindSource : CamelEndpointKind := "source"

/-- Constant `knativeapi.CamelEndpointKindSink`. -/
def CamelEndpointKindSink : CamelEndpointKind := "sink"

/-- Constant `knativeHistoryHeader`. -/
def knativeHistoryHeader : String := "ce-knativehistory"

/-- The string of `serving.SchemeGroupVersion`. -/
def servingGroupVersion : String := "serving.knative.dev/v1"

/-- Reference to an object (`corev1.ObjectReference`), the fields in use. -/
structure ObjectReference where
  Kind : String
  Namespace : String
  Name : String
  APIVersion : String
  deriving DecidableEq, Repr

/-- A parsed URL (`url.URL`), the fields in use. -/
structure URL where
  Scheme : String
  Host : String
  Path : String
  deriving DecidableEq, Repr

/-- Group, version and kind of an object (`schema.GroupVersionKind`). -/
structure GroupVersionKind where
  Group : String
  Version : String
  Kind : String
  deriving DecidableEq, Repr

/-- Method `GroupVersionKind.ToAPIVersionAndKind`. -/
def GroupVersionKind.ToAPIVersionAndKind (gvk : GroupVersionKind) : String × String :=
  (if gvk.Group = "" then gvk.Version else gvk.Group ++ "/" ++ gvk.Version, gvk.Kind)

/-- Filter of a Trigger (`eventing.TriggerFilter`). -/
structure TriggerFilter where
  Attributes : List (String × String)
  deriving DecidableEq, Repr

/-- Spec of a Trigger (`eventing.TriggerSpec`), the fields `createTrigger` reads. -/
structure TriggerSpec where
  Broker : String
  Filter : Option TriggerFilter
  deriving DecidableEq, Repr

/-- A Trigger (`eventing.Trigger`), as far as `createTrigger` looks at it. -/
structure Trigger where
  Spec : TriggerSpec
  deriving DecidableEq, Repr

/-- One service of the Camel environment (`knativeapi.CamelServiceDefinition`). -/
structure CamelServiceDefinition where
  ServiceType : CamelServiceType
  Name : String
  URL : String := ""
  Path : String := ""
  Metadata : List (String × String) := []
  SinkBinding : Bool := false
  deriving DecidableEq, Repr

/-- The Camel environment (`knativeapi.CamelEnvironment`). -/
structure CamelEnvironment where
  Services : List CamelServiceDefinition
  deriving DecidableEq, Repr

/-- Phase of an Integration (`v1.IntegrationPhase`): the three phases the trait
names, and any other. -/
inductive IntegrationPhase where
  | Initialization
  | Deploying
  | Running
  | other (name : String)
  deriving DecidableEq, Repr

/-- Status of an Integration (`v1.IntegrationStatus`), the fields in use. -/
structure IntegrationStatus where
  Phase : IntegrationPhase
  Capabilities : List String
  deriving DecidableEq, Repr

/-- The Integration (`v1.Integration`) as the trait sees it: metadata and status. -/
structure Integration where
  ObjectMeta : ObjectMeta
  Status : IntegrationStatus
  deriving DecidableEq, Repr

/-- The configuration of the trait (`traitv1.KnativeTrait` and its `Enabled`). -/
structure knativeTrait where
  Enabled : Option Bool := none
  Configuration : String := ""
  ChannelSources : List String := []
  ChannelSinks : List String := []
  EndpointSources : List String := []
  EndpointSinks : List String := []
  EventSources : List String := []
  EventSinks : List String := []
  FilterSourceChannels : Option Bool := none
  SinkBinding : Option Bool := none
  Auto : Option Bool := none
  NamespaceLabel : Option Bool := none
  deriving DecidableEq, Repr

/-- A call to the cluster through the client. -/
inductive ClusterCall where
  | GetAddressableReference (possibleRefs : List ObjectReference) (ns name : String)
  | GetSinkURL (ref : ObjectReference) (ns : String)
  | EnableKnativeBindInNamespace (ns : String)
  | ResolveIntegrationSources
  deriving DecidableEq, Repr

/-- A deferred post-action (an element of `Environment.PostStepProcessors`): the
closure that `configureSinkBinding` registers, given by the trait and the
reference it captures, or a processor of another trait. -/
inductive PostStepProcessor where
  | sinkBinding (t : knativeTrait) (ref : ObjectReference)
  | foreign (id : String)
  deriving DecidableEq, Repr

/-- The run context (`trait.Environment`), the fields the knative trait uses. -/
structure Environment (O : Type) where
  Integration : Option Integration
  Resources : List O
  PostStepProcessors : List PostStepProcessor
  ApplicationProperties : List (String × String)
  ClientCalls : List ClusterCall

/-- What the functions of `knative.go` work on: the `Environment` and the
`CamelEnvironment` they are handed. -/
structure Run (O : Type) where
  e : Environment O
  env : CamelEnvironment

/-- The `urlProvider` closure handed to a generation callback. -/
abbrev URLProvider (O : Type) := Run O → Run O × Except Error URL

/-- A generation callback (`gen`). -/
abbrev Gen (O : Type) :=
  ObjectReference → String → URLProvider O → Run O → Run O × Option Error

/-- What `knative.go` calls in other packages, and the constants it reads from
them. -/
structure Deps (O : Type) where
  /-- Constant `knativeapi.CamelMetaEndpointKind`. -/
  CamelMetaEndpointKind : String
  /-- Constant `knativeapi.CamelMetaKnativeAPIVersion`. -/
  CamelMetaKnativeAPIVersion : String
  /-- Constant `knativeapi.CamelMetaKnativeKind`. -/
  CamelMetaKnativeKind : String
  /-- Constant `knativeapi.CamelMetaKnativeName`. -/
  CamelMetaKnativeName : String
  /-- Constant `knativeapi.CamelMetaKnativeReply`. -/
  CamelMetaKnativeReply : String
  /-- Constant `knativeapi.CamelMetaFilterPrefix`. -/
  CamelMetaFilterPrefix : String
  /-- Function `knativeutil.NormalizeToURI`. -/
  NormalizeToURI : CamelServiceType → String → String
  /-- Function `knativeutil.ExtractObjectReference`. -/
  ExtractObjectReference : String → Except Error ObjectReference
  /-- Function `knativeutil.ExtractEventType`. -/
  ExtractEventType : String → String
  /-- Function `knativeutil.FillMissingReferenceData`: the candidates of the static table. -/
  FillMissingReferenceData : CamelServiceType → ObjectReference → List ObjectReference
  /-- Method `CamelServiceType.ResourceDescription`. -/
  ResourceDescription : CamelServiceType → String → String
  /-- Function `knativeapi.BuildCamelServiceDefinition`. -/
  BuildCamelServiceDefinition :
    String → CamelEndpointKind → CamelServiceType → URL → String → String →
      Except Error CamelServiceDefinition
  /-- Method `CamelEnvironment.SetSinkBinding`. -/
  SetSinkBinding :
    CamelEnvironment → String → CamelEndpointKind → CamelServiceType → String → String →
      CamelEnvironment
  /-- Function `knativeutil.GetAddressableReference`, after the calls made so far. -/
  GetAddressableReference :
    List ClusterCall → List ObjectReference → String → String → Except Error ObjectReference
  /-- Function `knativeutil.GetSinkURL`, after the calls made so far. -/
  GetSinkURL : List ClusterCall → ObjectReference → String → Except Error URL
  /-- Function `knativeutil.EnableKnativeBindInNamespace`, after the calls made so far. -/
  EnableKnativeBindInNamespace : List ClusterCall → String → Except Error Bool
  /-- Predicate `k8serrors.IsNotFound`. -/
  IsNotFound : Error → Bool
  /-- Function `knativeutil.CreateSubscription`. -/
  CreateSubscription : ObjectReference → String → String → O
  /-- Function `knativeutil.CreateTrigger`. -/
  CreateTrigger : ObjectReference → String → String → String → O
  /-- Function `knativeutil.CreateSinkBinding`. -/
  CreateSinkBinding : ObjectReference → ObjectReference → O
  /-- Method `GetObjectKind().GroupVersionKind()` of an object. -/
  GroupVersionKind : O → GroupVersionKind
  /-- The type assertion `object.(*eventing.Trigger)`. -/
  AsTrigger : O → Option Trigger
  /-- Method `Collection.GetController`, with the filter that accepts every object. -/
  GetController : List O → Option O

/-! ### Library functions and the collaborators modelled from the specification -/

/-- Library `strings.Trim(s, cutset)`: `s` without the leading and trailing
characters that are in `cutset`. -/
def stringsTrim (s cutset : String) : String :=
  String.mk (((s.toList.dropWhile (fun c => c ∈ cutset.toList)).reverse.dropWhile
    (fun c => c ∈ cutset.toList)).reverse)

/-- Library `strings.Contains(s, substr)`. -/
def stringsContains (s substr : String) : Bool := decide (substr.toList <:+: s.toList)

/-- Library `sort.Strings(xs)`: `xs` in increasing order. -/
def sortStrings (xs : List String) : List String :=
  xs.insertionSort (fun a b => a.toList ≤ b.toList)

/-- Library `pointer.BoolDeref(p, def)`. -/
def BoolDeref (p : Option Bool) (default : Bool) : Bool := p.getD default

/-- Index expression `m[key]` on a `map[string]string`: the empty string when the
key is missing. -/
def mapGet (m : List (String × String)) (key : String) : String :=
  match m.find? (fun kv => kv.1 = key) with
  | some kv => kv.2
  | none => ""

/-- A `for ... range` loop whose body may return an error: the items are visited
in order until the body fails. -/
def forEach {α σ : Type} (body : α → σ → σ × Option Error) : List α → σ → σ × Option Error
  | [], s => (s, none)
  | x :: rest, s =>
    match body x s with
    | (s1, some err) => (s1, some err)
    | (s1, none) => forEach body rest s1

variable {O : Type}

/-- Modelled from the spec: `Collection.Add` of the Resource Collection, "an
in-memory ordered store of synthesized deployable objects", whose code
(`pkg/util/kubernetes`) is outside `src/`: the object is added at the end. -/
def Add (resources : List O) (resource : O) : List O := resources ++ [resource]

/-- Modelled from the spec: `Collection.AddFirst`, outside `src/`: it "inserts the
binding object at the front of the Resource Collection". -/
def AddFirst (resources : List O) (resource : O) : List O := resource :: resources

/-- Modelled from the spec: `Collection.HasKnativeTrigger`, outside `src/`: whether
some Trigger of the collection satisfies the predicate. -/
def HasKnativeTrigger (d : Deps O) (resources : List O) (predicate : Trigger → Bool) : Bool :=
  resources.any (fun res =>
    match d.AsTrigger res with
    | some trigger => predicate trigger
    | none => false)

/-- Modelled from the spec: `CamelEnvironment.ContainsService`, outside `src/`:
whether "an equivalent service definition is already present", one of the same
name, endpoint kind and service type and of matching API version and kind of
object, where an empty API version or kind in the question matches any (the
tests ask with both empty). -/
def ContainsService (d : Deps O) (env : CamelEnvironment) (name : String)
    (endpointKind : CamelEndpointKind) (serviceType : CamelServiceType)
    (apiVersion kind : String) : Bool :=
  env.Services.any (fun svc =>
    svc.Name = name ∧
    mapGet svc.Metadata d.CamelMetaEndpointKind = endpointKind ∧
    svc.ServiceType = serviceType ∧
    (apiVersion = "" ∨ mapGet svc.Metadata d.CamelMetaKnativeAPIVersion = apiVersion) ∧
    (kind = "" ∨ mapGet svc.Metadata d.CamelMetaKnativeKind = kind))

/-- Modelled from the spec: `Environment.IntegrationInPhase`, outside `src/`:
there is an Integration and its phase is one of the given ones. -/
def Environment.IntegrationInPhase (e : Environment O) (phases : List IntegrationPhase) : Bool :=
  match e.Integration with
  | some it => phases.contains it.Status.Phase
  | none => false

/-- Modelled from the spec: `Environment.IntegrationInRunningPhases`, outside
`src/`: the "active lifecycle phases (deploying/running)". -/
def Environment.IntegrationInRunningPhases (e : Environment O) : Bool :=
  e.IntegrationInPhase [.Deploying, .Running]

/-- The Integration that `e.Integration` points to. The functions below run after
`Configure` has seen that it is not nil; of a nil one they would read empty
fields here (in Go, they would panic). -/
def Environment.integration (e : Environment O) : Trait.Integration :=
  match e.Integration with
  | some it => it
  | none =>
    { ObjectMeta := { Namespace := "", Name := "", Annotations := [], Labels := [],
                      OwnerReferences := [] }
      Status := { Phase := .other "", Capabilities := [] } }

/-- The run after one more call to the cluster. -/
def Run.called (s : Run O) (call : ClusterCall) : Run O :=
  { s with e := { s.e with ClientCalls := s.e.ClientCalls ++ [call] } }

/-! ### The functions of `knative.go` -/

/-- Method `knativeTrait.extractServices`. -/
def extractServices (d : Deps O) (names : List String) (serviceType : CamelServiceType) :
    List String :=
  let answer := names.filterMap (fun item =>
    let i := stringsTrim item " \t\""
    if i ≠ "" then some (d.NormalizeToURI serviceType i) else none)
  sortStrings answer

/-- The `urlProvider` closure of `withServiceDo`. -/
def urlProvider (d : Deps O) (serviceType : CamelServiceType) (ref actualRef : ObjectReference) :
    URLProvider O := fun s =>
  let ns := s.e.integration.ObjectMeta.Namespace
  match d.GetSinkURL s.e.ClientCalls actualRef ns with
  | .error err =>
    (s.called (.GetSinkURL actualRef ns),
      .error (.wrapped ("cannot determine address of "
        ++ d.ResourceDescription serviceType ref.Name) err))
  | .ok targetURL => (s.called (.GetSinkURL actualRef ns), .ok targetURL)

/-- The part of `withServiceDo` that settles `actualRef`: the one candidate, or
the answer of a lookup among the candidates. -/
def resolveReference (d : Deps O) (serviceType : CamelServiceType) (ref : ObjectReference)
    (possibleRefs : List ObjectReference) (s : Run O) : Run O × Except Error ObjectReference :=
  match possibleRefs with
  | [only] => (s, .ok only)
  | _ =>
    let ns := s.e.integration.ObjectMeta.Namespace
    let s1 := s.called (.GetAddressableReference possibleRefs ns ref.Name)
    match d.GetAddressableReference s.e.ClientCalls possibleRefs ns ref.Name with
    | .error err =>
      if d.IsNotFound err then
        (s1, .error (.text ("cannot find " ++ d.ResourceDescription serviceType ref.Name)))
      else
        (s1, .error (.wrapped ("error looking up "
          ++ d.ResourceDescription serviceType ref.Name) err))
    | .ok actualRef => (s1, .ok actualRef)

/-- The body of the loop of `withServiceDo`, for one service URI. -/
def withService (d : Deps O) (skipDuplicates : Bool) (serviceType : CamelServiceType)
    (endpointKind : CamelEndpointKind) (gen : Gen O) (serviceURI : String) (s : Run O) :
    Run O × Option Error :=
  match d.ExtractObjectReference serviceURI with
  | .error err => (s, some err)
  | .ok ref =>
    if skipDuplicates ∧
        ContainsService d s.env ref.Name endpointKind serviceType ref.APIVersion ref.Kind then
      (s, none)
    else
      let possibleRefs := d.FillMissingReferenceData serviceType ref
      match resolveReference d serviceType ref possibleRefs s with
      | (s1, .error err) => (s1, some err)
      | (s1, .ok actualRef) =>
        match gen actualRef serviceURI (urlProvider d serviceType ref actualRef) s1 with
        | (s2, some err) =>
          (s2, some (.wrapped ("unexpected error while executing handler for "
            ++ d.ResourceDescription serviceType ref.Name) err))
        | (s2, none) => (s2, none)

/-- Method `knativeTrait.withServiceDo`. -/
def withServiceDo (d : Deps O) (skipDuplicates : Bool) (serviceURIs : List String)
    (serviceType : CamelServiceType) (endpointKind : CamelEndpointKind) (gen : Gen O)
    (s : Run O) : Run O × Option Error :=
  forEach (withService d skipDuplicates serviceType endpointKind gen)
    (extractServices d serviceURIs serviceType) s

/-- Method `knativeTrait.ifServiceMissingDo`. -/
def ifServiceMissingDo (d : Deps O) (serviceURIs : List String)
    (serviceType : CamelServiceType) (endpointKind : CamelEndpointKind) (gen : Gen O)
    (s : Run O) : Run O × Option Error :=
  withServiceDo d true serviceURIs serviceType endpointKind gen s

/-- Method `knativeTrait.createSubscription`. -/
def createSubscription (d : Deps O) (e : Environment O) (ref : ObjectReference)
    (path : String) : Environment O × Option Error :=
  let ref :=
    if ref.Namespace = "" then { ref with Namespace := e.integration.ObjectMeta.Namespace }
    else ref
  let sub := d.CreateSubscription ref e.integration.ObjectMeta.Name path
  ({ e with Resources := Add e.Resources sub }, none)

/-- Method `knativeTrait.createTrigger`. -/
def createTrigger (d : Deps O) (e : Environment O) (ref : ObjectReference)
    (eventType path : String) : Environment O :=
  let found := HasKnativeTrigger d e.Resources (fun trigger =>
    trigger.Spec.Broker == ref.Name &&
      match trigger.Spec.Filter with
      | some filter => mapGet filter.Attributes "type" == eventType -- can be also missing
      | none => false)
  if ¬ found then
    let ref :=
      if ref.Namespace = "" then { ref with Namespace := e.integration.ObjectMeta.Namespace }
      else ref
    let trigger := d.CreateTrigger ref e.integration.ObjectMeta.Name eventType path
    { e with Resources := Add e.Resources trigger }
  else e

/-- The callback of the sinks in `configureChannels`, `configureEndpoints` and
`configureEvents`, which differ in the service type only. -/
def sinkGen (d : Deps O) (serviceType : CamelServiceType) : Gen O :=
  fun ref _serviceURI urlProvider s =>
    match urlProvider s with
    | (s1, .error err) => (s1, some err)
    | (s1, .ok loc) =>
      match d.BuildCamelServiceDefinition ref.Name CamelEndpointKindSink serviceType loc
          ref.APIVersion ref.Kind with
      | .error err => (s1, some err)
      | .ok svc => ({ s1 with env := { s1.env with Services := s1.env.Services ++ [svc] } }, none)

/-- The callback of the sources in `configureChannels`. -/
def channelSourceGen (d : Deps O) (t : knativeTrait) : Gen O :=
  fun ref _serviceURI urlProvider s =>
    match urlProvider s with
    | (s1, .error err) => (s1, some err)
    | (s1, .ok loc) =>
      let path := "/channels/" ++ ref.Name
      let metadata := [
        (d.CamelMetaEndpointKind, CamelEndpointKindSource),
        (d.CamelMetaKnativeAPIVersion, ref.APIVersion),
        (d.CamelMetaKnativeKind, ref.Kind),
        (d.CamelMetaKnativeReply, "false")]
      let metadata :=
        if BoolDeref t.FilterSourceChannels false then
          mapSet metadata (d.CamelMetaFilterPrefix ++ knativeHistoryHeader) loc.Host
        else metadata
      let svc : CamelServiceDefinition :=
        { Name := ref.Name, ServiceType := CamelServiceTypeChannel, Path := path,
          Metadata := metadata }
      let s2 : Run O := { s1 with env := { s1.env with Services := s1.env.Services ++ [svc] } }
      match createSubscription d s2.e ref path with
      | (e3, some err) => ({ s2 with e := e3 }, some err)
      | (e3, none) => ({ s2 with e := e3 }, none)

/-- Method `knativeTrait.configureChannels`. -/
def configureChannels (d : Deps O) (t : knativeTrait) (s : Run O) : Run O × Option Error :=
  -- Sources
  match ifServiceMissingDo d t.ChannelSources CamelServiceTypeChannel CamelEndpointKindSource
      (channelSourceGen d t) s with
  | (s1, some err) => (s1, some err)
  | (s1, none) =>
    -- Sinks
    match ifServiceMissingDo d t.ChannelSinks CamelServiceTypeChannel CamelEndpointKindSink
        (sinkGen d CamelServiceTypeChannel) s1 with
    | (s2, some err) => (s2, some err)
    | (s2, none) => (s2, none)

/-- The body of the loop over the sources in `configureEndpoints`. -/
def endpointSource (d : Deps O) (endpoint : String) (s : Run O) : Run O × Option Error :=
  match d.ExtractObjectReference endpoint with
  | .error err => (s, some err)
  | .ok ref =>
    if ContainsService d s.env endpoint CamelEndpointKindSource CamelServiceTypeEndpoint
        servingGroupVersion "Service" then
      (s, none)
    else
      let svc : CamelServiceDefinition :=
        { Name := ref.Name, ServiceType := CamelServiceTypeEndpoint, Path := "/",
          Metadata := [
            (d.CamelMetaEndpointKind, CamelEndpointKindSource),
            (d.CamelMetaKnativeAPIVersion, servingGroupVersion),
            (d.CamelMetaKnativeKind, "Service")
            -- knative.reply is left to default ("true") in case of simple service
          ] }
      ({ s with env := { s.env with Services := s.env.Services ++ [svc] } }, none)

/-- Method `knativeTrait.configureEndpoints`. -/
def configureEndpoints (d : Deps O) (t : knativeTrait) (s : Run O) : Run O × Option Error :=
  -- Sources
  let serviceSources := extractServices d t.EndpointSources CamelServiceTypeEndpoint
  match forEach (endpointSource d) serviceSources s with
  | (s1, some err) => (s1, some err)
  | (s1, none) =>
    -- Sinks
    match ifServiceMissingDo d t.EndpointSinks CamelServiceTypeEndpoint CamelEndpointKindSink
        (sinkGen d CamelServiceTypeEndpoint) s1 with
    | (s2, some err) => (s2, some err)
    | (s2, none) => (s2, none)

/-- The callback of the sources in `configureEvents`. -/
def eventSourceGen (d : Deps O) : Gen O :=
  fun ref serviceURI _ s =>
    -- Iterate over all, without skipping duplicates
    let eventType := d.ExtractEventType serviceURI
    let serviceName := if eventType = "" then "default" else eventType
    let servicePath := "/events/" ++ eventType
    let s1 : Run O := { s with e := createTrigger d s.e ref eventType servicePath }
    if ¬ ContainsService d s1.env serviceName CamelEndpointKindSource CamelServiceTypeEvent
        ref.APIVersion ref.Kind then
      let svc : CamelServiceDefinition :=
        { Name := serviceName, ServiceType := CamelServiceTypeEvent, Path := servicePath,
          Metadata := [
            (d.CamelMetaEndpointKind, CamelEndpointKindSource),
            (d.CamelMetaKnativeAPIVersion, ref.APIVersion),
            (d.CamelMetaKnativeKind, ref.Kind),
            (d.CamelMetaKnativeName, ref.Name),
            (d.CamelMetaKnativeReply, "false")] }
      ({ s1 with env := { s1.env with Services := s1.env.Services ++ [svc] } }, none)
    else (s1, none)

/-- Method `knativeTrait.configureEvents`. -/
def configureEvents (d : Deps O) (t : knativeTrait) (s : Run O) : Run O × Option Error :=
  -- Sources
  match withServiceDo d false t.EventSources CamelServiceTypeEvent CamelEndpointKindSource
      (eventSourceGen d) s with
  | (s1, some err) => (s1, some err)
  | (s1, none) =>
    -- Sinks
    match ifServiceMissingDo d t.EventSinks CamelServiceTypeEvent CamelEndpointKindSink
        (sinkGen d CamelServiceTypeEvent) s1 with
    | (s2, some err) => (s2, some err)
    | (s2, none) => (s2, none)

/-- Method `knativeTrait.isSinkBindingAllowed`. -/
def isSinkBindingAllowed (d : Deps O) (t : knativeTrait) (e : Environment O) : Bool :=
  let services := extractServices d t.ChannelSinks CamelServiceTypeChannel
  let services := services ++ extractServices d t.EndpointSinks CamelServiceTypeEndpoint
  let services := services ++ extractServices d t.EventSinks CamelServiceTypeEvent
  if services.length ≠ 1 then false
  else if e.integration.ObjectMeta.OwnerReferences.any
      (fun owner => stringsContains owner.APIVersion "sources.knative.dev") then false
  else true

/-- The post-action that `configureSinkBinding` registers, run on the
`Environment` it is given. -/
def sinkBindingPostStep (d : Deps O) (t : knativeTrait) (ref : ObjectReference)
    (e : Environment O) : Environment O × Option Error :=
  let sinkBindingInjected := e.Resources.any (fun object =>
    let gvk := d.GroupVersionKind object
    gvk.Kind = "SinkBinding" ∧ stringsContains gvk.Group "knative")
  if sinkBindingInjected then (e, none)
  else
    match d.GetController e.Resources with
    | some controller =>
      let gvk := d.GroupVersionKind controller
      let (av, k) := gvk.ToAPIVersionAndKind
      let source : ObjectReference :=
        { Kind := k, Namespace := e.integration.ObjectMeta.Namespace,
          Name := e.integration.ObjectMeta.Name, APIVersion := av }
      let target : ObjectReference :=
        { Kind := ref.Kind, Namespace := e.integration.ObjectMeta.Namespace,
          Name := ref.Name, APIVersion := ref.APIVersion }
      let e1 : Environment O :=
        if BoolDeref t.NamespaceLabel true then
          -- set the namespace label to allow automatic sinkbinding injection
          let ns := e.integration.ObjectMeta.Namespace
          let labelled : Environment O :=
            { e with ClientCalls := e.ClientCalls ++ [.EnableKnativeBindInNamespace ns] }
          match d.EnableKnativeBindInNamespace e.ClientCalls ns with
          | .error _ => labelled -- the error is logged
          | .ok _ => labelled -- the label is reported in the log when it was set
        else e
      -- Add the SinkBinding in first position, to make sure it is created
      -- before the reference source
      ({ e1 with Resources := AddFirst e1.Resources (d.CreateSinkBinding source target) }, none)
    | none => (e, none)

/-- The callback of `configureSinkBinding`. -/
def sinkBindingGen (d : Deps O) (t : knativeTrait) (serviceType : CamelServiceType) : Gen O :=
  fun ref _serviceURI _ s =>
    -- Mark the service which will be used as SinkBinding
    let marked := d.SetSinkBinding s.env ref.Name CamelEndpointKindSink serviceType
      ref.APIVersion ref.Kind
    let s1 : Run O := { s with env := marked }
    if s1.e.IntegrationInPhase [.Deploying, .Running] then
      ({ s1 with e := { s1.e with
          PostStepProcessors := s1.e.PostStepProcessors ++ [.sinkBinding t ref] } }, none)
    else (s1, none)

/-- Method `knativeTrait.configureSinkBinding`. -/
def configureSinkBinding (d : Deps O) (t : knativeTrait) (s : Run O) : Run O × Option Error :=
  if ¬ BoolDeref t.SinkBinding false then (s, none)
  else
    let serviceType : CamelServiceType := ""
    let services := extractServices d t.ChannelSinks CamelServiceTypeChannel
    let serviceType := if services.length > 0 then CamelServiceTypeChannel else serviceType
    let services := services ++ extractServices d t.EndpointSinks CamelServiceTypeEndpoint
    let serviceType :=
      if serviceType.length = 0 ∧ services.length > 0 then CamelServiceTypeEndpoint
      else serviceType
    let services := services ++ extractServices d t.EventSinks CamelServiceTypeEvent
    let serviceType :=
      if serviceType.length = 0 ∧ services.length > 0 then CamelServiceTypeEvent
      else serviceType
    if services.length ≠ 1 then
      (s, some (.text ("sinkbinding can only be used with a single sink: found "
        ++ toString services.length ++ " sinks")))
    else
      withServiceDo d false services serviceType CamelEndpointKindSink
        (sinkBindingGen d t serviceType) s

/-! ### Vocabulary of the statements -/

/-- The sinks that `configureSinkBinding` and `isSinkBindingAllowed` extract: the
channel sinks, then the endpoint sinks, then the event sinks. -/
def selectedSinks (d : Deps O) (t : knativeTrait) : List String :=
  extractServices d t.ChannelSinks CamelServiceTypeChannel
    ++ extractServices d t.EndpointSinks CamelServiceTypeEndpoint
    ++ extractServices d t.EventSinks CamelServiceTypeEvent

/-- The service type that `configureSinkBinding` settles on: the type of the first
of the three lists of sinks that is not empty (the empty string when all are). -/
def sinkServiceType (d : Deps O) (t : knativeTrait) : CamelServiceType :=
  if (extractServices d t.ChannelSinks CamelServiceTypeChannel).length > 0 then
    CamelServiceTypeChannel
  else if (extractServices d t.EndpointSinks CamelServiceTypeEndpoint).length > 0 then
    CamelServiceTypeEndpoint
  else if (extractServices d t.EventSinks CamelServiceTypeEvent).length > 0 then
    CamelServiceTypeEvent
  else ""

/-- The resolved reference `actual` agrees with the reference `ref` read from the
URI: the same name, and the API version and kind of `ref` where it names them. -/
def Refines (actual ref : ObjectReference) : Prop :=
  actual.Name = ref.Name ∧
  (ref.APIVersion = "" ∨ actual.APIVersion = ref.APIVersion) ∧
  (ref.Kind = "" ∨ actual.Kind = ref.Kind)

/-- Modelled from the spec: `knativeutil.CreateTrigger`, outside `src/`, creates
"a Trigger carrying an event-type filter" for the broker: the object is a Trigger,
its broker is the name of the reference, its filter is present and its `type`
attribute reads as the event type (a missing attribute reads as the empty one). -/
def CreatesFilteredTrigger (d : Deps O) : Prop :=
  ∀ (ref : ObjectReference) (serviceName eventType path : String),
    ∃ trigger filter,
      d.AsTrigger (d.CreateTrigger ref serviceName eventType path) = some trigger ∧
      trigger.Spec.Broker = ref.Name ∧
      trigger.Spec.Filter = some filter ∧
      mapGet filter.Attributes "type" = eventType

/-- The call is an address lookup (`GetSinkURL`). -/
def ClusterCall.isGetSinkURL : ClusterCall → Bool
  | .GetSinkURL _ _ => true
  | _ => false

/-- The call is a lookup among candidates (`GetAddressableReference`). -/
def ClusterCall.isGetAddressableReference : ClusterCall → Bool
  | .GetAddressableReference _ _ _ => true
  | _ => false

/-- The error wrapping at the end of the body of `withServiceDo`. -/
def handled (d : Deps O) (serviceType : CamelServiceType) (ref : ObjectReference)
    (r : Run O × Option Error) : Run O × Option Error :=
  match r with
  | (s2, some err) =>
    (s2, some (.wrapped ("unexpected error while executing handler for "
      ++ d.ResourceDescription serviceType ref.Name) err))
  | (s2, none) => (s2, none)

/-! ### A sample cluster, for the examples -/

/-- Objects of the sample Resource Collection. -/
inductive SampleObject where
  | trigger (ns name : String) (t : Trigger)
  | subscription (channel : ObjectReference) (serviceName path : String)
  | sinkBinding (source target : ObjectReference)
  | deployment (name : String)
  deriving DecidableEq, Repr

/-- The part of a `knative:<type>/<name>` URI after the first slash. -/
def afterSlash (uri : String) : String :=
  String.mk ((uri.toList.dropWhile (fun c => c ≠ '/')).drop 1)

/-- The candidates of the sample static table: three kinds of channel, one kind
of endpoint, one kind of broker. -/
def sampleCandidates (serviceType : CamelServiceType) (ref : ObjectReference) :
    List ObjectReference :=
  if serviceType = CamelServiceTypeChannel then
    [{ ref with APIVersion := "messaging.knative.dev/v1", Kind := "Channel" },
     { ref with APIVersion := "messaging.knative.dev/v1", Kind := "InMemoryChannel" },
     { ref with APIVersion := "messaging.knative.dev/v1beta1", Kind := "KafkaChannel" }]
  else if serviceType = CamelServiceTypeEndpoint then
    [{ ref with APIVersion := servingGroupVersion, Kind := "Service" }]
  else
    [{ ref with APIVersion := "eventing.knative.dev/v1", Kind := "Broker" }]

/-- The sample collaborators. A URI is `knative:<type>/<name>`; the reference of
an event URI is the broker `default`; the cluster holds the Channels
`channel-source-1` and `channel-sink-1` and answers not-found for any other
channel; every object has the address `http://<name>.host/`. -/
def sampleDeps : Deps SampleObject :=
  { CamelMetaEndpointKind := "camel.endpoint.kind"
    CamelMetaKnativeAPIVersion := "knative.apiVersion"
    CamelMetaKnativeKind := "knative.kind"
    CamelMetaKnativeName := "knative.name"
    CamelMetaKnativeReply := "knative.reply"
    CamelMetaFilterPrefix := "filter."
    NormalizeToURI := fun serviceType str =>
      if "knative:".toList.isPrefixOf str.toList then str
      else "knative:" ++ serviceType ++ "/" ++ str
    ExtractObjectReference := fun uri =>
      if ¬ "knative:".toList.isPrefixOf uri.toList then
        .error (.text ("cannot extract a reference from " ++ uri))
      else if "knative:event".toList.isPrefixOf uri.toList then
        .ok { Kind := "", Namespace := "", Name := "default", APIVersion := "" }
      else .ok { Kind := "", Namespace := "", Name := afterSlash uri, APIVersion := "" }
    ExtractEventType := afterSlash
    FillMissingReferenceData := sampleCandidates
    ResourceDescription := fun serviceType subject =>
      (if serviceType = CamelServiceTypeEvent then "broker for " else "")
        ++ serviceType ++ " " ++ subject
    BuildCamelServiceDefinition := fun name endpointKind serviceType url apiVersion kind =>
      .ok { Name := name, ServiceType := serviceType,
            URL := url.Scheme ++ "://" ++ url.Host ++ url.Path,
            Metadata := [("camel.endpoint.kind", endpointKind),
              ("knative.apiVersion", apiVersion), ("knative.kind", kind)] }
    SetSinkBinding := fun env name endpointKind serviceType apiVersion kind =>
      { env with Services := env.Services.map (fun svc =>
          if svc.Name = name ∧ mapGet svc.Metadata "camel.endpoint.kind" = endpointKind ∧
              svc.ServiceType = serviceType ∧
              (apiVersion = "" ∨ mapGet svc.Metadata "knative.apiVersion" = apiVersion) ∧
              (kind = "" ∨ mapGet svc.Metadata "knative.kind" = kind) then
            { svc with SinkBinding := true }
          else svc) }
    GetAddressableReference := fun _ possibleRefs _ name =>
      if name = "channel-source-1" ∨ name = "channel-sink-1" then
        match possibleRefs.find? (fun ref => ref.Kind = "Channel") with
        | some ref => .ok ref
        | none => .error (.text "not found")
      else .error (.text "not found")
    GetSinkURL := fun _ ref _ => .ok { Scheme := "http", Host := ref.Name ++ ".host", Path := "/" }
    EnableKnativeBindInNamespace := fun _ _ => .ok true
    IsNotFound := fun err => err = .text "not found"
    CreateSubscription := .subscription
    CreateTrigger := fun ref serviceName eventType _ =>
      .trigger ref.Namespace (ref.Name ++ "-" ++ serviceName)
        { Spec := { Broker := ref.Name,
                    Filter := some { Attributes :=
                      if eventType = "" then [] else [("type", eventType)] } } }
    CreateSinkBinding := .sinkBinding
    GroupVersionKind := fun object =>
      match object with
      | .trigger _ _ _ => { Group := "eventing.knative.dev", Version := "v1", Kind := "Trigger" }
      | .subscription _ _ _ =>
        { Group := "messaging.knative.dev", Version := "v1", Kind := "Subscription" }
      | .sinkBinding _ _ => { Group := "sources.knative.dev", Version := "v1", Kind := "SinkBinding" }
      | .deployment _ => { Group := "apps", Version := "v1", Kind := "Deployment" }
    AsTrigger := fun object =>
      match object with
      | .trigger _ _ t => some t
      | _ => none
    GetController := fun resources =>
      resources.find? (fun object =>
        match object with
        | .deployment _ => true
        | _ => false) }

/-- The sample Integration `test` in namespace `ns`, in the given phase. -/
def sampleIntegration (phase : IntegrationPhase) : Trait.Integration :=
  { ObjectMeta := { Namespace := "ns", Name := "test", Annotations := [], Labels := [],
                    OwnerReferences := [] }
    Status := { Phase := phase, Capabilities := [] } }

/-- The sample run: the Integration `test` being deployed, its Deployment in the
Resource Collection, an empty Camel environment, no call made so far. -/
def sampleRun : Run SampleObject :=
  { e := { Integration := some (sampleIntegration .Deploying)
           Resources := [.deployment "test"]
           PostStepProcessors := []
           ApplicationProperties := []
           ClientCalls := [] }
    env := { Services := [] } }

/-! ### Vocabulary of the statements on `extractServices` -/

/-- The items of `names` that are not empty once the spaces, tabs and double
quotes around them are trimmed, each trimmed and normalised to its URI, in the
order of `names`. -/
def normalisedItems (d : Deps O) (names : List String) (serviceType : CamelServiceType) :
    List String :=
  ((names.map (fun item => stringsTrim item " \t\"")).filter (fun i => i ≠ "")).map
    (d.NormalizeToURI serviceType)

/-! ### Vocabulary of the statements on the sink binding -/

/-- Modelled from the spec: `knativeutil.CreateSinkBinding`, outside `src/`, creates
the "binding object" whose presence the post-action checks ("whether an
equivalent binding object already exists in the Resource Collection"): an
object of kind `SinkBinding` in a group whose name contains `knative`. -/
def CreatesKnativeSinkBinding (d : Deps O) : Prop :=
  ∀ source target : ObjectReference,
    (d.GroupVersionKind (d.CreateSinkBinding source target)).Kind = "SinkBinding" ∧
    stringsContains (d.GroupVersionKind (d.CreateSinkBinding source target)).Group "knative"
      = true

/-- The Resource Collection holds a Knative SinkBinding, as the post-action
looks for one. -/
def HasKnativeSinkBinding (d : Deps O) (resources : List O) : Prop :=
  ∃ o ∈ resources, (d.GroupVersionKind o).Kind = "SinkBinding" ∧
    stringsContains (d.GroupVersionKind o).Group "knative" = true

/-- The SinkBinding that the post-action creates for the Integration `it`, the
controller and the sink reference. -/
def newSinkBinding (d : Deps O) (it : Trait.Integration) (controller : O)
    (ref : ObjectReference) : O :=
  d.CreateSinkBinding
    { Kind := (d.GroupVersionKind controller).ToAPIVersionAndKind.2,
      Namespace := it.ObjectMeta.Namespace,
      Name := it.ObjectMeta.Name,
      APIVersion := (d.GroupVersionKind controller).ToAPIVersionAndKind.1 }
    { Kind := ref.Kind, Namespace := it.ObjectMeta.Namespace, Name := ref.Name,
      APIVersion := ref.APIVersion }

/-! ### `Configure` and `Apply` -/

/-- Status of a condition: "status∈{True,False,Unknown}". -/
inductive ConditionStatus where
  | True
  | False
  | Unknown
  deriving DecidableEq, Repr

/-- A condition that a trait reports (`TraitCondition`): "(type, status, reason,
message)". -/
structure TraitCondition where
  conditionType : String
  conditionStatus : ConditionStatus
  reason : String
  message : String
  deriving DecidableEq, Repr

/-- A source of the Integration (`v1.SourceSpec`), the fields of its `DataSpec`. -/
structure SourceSpec where
  Name : String
  Content : String
  deriving DecidableEq, Repr

/-- What `metadata.Each` hands to its consumer for a source
(`metadata.IntegrationMetadata`), the fields in use. -/
structure IntegrationMetadata where
  FromURIs : List String
  ToURIs : List String
  deriving DecidableEq, Repr

/-- What `Configure` and `Apply` call in other packages and the constants they
read from them, on top of what the functions above call. -/
structure TraitDeps (O : Type) extends Deps O where
  /-- Constant `v1.CapabilityKnative`. -/
  CapabilityKnative : String
  /-- Constant `v1.CapabilityPlatformHTTP`. -/
  CapabilityPlatformHTTP : String
  /-- Function `NewIntegrationConditionUserDisabled`. -/
  NewIntegrationConditionUserDisabled : TraitCondition
  /-- Function `kubernetes.ResolveIntegrationSources`, after the calls made so far. -/
  ResolveIntegrationSources :
    List ClusterCall → Trait.Integration → List O → Except Error (List SourceSpec)
  /-- Function `metadata.Each` with the catalog of the run: the metadata it hands
  to a consumer that always answers true, one for each source in order, or its
  error. -/
  Each : List SourceSpec → Except Error (List IntegrationMetadata)
  /-- Function `knativeutil.FilterURIs`. -/
  FilterURIs : List String → CamelServiceType → List String
  /-- Method `CamelEnvironment.Deserialize`. -/
  Deserialize : CamelEnvironment → String → Except Error CamelEnvironment
  /-- Method `CamelEnvironment.ToCamelProperties`. -/
  ToCamelProperties : CamelEnvironment → List (String × String)

/-- Modelled from the spec: `util.StringSliceUniqueAdd`, outside `src/`: a
capability is "a coarse feature flag on Integration status", so the item is
appended unless the slice holds it already. -/
def StringSliceUniqueAdd (slice : List String) (item : String) : List String :=
  if item ∈ slice then slice else slice ++ [item]

/-- Modelled from the spec: `knativeapi.NewCamelEnvironment`, outside `src/`: the
environment without services. -/
def NewCamelEnvironment : CamelEnvironment := { Services := [] }

/-- The statement
`util.StringSliceUniqueAdd(&e.Integration.Status.Capabilities, capability)`.
`Apply` runs after `Configure` has seen that the Integration is not nil; a nil
one is left as it is here (in Go, the statement would panic). -/
def Environment.addCapability (e : Environment O) (capability : String) : Environment O :=
  match e.Integration with
  | some it =>
    { e with
      Integration := some { it with
        Status := { it.Status with
          Capabilities := StringSliceUniqueAdd it.Status.Capabilities capability } } }
  | none => e

/-- Function `filterMetaItems`. -/
def filterMetaItems (c : TraitDeps O) (sources : List SourceSpec) (cst : CamelServiceType)
    (uriType : String) : Except Error (List String) :=
  match c.Each sources with
  | .error err => .error err
  | .ok metas =>
    let items := metas.foldl (fun (items : List String) meta =>
      let uris :=
        if uriType = "from" then meta.FromURIs
        else if uriType = "to" then meta.ToURIs
        else []
      items ++ c.FilterURIs uris cst) []
    .ok (sortStrings items)

/-- What `Configure` returns, with the trait and the environment as it leaves
them. -/
structure Configured (O : Type) where
  t : knativeTrait
  e : Environment O
  enabled : Bool
  condition : Option TraitCondition
  err : Option Error

/-- The part of `Configure` under `if pointer.BoolDeref(t.Auto, true)`, once the
sources are resolved. -/
def autoConfigure (c : TraitDeps O) (t : knativeTrait) (e : Environment O)
    (sources : List SourceSpec) : Configured O :=
  match (if t.ChannelSources.length = 0 then
      filterMetaItems c sources CamelServiceTypeChannel "from" else .ok t.ChannelSources) with
  | .error err => { t := t, e := e, enabled := false, condition := none, err := some err }
  | .ok items =>
  let t := { t with ChannelSources := items }
  match (if t.ChannelSinks.length = 0 then
      filterMetaItems c sources CamelServiceTypeChannel "to" else .ok t.ChannelSinks) with
  | .error err => { t := t, e := e, enabled := false, condition := none, err := some err }
  | .ok items =>
  let t := { t with ChannelSinks := items }
  match (if t.EndpointSources.length = 0 then
      filterMetaItems c sources CamelServiceTypeEndpoint "from" else .ok t.EndpointSources) with
  | .error err => { t := t, e := e, enabled := false, condition := none, err := some err }
  | .ok items =>
  let t := { t with EndpointSources := items }
  match (if t.EndpointSinks.length = 0 then
      filterMetaItems c sources CamelServiceTypeEndpoint "to" else .ok t.EndpointSinks) with
  | .error err => { t := t, e := e, enabled := false, condition := none, err := some err }
  | .ok items =>
  let t := { t with EndpointSinks := items }
  match (if t.EventSources.length = 0 then
      filterMetaItems c sources CamelServiceTypeEvent "from" else .ok t.EventSources) with
  | .error err => { t := t, e := e, enabled := false, condition := none, err := some err }
  | .ok items =>
  let t := { t with EventSources := items }
  match (if t.EventSinks.length = 0 then
      filterMetaItems c sources CamelServiceTypeEvent "to" else .ok t.EventSinks) with
  | .error err => { t := t, e := e, enabled := false, condition := none, err := some err }
  | .ok items =>
  let t := { t with EventSinks := items }
  let t :=
    if t.FilterSourceChannels = none then
      -- Filtering is no longer used by default
      { t with FilterSourceChannels := some false }
    else t
  let t :=
    if t.SinkBinding = none then
      { t with SinkBinding := some (isSinkBindingAllowed c.toDeps t e) }
    else t
  { t := t, e := e, enabled := true, condition := none, err := none }

/-- Method `knativeTrait.Configure`. -/
def Configure (c : TraitDeps O) (t : knativeTrait) (e : Environment O) : Configured O :=
  match e.Integration with
  | none => { t := t, e := e, enabled := false, condition := none, err := none }
  | some it =>
    if ¬ BoolDeref t.Enabled true then
      { t := t, e := e, enabled := false,
        condition := some c.NewIntegrationConditionUserDisabled, err := none }
    else if ¬ e.IntegrationInPhase [.Initialization] ∧ ¬ e.IntegrationInRunningPhases then
      { t := t, e := e, enabled := false, condition := none, err := none }
    else if BoolDeref t.Auto true then
      let e1 : Environment O :=
        { e with ClientCalls := e.ClientCalls ++ [.ResolveIntegrationSources] }
      match c.ResolveIntegrationSources e.ClientCalls it e.Resources with
      | .error err => { t := t, e := e1, enabled := false, condition := none, err := some err }
      | .ok sources => autoConfigure c t e1 sources
    else { t := t, e := e, enabled := true, condition := none, err := none }

/-- The body of `if e.IntegrationInRunningPhases()` in `Apply`: the Camel
environment is built and its properties are set in `e.ApplicationProperties`, in
the order of the list that stands for the map `env.ToCamelProperties()`. -/
def applyInRunningPhases (c : TraitDeps O) (t : knativeTrait) (e : Environment O) :
    Environment O × Option Error :=
  match (if t.Configuration ≠ "" then c.Deserialize NewCamelEnvironment t.Configuration
      else .ok NewCamelEnvironment) with
  | .error err => (e, some err)
  | .ok env =>
    match configureChannels c.toDeps t { e := e, env := env } with
    | (s1, some err) => (s1.e, some err)
    | (s1, none) =>
      match configureEndpoints c.toDeps t s1 with
      | (s2, some err) => (s2.e, some err)
      | (s2, none) =>
        match configureEvents c.toDeps t s2 with
        | (s3, some err) => (s3.e, some err)
        | (s3, none) =>
          match configureSinkBinding c.toDeps t s3 with
          | (s4, some err) => (s4.e, some err)
          | (s4, none) =>
            ({ s4.e with
               ApplicationProperties :=
                 (c.ToCamelProperties s4.env).foldl (fun m kv => mapSet m kv.1 kv.2)
                   s4.e.ApplicationProperties }, none)

/-- Method `knativeTrait.Apply`. -/
def Apply (c : TraitDeps O) (t : knativeTrait) (e : Environment O) :
    Environment O × Option Error :=
  let e :=
    if e.IntegrationInPhase [.Initialization] then e.addCapability c.CapabilityKnative else e
  let e :=
    if t.ChannelSources.length > 0 ∨ t.EndpointSources.length > 0 ∨ t.EventSources.length > 0 then
      e.addCapability c.CapabilityPlatformHTTP
    else e
  let e :=
    if t.ChannelSinks.length > 0 ∨ t.EndpointSinks.length > 0 ∨ t.EventSinks.length > 0 then
      e.addCapability c.CapabilityPlatformHTTP
    else e
  if e.IntegrationInRunningPhases then applyInRunningPhases c t e else (e, none)

/-- The sample collaborators of `Configure` and `Apply`: a source holds one URI,
its content, which it reads from; the properties of a Camel environment are the
names of its services. -/
def sampleTraitDeps : TraitDeps SampleObject :=
  { toDeps := sampleDeps
    CapabilityKnative := "knative"
    CapabilityPlatformHTTP := "platform-http"
    NewIntegrationConditionUserDisabled :=
      { conditionType := "TraitInfo", conditionStatus := .True,
        reason := "TraitConfiguration", message := "explicitly disabled by the user" }
    ResolveIntegrationSources := fun _ _ _ =>
      .ok [{ Name := "source-channel.groovy", Content := "knative:channel/channel-source-1" }]
    Each := fun sources =>
      .ok (sources.map (fun source => { FromURIs := [source.Content], ToURIs := [] }))
    FilterURIs := fun uris cst =>
      uris.filter (fun uri => ("knative:" ++ cst).toList.isPrefixOf uri.toList)
    Deserialize := fun env _ => .ok env
    ToCamelProperties := fun env =>
      env.Services.map (fun svc => ("camel.component.knative." ++ svc.Name, svc.ServiceType)) }

/-! ### The trait catalog, modelled from the specification

The engine that runs the traits (`trait_catalog.go`) and the traits `service` and
`knative-service` are outside `src/`; what follows is the engine as section 4.2
of the specification words it, over an environment of any type `σ`. -/

/-- Modelled from the spec: a trait variant, "identified by a stable id, carrying
a fixed priority (lower runs first) and a profile-applicability predicate", which
"exposes: `Configure(env) → (enabled, condition?, error)` and
`Apply(env) → error`"; both leave the environment as they changed it. -/
structure TraitVariant (σ : Type) where
  Id : String
  Priority : Nat
  ProfileApplicable : TraitProfile → Bool
  Configure : σ → σ × Bool × Option TraitCondition × Option Error
  Apply : σ → σ × Option Error

/-- Modelled from the spec: the catalog, "an ordered sequence of variants", with
the "id-keyed policy lookups for mutual exclusion": `policy profile id` is the
trait that wins over the trait `id` within the profile, if there is one. -/
structure Catalog (σ : Type) where
  traits : List (TraitVariant σ)
  policy : TraitProfile → String → Option String

/-- Modelled from the spec: the state of a run of the engine: the environment,
the traits whose `Configure` returned enabled so far, and the "accumulated
conditions". -/
structure CatalogRun (σ : Type) where
  env : σ
  enabled : List (TraitVariant σ)
  conditions : List TraitCondition

/-- Modelled from the spec: what a run of the engine returns: the environment
with its "list of executed traits", here their ids, and "the full list" of
conditions "generated during the run". -/
structure Outcome (σ : Type) where
  env : σ
  executed : List String
  conditions : List TraitCondition

/-- Modelled from the spec: the "informational condition naming the winner" that
the loser of a mutual exclusion records; type, status, reason and message are
those that `TestServiceWithKnativeServiceEnabled` expects for the trait
`service` and the winner `knative-service`. -/
def exclusionCondition (loser winner : String) : TraitCondition :=
  { conditionType := "TraitInfo"
    conditionStatus := .True
    reason := loser ++ "TraitConfiguration"
    message := "explicitly disabled by the platform: " ++ winner
      ++ " trait has priority over this trait" }

/-- Modelled from the spec: `Configure` of one trait within the run. An error
aborts the run with "the wrapped error (trait id + underlying error)". The
mutual-exclusion policy is "consulted during Configure": when the trait is
enabled and the winner that the policy names for it is enabled as well, "the
loser flips enabled=false and records an informational condition naming the
winner". -/
def configureTrait {σ : Type} (c : Catalog σ) (profile : TraitProfile) (tr : TraitVariant σ)
    (st : CatalogRun σ) : Except Error (CatalogRun σ) :=
  match tr.Configure st.env with
  | (_, _, _, some err) => .error (.wrapped tr.Id err)
  | (env1, enabled, condition, none) =>
    let own : CatalogRun σ :=
      { env := env1
        enabled := if enabled then st.enabled ++ [tr] else st.enabled
        conditions := st.conditions ++ condition.toList }
    match c.policy profile tr.Id with
    | some winner =>
      if enabled ∧ winner ∈ st.enabled.map (fun other => other.Id) then
        .ok { env := env1
              enabled := st.enabled
              conditions := st.conditions ++ [exclusionCondition tr.Id winner] }
      else .ok own
    | none => .ok own

/-- Modelled from the spec: "Configure is invoked for every trait in that order,
regardless of whether it is expected to be enabled". -/
def configureAll {σ : Type} (c : Catalog σ) (profile : TraitProfile) :
    List (TraitVariant σ) → CatalogRun σ → Except Error (CatalogRun σ)
  | [], st => .ok st
  | tr :: rest, st =>
    match configureTrait c profile tr st with
    | .error err => .error err
    | .ok st1 => configureAll c profile rest st1

/-- Modelled from the spec: "Apply is invoked, in the same relative order, only
for traits whose Configure returned enabled=true"; an error aborts the run with
the wrapped error. -/
def applyAll {σ : Type} : List (TraitVariant σ) → σ → Except Error σ
  | [], env => .ok env
  | tr :: rest, env =>
    match tr.Apply env with
    | (_, some err) => .error (.wrapped tr.Id err)
    | (env1, none) => applyAll rest env1

/-- Modelled from the spec: the deferred post-actions, drained "once, in
registration order; an error there also fail-fasts". -/
def drainPostActions {σ : Type} : List (σ → σ × Option Error) → σ → Except Error σ
  | [], env => .ok env
  | action :: rest, env =>
    match action env with
    | (_, some err) => .error err
    | (env1, none) => drainPostActions rest env1

/-- Modelled from the spec: the run of the engine on one Integration. "All
applicable traits are sorted ascending by priority once", `Configure` is invoked
on each, then `Apply` on the enabled ones, then the post-actions that the
environment carries are drained; "any Configure or Apply error aborts the entire
run immediately" and the conditions are discarded. -/
def Catalog.apply {σ : Type} (c : Catalog σ) (profile : TraitProfile)
    (postActions : σ → List (σ → σ × Option Error)) (env : σ) : Except Error (Outcome σ) :=
  let applicable := (c.traits.filter (fun tr => tr.ProfileApplicable profile)).insertionSort
    (fun a b => a.Priority ≤ b.Priority)
  match configureAll c profile applicable { env := env, enabled := [], conditions := [] } with
  | .error err => .error err
  | .ok st =>
    match applyAll st.enabled st.env with
    | .error err => .error err
    | .ok env1 =>
      match drainPostActions (postActions env1) env1 with
      | .error err => .error err
      | .ok env2 =>
        .ok { env := env2, executed := st.enabled.map (fun tr => tr.Id),
              conditions := st.conditions }

/-- A sample trait over the environment that counts the calls of `Apply`. -/
def sampleVariant (id : String) (priority : Nat) (enabled : Bool) : TraitVariant Nat :=
  { Id := id
    Priority := priority
    ProfileApplicable := fun _ => true
    Configure := fun env => (env, enabled, none, none)
    Apply := fun env => (env + 1, none) }

/-- A sample catalog: the traits `service`, `deployment` and `knative-service`,
with the policy that `knative-service` wins over `service` in the profile
`Knative`. -/
def sampleCatalog (knativeServiceEnabled : Bool) : Catalog Nat :=
  { traits := [sampleVariant "service" 1500 true, sampleVariant "deployment" 1100 true,
      sampleVariant "knative-service" 1400 knativeServiceEnabled]
    policy := fun profile id =>
      if profile = "Knative" ∧ id = "service" then some "knative-service" else none }

end Trait

/-! ## Lemmas on the loops -/

theorem translateSteps_ok (e : Env Ep Eh T R) (ctx : BindingContext) :
    ∀ (eps : List Ep) (idx : Nat) (bs : List (Binding T)),
      translateSteps e ctx idx eps = .ok bs →
      List.Forall₂ (fun (p : Nat × Ep) b =>
        e.Translate ctx { Type_ := .action, Position := some p.1 } p.2 = .ok b)
        (eps.enumFrom idx) bs := by
  intro eps
  induction eps with
  | nil =>
    intro idx bs h
    simp only [translateSteps, Except.ok.injEq] at h
    subst h
    exact List.Forall₂.nil
  | cons ep rest ih =>
    intro idx bs h
    simp only [translateSteps] at h
    cases hT : e.Translate ctx { Type_ := .action, Position := some idx } ep with
    | error err => simp [hT] at h
    | ok b =>
      simp only [hT] at h
      cases hR : translateSteps e ctx (idx + 1) rest with
      | error err => simp [hR] at h
      | ok bs1 =>
        simp only [hR, Except.ok.injEq] at h
        subst h
        exact List.Forall₂.cons hT (ih (idx + 1) bs1 hR)

theorem validateSteps_ok_iff :
    ∀ (steps : List (Binding T)) (index : Nat),
      validateSteps index steps = .ok () ↔ ∀ s ∈ steps, ¬ s.Empty := by
  intro steps
  induction steps with
  | nil => intro index; simp [validateSteps]
  | cons s rest ih =>
    intro index
    by_cases hs : s.Step.isNone ∧ s.URI = ""
    · constructor
      · intro h
        rw [validateSteps, if_pos hs] at h
        cases h
      · intro h
        exact absurd hs (h s (List.mem_cons_self _ _))
    · rw [validateSteps, if_neg hs, ih (index + 1)]
      constructor
      · intro h x hx
        rcases List.mem_cons.mp hx with rfl | hx
        · exact hs
        · exact h x hx
      · intro h x hx
        exact h x (List.mem_cons_of_mem _ hx)

theorem validateSteps_first_offender :
    ∀ (pre : List (Binding T)) (s : Binding T) (post : List (Binding T)) (index : Nat),
      (∀ b ∈ pre, ¬ b.Empty) → s.Empty →
      validateSteps index (pre ++ s :: post) =
        .error (.text ("illegal step definition for step " ++ toString (index + pre.length)
          ++ ": either Step or URI should be provided")) := by
  intro pre
  induction pre with
  | nil =>
    intro s post index _ hs
    have hs2 : s.Step.isNone ∧ s.URI = "" := hs
    rw [List.nil_append, validateSteps, if_pos hs2]
    rfl
  | cons b rest ih =>
    intro s post index hpre hs
    have hb : ¬ (b.Step.isNone ∧ b.URI = "") := hpre b (List.mem_cons_self _ _)
    have hrest : ∀ x ∈ rest, ¬ x.Empty := fun x hx => hpre x (List.mem_cons_of_mem _ hx)
    rw [List.cons_append, validateSteps, if_neg hb, ih s post (index + 1) hrest hs]
    have : index + 1 + rest.length = index + (b :: rest).length := by
      simp only [List.length_cons]; omega
    rw [this]

theorem appendProperties_ok (e : Env Ep Eh T R) :
    ∀ (props : List (String × String)) (cfg cfg1 : List ConfigurationSpec),
      appendProperties e cfg props = .ok cfg1 →
      ∃ entries, cfg1 = cfg ++ entries ∧ List.Forall₂ (IsPropertyEntry e) props entries := by
  intro props
  induction props with
  | nil =>
    intro cfg cfg1 h
    simp only [appendProperties, Except.ok.injEq] at h
    exact ⟨[], by simp [h], List.Forall₂.nil⟩
  | cons kv rest ih =>
    intro cfg cfg1 h
    obtain ⟨k, v⟩ := kv
    simp only [appendProperties] at h
    cases hE : e.EncodePropertyFileEntry k v with
    | error err => simp [hE] at h
    | ok entry =>
      simp only [hE] at h
      obtain ⟨entries, h1, h2⟩ := ih _ _ h
      refine ⟨{ Type_ := "property", Value := entry } :: entries, ?_, ?_⟩
      · simp [h1]
      · exact List.Forall₂.cons ⟨rfl, hE⟩ h2

theorem appendProperties_succeeds (e : Env Ep Eh T R) :
    ∀ (props : List (String × String)) (cfg : List ConfigurationSpec),
      (∀ kv ∈ props, ∃ s, e.EncodePropertyFileEntry kv.1 kv.2 = .ok s) →
      ∃ cfg1, appendProperties e cfg props = .ok cfg1 := by
  intro props
  induction props with
  | nil => intro cfg _; exact ⟨cfg, rfl⟩
  | cons kv rest ih =>
    intro cfg h
    obtain ⟨k, v⟩ := kv
    obtain ⟨s, hs⟩ := h (k, v) (List.mem_cons_self _ _)
    obtain ⟨cfg1, h1⟩ := ih (cfg ++ [{ Type_ := "property", Value := s }])
      (fun kv hkv => h kv (List.mem_cons_of_mem _ hkv))
    exact ⟨cfg1, by simp only [appendProperties, hs, h1]⟩

theorem configureBinding_append (e : Env Ep Eh T R) :
    ∀ (bs1 bs2 : List (Option (Binding T))) (it : Integration T R),
      configureBinding e it (bs1 ++ bs2) =
        match configureBinding e it bs1 with
        | .error err => .error err
        | .ok it1 => configureBinding e it1 bs2 := by
  intro bs1
  induction bs1 with
  | nil => intro bs2 it; simp [configureBinding]
  | cons b rest ih =>
    intro bs2 it
    cases b with
    | none =>
      simp only [List.cons_append, configureBinding]
      exact ih _ _
    | some b =>
      simp only [List.cons_append, configureBinding]
      cases e.Merge it.Spec.Traits b.Traits with
      | error err => rfl
      | ok traits =>
        simp only
        cases appendProperties e it.Spec.Configuration b.ApplicationProperties with
        | error err => rfl
        | ok cfg => exact ih _ _

theorem configureBinding_ok (e : Env Ep Eh T R) :
    ∀ (bs : List (Option (Binding T))) (it it1 : Integration T R),
      configureBinding e it bs = .ok it1 →
      it1.ObjectMeta = it.ObjectMeta ∧ it1.Spec.Replicas = it.Spec.Replicas ∧
      it1.Spec.Flows = it.Spec.Flows ∧ it1.Spec.Profile = it.Spec.Profile ∧
      it1.Spec.ServiceAccountName = it.Spec.ServiceAccountName ∧
      mergeInOrder e it.Spec.Traits bs.reduceOption = .ok it1.Spec.Traits ∧
      ∃ entries, it1.Spec.Configuration = it.Spec.Configuration ++ entries ∧
        List.Forall₂ (IsPropertyEntry e) (contributedProperties bs.reduceOption) entries := by
  intro bs
  induction bs with
  | nil =>
    intro it it1 h
    simp only [configureBinding, Except.ok.injEq] at h
    subst h
    exact ⟨rfl, rfl, rfl, rfl, rfl, rfl, [], by simp, List.Forall₂.nil⟩
  | cons b rest ih =>
    intro it it1 h
    cases b with
    | none =>
      simp only [configureBinding] at h
      simpa [List.reduceOption_cons_of_none] using ih it it1 h
    | some b =>
      simp only [configureBinding] at h
      cases hM : e.Merge it.Spec.Traits b.Traits with
      | error err => simp [hM] at h
      | ok traits =>
        simp only [hM] at h
        cases hA : appendProperties e it.Spec.Configuration b.ApplicationProperties with
        | error err => simp [hA] at h
        | ok cfg =>
          simp only [hA] at h
          obtain ⟨h1, h2, h3, h4, h5, h6, entries, h7, h8⟩ := ih _ _ h
          obtain ⟨entries0, g1, g2⟩ := appendProperties_ok e _ _ _ hA
          refine ⟨h1, h2, h3, h4, h5, ?_, entries0 ++ entries, ?_, ?_⟩
          · simp only [List.reduceOption_cons_of_some, mergeInOrder, hM]
            exact h6
          · rw [h7]
            simp only [g1, List.append_assoc]
          · simp only [List.reduceOption_cons_of_some, contributedProperties, List.flatMap_cons]
            exact List.rel_append g2 h8

theorem reduceOption_configureArguments (fromB toB : Binding T)
    (errorHandler : Option (Binding T)) (steps : List (Binding T)) :
    (configureArguments fromB toB errorHandler steps).reduceOption
      = configuredBindings fromB toB errorHandler steps := by
  have hmap : ∀ l : List (Binding T), (l.map some).reduceOption = l := by
    intro l
    induction l with
    | nil => rfl
    | cons a l ih => simp [List.reduceOption_cons_of_some, ih]
  cases errorHandler <;>
    simp [configureArguments, configuredBindings, List.reduceOption_append,
      List.reduceOption_cons_of_some, List.reduceOption_cons_of_none, hmap]

/-- Past the validation, `CreateIntegrationFor` is one pass of `configureBinding`
over source, steps, sink and error handler, then the serialisation of the route. -/
theorem assemble_eq (e : Env Ep Eh T R) (it : Integration T R) (fromB toB : Binding T)
    (errorHandler : Option (Binding T)) (steps : List (Binding T))
    (hto : ¬ toB.Empty) (hfrom : fromB.URI ≠ "") (hsteps : ∀ s ∈ steps, ¬ s.Empty) :
    assemble e it fromB toB errorHandler steps =
      match configureBinding e it (configureArguments fromB toB errorHandler steps) with
      | .error err => .error err
      | .ok it4 =>
        match e.Marshal (flowRoute fromB.URI (dslSteps e fromB steps toB)) with
        | .error err => .error err
        | .ok encodedRoute => .ok (finish it4 encodedRoute) := by
  have hto2 : ¬ (toB.Step.isNone ∧ toB.URI = "") := hto
  have hv : validateSteps 0 steps = .ok () := (validateSteps_ok_iff steps 0).mpr hsteps
  unfold assemble
  rw [if_neg hto2, if_neg hfrom, hv]
  simp only [configureArguments, configureBinding_append]
  cases configureBinding e it [some fromB] with
  | error err => rfl
  | ok it1 =>
    simp only
    cases configureBinding e it1 (steps.map some) with
    | error err => rfl
    | ok it2 =>
      simp only
      cases configureBinding e it2 [some toB] with
      | error err => rfl
      | ok it3 =>
        simp only
        cases configureBinding e it3 [errorHandler] with
        | error err => rfl
        | ok it4 => rfl

theorem assemble_ok_valid (e : Env Ep Eh T R) (it result : Integration T R)
    (fromB toB : Binding T) (errorHandler : Option (Binding T)) (steps : List (Binding T))
    (h : assemble e it fromB toB errorHandler steps = .ok result) :
    ¬ toB.Empty ∧ fromB.URI ≠ "" ∧ ∀ s ∈ steps, ¬ s.Empty := by
  unfold assemble at h
  by_cases hto : toB.Step.isNone ∧ toB.URI = ""
  · rw [if_pos hto] at h; cases h
  · rw [if_neg hto] at h
    by_cases hfrom : fromB.URI = ""
    · rw [if_pos hfrom] at h; cases h
    · rw [if_neg hfrom] at h
      refine ⟨hto, hfrom, ?_⟩
      cases hv : validateSteps 0 steps with
      | error err => rw [hv] at h; cases h
      | ok u => exact (validateSteps_ok_iff steps 0).mp hv

theorem createIntegrationFor_of_translated (e : Env Ep Eh T R) (binding : Pipe Ep Eh T R)
    (profile : TraitProfile) (fromB toB : Binding T) (errorHandler : Option (Binding T))
    (steps : List (Binding T))
    (ht : Translated e binding profile fromB toB errorHandler steps) :
    CreateIntegrationFor e binding =
      assemble e (profiledIntegration e binding profile) fromB toB errorHandler steps := by
  obtain ⟨h1, h2, h3, h4, h5⟩ := ht
  simp only [CreateIntegrationFor, h1, h2, h3, h4, h5]

theorem translated_of_ok (e : Env Ep Eh T R) (binding : Pipe Ep Eh T R)
    (result : Integration T R) (h : CreateIntegrationFor e binding = .ok result) :
    ∃ profile fromB toB errorHandler steps,
      Translated e binding profile fromB toB errorHandler steps := by
  unfold CreateIntegrationFor at h
  cases h1 : determineTraitProfile e binding with
  | error err => simp [h1] at h
  | ok profile =>
    simp only [h1] at h
    cases h2 : e.Translate (bindingContextFor e binding profile) { Type_ := .source }
        binding.Spec.Source with
    | error err => simp [h2] at h
    | ok fromB =>
      simp only [h2] at h
      cases h3 : e.Translate (bindingContextFor e binding profile) { Type_ := .sink }
          binding.Spec.Sink with
      | error err => simp [h3] at h
      | ok toB =>
        simp only [h3] at h
        cases h4 : e.maybeErrorHandler binding.Spec.ErrorHandler
            (bindingContextFor e binding profile) with
        | error err => simp [h4] at h
        | ok errorHandler =>
          simp only [h4] at h
          cases h5 : translateSteps e (bindingContextFor e binding profile) 0
              binding.Spec.Steps with
          | error err => simp [h5] at h
          | ok steps => exact ⟨profile, fromB, toB, errorHandler, steps, h1, h2, h3, h4, h5⟩

theorem profiledIntegration_configuration (e : Env Ep Eh T R) (binding : Pipe Ep Eh T R)
    (profile : TraitProfile) :
    (profiledIntegration e binding profile).Spec.Configuration
      = inheritedConfiguration binding := by
  unfold profiledIntegration initialIntegration inheritedConfiguration
  cases binding.Spec.Integration <;> cases binding.Spec.Replicas <;>
    by_cases hs : binding.Spec.ServiceAccountName = "" <;> simp [hs]

theorem profiledIntegration_flows (e : Env Ep Eh T R) (binding : Pipe Ep Eh T R)
    (profile : TraitProfile) :
    (profiledIntegration e binding profile).Spec.Flows = inheritedFlows binding := by
  unfold profiledIntegration initialIntegration inheritedFlows
  cases binding.Spec.Integration <;> cases binding.Spec.Replicas <;>
    by_cases hs : binding.Spec.ServiceAccountName = "" <;> simp [hs]

theorem profiledIntegration_traits (e : Env Ep Eh T R) (binding : Pipe Ep Eh T R)
    (profile : TraitProfile) :
    (profiledIntegration e binding profile).Spec.Traits = inheritedTraits e binding := by
  unfold profiledIntegration initialIntegration inheritedTraits
  cases binding.Spec.Integration <;> cases binding.Spec.Replicas <;>
    by_cases hs : binding.Spec.ServiceAccountName = "" <;> simp [hs]

/-! ## The order of configuration entries -/

/-- The sort key of a configuration entry. -/
theorem configurationLess_iff (a b : ConfigurationSpec) :
    configurationLess a b = true ↔
      toLex (a.Type_.toList, a.Value.toList) < toLex (b.Type_.toList, b.Value.toList) := by
  unfold configurationLess stringLess
  rw [Prod.Lex.lt_iff]
  by_cases h : a.Type_ = b.Type_
  · simp [h]
  · have h2 : a.Type_.data ≠ b.Type_.data := fun hh => h (String.toList_inj.mp hh)
    simp only [ne_eq, h, not_false_eq_true, if_true, decide_eq_true_eq, String.toList]
    constructor
    · intro hh; exact Or.inl hh
    · rintro (hh | ⟨hh, _⟩)
      · exact hh
      · exact absurd hh h2

theorem configurationLE_iff (a b : ConfigurationSpec) :
    configurationLE a b ↔
      toLex (a.Type_.toList, a.Value.toList) ≤ toLex (b.Type_.toList, b.Value.toList) := by
  unfold configurationLE
  rw [Prod.Lex.le_iff]
  simp only [String.toList_inj]

/-- The comparison closure of the code decides the order by (Type, then Value):
`mj` is not less than `mi` exactly when `mi` comes no later than `mj`. -/
theorem configurationLE_iff_less (a b : ConfigurationSpec) :
    configurationLess b a = false ↔ configurationLE a b := by
  rw [configurationLE_iff, ← not_lt, ← configurationLess_iff]
  simp

theorem configurationLE_total (a b : ConfigurationSpec) :
    configurationLE a b ∨ configurationLE b a := by
  simp only [configurationLE_iff]
  exact le_total _ _

theorem configurationLE_trans (a b c : ConfigurationSpec)
    (h1 : configurationLE a b) (h2 : configurationLE b c) : configurationLE a c := by
  simp only [configurationLE_iff] at *
  exact le_trans h1 h2

theorem configurationLE_antisymm (a b : ConfigurationSpec)
    (h1 : configurationLE a b) (h2 : configurationLE b a) : a = b := by
  simp only [configurationLE_iff] at *
  have h := le_antisymm h1 h2
  have h3 : (a.Type_.toList, a.Value.toList) = (b.Type_.toList, b.Value.toList) := h
  simp only [Prod.mk.injEq] at h3
  obtain ⟨ha, hb⟩ := h3
  cases a
  cases b
  simp only [ConfigurationSpec.mk.injEq]
  exact ⟨String.toList_inj.mp ha, String.toList_inj.mp hb⟩

theorem sliceStable_sorted (l : List ConfigurationSpec) :
    (SliceStable configurationLess l).Sorted configurationLE := by
  haveI : IsTotal ConfigurationSpec (fun a b => configurationLess b a = false) :=
    ⟨fun a b => by
      simp only [configurationLE_iff_less]
      exact configurationLE_total a b⟩
  haveI : IsTrans ConfigurationSpec (fun a b => configurationLess b a = false) :=
    ⟨fun a b c hab hbc => by
      simp only [configurationLE_iff_less] at *
      exact configurationLE_trans a b c hab hbc⟩
  have h := List.sorted_insertionSort (fun a b => configurationLess b a = false) l
  exact List.Pairwise.imp (fun hab => (configurationLE_iff_less _ _).mp hab) h

theorem sliceStable_perm (l : List ConfigurationSpec) :
    (SliceStable configurationLess l).Perm l :=
  List.perm_insertionSort (fun a b => configurationLess b a = false) l

theorem sliceStable_unique (l l1 : List ConfigurationSpec)
    (hs : l1.Sorted configurationLE) (hp : l1.Perm l) :
    l1 = SliceStable configurationLess l := by
  haveI : IsAntisymm ConfigurationSpec configurationLE := ⟨configurationLE_antisymm⟩
  exact List.eq_of_perm_of_sorted (hp.trans (sliceStable_perm l).symm) hs (sliceStable_sorted l)

/-- The stable sort with the comparison closure of the code is the stable sort
by (Type, then Value). -/
theorem sliceStable_eq_insertionSort (l : List ConfigurationSpec) :
    SliceStable configurationLess l = l.insertionSort configurationLE := by
  haveI : IsTotal ConfigurationSpec configurationLE := ⟨configurationLE_total⟩
  haveI : IsTrans ConfigurationSpec configurationLE := ⟨configurationLE_trans⟩
  exact (sliceStable_unique l _ (List.sorted_insertionSort configurationLE l)
    (List.perm_insertionSort configurationLE l)).symm

/-- The configuration of a successful run: the inherited entries and one entry
per contributed property, sorted. -/
theorem configuration_of_ok (e : Env Ep Eh T R) (binding : Pipe Ep Eh T R)
    (profile : TraitProfile) (fromB toB : Binding T) (errorHandler : Option (Binding T))
    (steps : List (Binding T)) (result : Integration T R)
    (ht : Translated e binding profile fromB toB errorHandler steps)
    (h : CreateIntegrationFor e binding = .ok result) :
    ∃ entries,
      List.Forall₂ (IsPropertyEntry e)
        (contributedProperties (configuredBindings fromB toB errorHandler steps)) entries ∧
      result.Spec.Configuration
        = SliceStable configurationLess (inheritedConfiguration binding ++ entries) := by
  rw [createIntegrationFor_of_translated e binding profile fromB toB errorHandler steps ht] at h
  obtain ⟨hto, hfrom, hsteps⟩ := assemble_ok_valid e _ _ _ _ _ _ h
  rw [assemble_eq e _ fromB toB errorHandler steps hto hfrom hsteps] at h
  cases hc : configureBinding e (profiledIntegration e binding profile)
      (configureArguments fromB toB errorHandler steps) with
  | error err => simp [hc] at h
  | ok it4 =>
    simp only [hc] at h
    cases hm : e.Marshal (flowRoute fromB.URI (dslSteps e fromB steps toB)) with
    | error err => simp [hm] at h
    | ok raw =>
      simp only [hm, Except.ok.injEq] at h
      obtain ⟨_, _, _, _, _, _, entries, h7, h8⟩ := configureBinding_ok e _ _ _ hc
      rw [reduceOption_configureArguments] at h8
      refine ⟨entries, h8, ?_⟩
      rw [← h]
      simp only [finish, h7, profiledIntegration_configuration]

/-! ## Independence of the enumeration order -/

theorem entries_eq_map (e : Env Ep Eh T R) :
    ∀ (props : List (String × String)) (entries : List ConfigurationSpec),
      List.Forall₂ (IsPropertyEntry e) props entries → entries = props.map (entryOf e) := by
  intro props entries h
  induction h with
  | nil => rfl
  | @cons kv c _ _ hab _ ih =>
    obtain ⟨h1, h2⟩ := hab
    have hc : c = entryOf e kv := by
      cases c
      simp only [entryOf, h2, ConfigurationSpec.mk.injEq]
      exact ⟨h1, trivial⟩
    rw [List.map_cons, ← ih, hc]

theorem contributedProperties_perm :
    ∀ (bs1 bs2 : List (Binding T)),
      List.Forall₂ Binding.SameUpToMapOrder bs1 bs2 →
      (contributedProperties bs1).Perm (contributedProperties bs2) := by
  intro bs1 bs2 h
  induction h with
  | nil => exact List.Perm.refl _
  | cons hab _ ih =>
    simp only [contributedProperties, List.flatMap_cons]
    exact List.Perm.append hab.2.2.2 ih

theorem translations_same {P : Type} (f g : P → Except Error (Binding T))
    (hfg : ∀ p b1 b2, f p = .ok b1 → g p = .ok b2 → b1.SameUpToMapOrder b2) :
    ∀ (ps : List P) (bs1 bs2 : List (Binding T)),
      List.Forall₂ (fun p b => f p = .ok b) ps bs1 →
      List.Forall₂ (fun p b => g p = .ok b) ps bs2 →
      List.Forall₂ Binding.SameUpToMapOrder bs1 bs2 := by
  intro ps
  induction ps with
  | nil =>
    intro bs1 bs2 h1 h2
    cases h1
    cases h2
    exact List.Forall₂.nil
  | cons p rest ih =>
    intro bs1 bs2 h1 h2
    cases h1 with
    | cons ha hr =>
      cases h2 with
      | cons hb hs => exact List.Forall₂.cons (hfg p _ _ ha hb) (ih _ _ hr hs)

theorem configuredBindings_same (f1 t1 f2 t2 : Binding T) (eh1 eh2 : Option (Binding T))
    (s1 s2 : List (Binding T))
    (hf : f1.SameUpToMapOrder f2) (ht : t1.SameUpToMapOrder t2)
    (he : SameOptionalBinding eh1 eh2)
    (hs : List.Forall₂ Binding.SameUpToMapOrder s1 s2) :
    List.Forall₂ Binding.SameUpToMapOrder
      (configuredBindings f1 t1 eh1 s1) (configuredBindings f2 t2 eh2 s2) := by
  unfold configuredBindings
  have hEh : List.Forall₂ Binding.SameUpToMapOrder eh1.toList eh2.toList := by
    cases eh1 <;> cases eh2
    · exact List.Forall₂.nil
    · exact absurd he (by simp [SameOptionalBinding])
    · exact absurd he (by simp [SameOptionalBinding])
    · exact List.Forall₂.cons he List.Forall₂.nil
  exact List.rel_append
    (List.rel_append (List.Forall₂.cons hf hs) (List.Forall₂.cons ht List.Forall₂.nil)) hEh

/-! ## The route -/

/-- The flows of a successful run: the inherited ones, then the serialised route. -/
theorem flows_of_ok (e : Env Ep Eh T R) (binding : Pipe Ep Eh T R)
    (profile : TraitProfile) (fromB toB : Binding T) (errorHandler : Option (Binding T))
    (steps : List (Binding T)) (result : Integration T R)
    (ht : Translated e binding profile fromB toB errorHandler steps)
    (h : CreateIntegrationFor e binding = .ok result) :
    ∃ raw, e.Marshal (flowRoute fromB.URI (dslSteps e fromB steps toB)) = .ok raw ∧
      result.Spec.Flows = inheritedFlows binding ++ [{ RawMessage := raw }] := by
  rw [createIntegrationFor_of_translated e binding profile fromB toB errorHandler steps ht] at h
  obtain ⟨hto, hfrom, hsteps⟩ := assemble_ok_valid e _ _ _ _ _ _ h
  rw [assemble_eq e _ fromB toB errorHandler steps hto hfrom hsteps] at h
  cases hc : configureBinding e (profiledIntegration e binding profile)
      (configureArguments fromB toB errorHandler steps) with
  | error err => simp [hc] at h
  | ok it4 =>
    simp only [hc] at h
    cases hm : e.Marshal (flowRoute fromB.URI (dslSteps e fromB steps toB)) with
    | error err => simp [hm] at h
    | ok raw =>
      simp only [hm, Except.ok.injEq] at h
      obtain ⟨_, _, hflows, _⟩ := configureBinding_ok e _ _ _ hc
      refine ⟨raw, rfl, ?_⟩
      rw [← h]
      simp only [finish, hflows, profiledIntegration_flows]

/-! ## The trait merges -/

theorem configureBinding_skips_nil (e : Env Ep Eh T R) :
    ∀ (bs : List (Option (Binding T))) (it : Integration T R),
      configureBinding e it bs = configureBinding e it (bs.reduceOption.map some) := by
  intro bs
  induction bs with
  | nil => intro it; rfl
  | cons b rest ih =>
    intro it
    cases b with
    | none =>
      simp only [configureBinding, List.reduceOption_cons_of_none]
      exact ih it
    | some b =>
      simp only [configureBinding, List.reduceOption_cons_of_some, List.map_cons]
      cases e.Merge it.Spec.Traits b.Traits with
      | error err => rfl
      | ok traits =>
        simp only
        cases appendProperties e it.Spec.Configuration b.ApplicationProperties with
        | error err => rfl
        | ok cfg => exact ih _

theorem configureBinding_of_merges (e : Env Ep Eh T R) :
    ∀ (bs : List (Binding T)) (it : Integration T R) (t : T),
      mergeInOrder e it.Spec.Traits bs = .ok t →
      (∀ kv ∈ contributedProperties bs, ∃ s, e.EncodePropertyFileEntry kv.1 kv.2 = .ok s) →
      ∃ it1, configureBinding e it (bs.map some) = .ok it1 ∧ it1.Spec.Traits = t := by
  intro bs
  induction bs with
  | nil =>
    intro it t hm _
    simp only [mergeInOrder, Except.ok.injEq] at hm
    exact ⟨it, rfl, hm⟩
  | cons b rest ih =>
    intro it t hm he
    simp only [mergeInOrder] at hm
    cases hM : e.Merge it.Spec.Traits b.Traits with
    | error err => simp [hM] at hm
    | ok t1 =>
      simp only [hM] at hm
      have he1 : ∀ kv ∈ b.ApplicationProperties,
          ∃ s, e.EncodePropertyFileEntry kv.1 kv.2 = .ok s := by
        intro kv hkv
        apply he kv
        simp only [contributedProperties, List.flatMap_cons, List.mem_append]
        exact Or.inl hkv
      obtain ⟨cfg1, hcfg1⟩ := appendProperties_succeeds e b.ApplicationProperties
        it.Spec.Configuration he1
      simp only [List.map_cons, configureBinding, hM, hcfg1]
      apply ih _ t hm
      intro kv hkv
      apply he kv
      simp only [contributedProperties, List.flatMap_cons, List.mem_append]
      exact Or.inr hkv

/-- A conflict at binding `b`, reached after the bindings `pre` were configured,
is what `configureBinding` returns. -/
theorem configureBinding_first_conflict (e : Env Ep Eh T R)
    (pre : List (Binding T)) (b : Binding T) (post : List (Binding T))
    (it : Integration T R) (t : T) (err : Error)
    (hm : mergeInOrder e it.Spec.Traits pre = .ok t)
    (he : ∀ kv ∈ contributedProperties pre, ∃ s, e.EncodePropertyFileEntry kv.1 kv.2 = .ok s)
    (hc : e.Merge t b.Traits = .error err) :
    configureBinding e it ((pre ++ b :: post).map some) = .error err := by
  obtain ⟨it1, h1, h2⟩ := configureBinding_of_merges e pre it t hm he
  rw [List.map_append, configureBinding_append, h1]
  simp only [List.map_cons, configureBinding, h2, hc]

/-- Success of `CreateIntegrationFor`: valid bindings, no conflict when the traits
are merged in order, every property encoded, the route serialised. -/
theorem createIntegrationFor_succeeds
    (e : Env Ep Eh T R) (binding : Pipe Ep Eh T R) (profile : TraitProfile)
    (fromB toB : Binding T) (errorHandler : Option (Binding T)) (steps : List (Binding T))
    (raw : R) (t : T)
    (ht : Translated e binding profile fromB toB errorHandler steps)
    (hfrom : fromB.URI ≠ "") (hto : ¬ toB.Empty)
    (hsteps : ∀ s ∈ steps, ¬ s.Empty)
    (hmerge : mergeInOrder e (inheritedTraits e binding)
      (configuredBindings fromB toB errorHandler steps) = .ok t)
    (hencode : ∀ kv ∈ contributedProperties (configuredBindings fromB toB errorHandler steps),
      ∃ s, e.EncodePropertyFileEntry kv.1 kv.2 = .ok s)
    (hraw : e.Marshal (flowRoute fromB.URI (dslSteps e fromB steps toB)) = .ok raw) :
    ∃ result, CreateIntegrationFor e binding = .ok result ∧
      result.Spec.Flows = inheritedFlows binding ++ [{ RawMessage := raw }] := by
  rw [← profiledIntegration_traits e binding profile] at hmerge
  obtain ⟨it4, hit4, _⟩ := configureBinding_of_merges e _ _ t hmerge hencode
  rw [← reduceOption_configureArguments, ← configureBinding_skips_nil] at hit4
  obtain ⟨_, _, hflows, _⟩ := configureBinding_ok e _ _ _ hit4
  refine ⟨finish it4 raw, ?_, ?_⟩
  · rw [createIntegrationFor_of_translated e binding profile fromB toB errorHandler steps ht,
      assemble_eq e _ fromB toB errorHandler steps hto hfrom hsteps, hit4]
    simp only [hraw]
  · simp only [finish, hflows, profiledIntegration_flows]

/-! ## The claims -/

/-- C1, as stated, fails: in the sample environment the Pipe from `timer:tick` to
`log:out` with one step whose translation has neither a URI nor an embedded step
has a valid source and a valid sink, and `CreateIntegrationFor` rejects it. -/
theorem C1_counterexample :
    Translated sampleEnv
      (samplePipe (uriEndpoint "timer:tick") (uriEndpoint "log:out") [uriEndpoint ""])
      "Kubernetes" (uriBinding "timer:tick") (uriBinding "log:out") none [uriBinding ""] ∧
    (uriBinding "timer:tick").URI ≠ "" ∧ ¬ (uriBinding "log:out").Empty ∧
    CreateIntegrationFor sampleEnv
      (samplePipe (uriEndpoint "timer:tick") (uriEndpoint "log:out") [uriEndpoint ""])
      = .error (.text
          "illegal step definition for step 0: either Step or URI should be provided") := by
  refine ⟨⟨rfl, rfl, rfl, rfl, rfl⟩, by decide, ?_, rfl⟩
  simp [Binding.Empty, uriBinding]

/-- C1, amended: when profile determination and all endpoint translations succeed,
the source binding has a non-empty URI, the sink binding has a URI or an embedded
step, every translated step has a URI or an embedded step, merging the bindings'
traits in order meets no conflict, every application property encodes and the
route serialises, then
`CreateIntegrationFor` succeeds; the translated steps are the translations of
`Pipe.Spec.Steps` position by position, and the steps of the route appended to the
flows contain them, rendered by `AsYamlDSL`, in exactly that order. -/
theorem C1_translation_succeeds_and_keeps_step_order
    (e : Env Ep Eh T R) (binding : Pipe Ep Eh T R) (profile : TraitProfile)
    (fromB toB : Binding T) (errorHandler : Option (Binding T)) (steps : List (Binding T))
    (ht : Translated e binding profile fromB toB errorHandler steps)
    (hfrom : fromB.URI ≠ "") (hto : ¬ toB.Empty)
    (hsteps : ∀ s ∈ steps, ¬ s.Empty)
    (hmerge : ∃ t, mergeInOrder e (inheritedTraits e binding)
      (configuredBindings fromB toB errorHandler steps) = .ok t)
    (hencode : ∀ kv ∈ contributedProperties (configuredBindings fromB toB errorHandler steps),
      ∃ s, e.EncodePropertyFileEntry kv.1 kv.2 = .ok s)
    (hmarshal : ∃ raw, e.Marshal (flowRoute fromB.URI (dslSteps e fromB steps toB)) = .ok raw) :
    ∃ result raw pre post,
      CreateIntegrationFor e binding = .ok result ∧
      List.Forall₂ (fun (p : Nat × Ep) b =>
          e.Translate (bindingContextFor e binding profile)
            { Type_ := .action, Position := some p.1 } p.2 = .ok b)
        binding.Spec.Steps.enum steps ∧
      result.Spec.Flows = inheritedFlows binding ++ [{ RawMessage := raw }] ∧
      e.Marshal (flowRoute fromB.URI (pre ++ steps.map e.AsYamlDSL ++ post)) = .ok raw := by
  obtain ⟨raw, hraw⟩ := hmarshal
  obtain ⟨t, hmerge⟩ := hmerge
  obtain ⟨result, h1, h2⟩ := createIntegrationFor_succeeds e binding profile fromB toB
    errorHandler steps raw t ht hfrom hto hsteps hmerge hencode hraw
  refine ⟨result, raw, if fromB.Step.isSome then [e.AsYamlDSL fromB] else [],
    (if toB.Step.isSome then [e.AsYamlDSL toB] else []) ++ [[("to", Value.str toB.URI)]],
    h1, ?_, h2, ?_⟩
  · exact translateSteps_ok e _ _ 0 steps ht.2.2.2.2
  · simpa only [dslSteps, List.append_assoc] using hraw

/-- The amended C1 at the sample Pipe from `timer:tick` over `direct:a` and
`direct:b` to `log:out`. -/
theorem C1_witness :
    ∃ result raw pre post,
      CreateIntegrationFor sampleEnv
        (samplePipe (uriEndpoint "timer:tick") (uriEndpoint "log:out")
          [uriEndpoint "direct:a", uriEndpoint "direct:b"]) = .ok result ∧
      List.Forall₂ (fun (p : Nat × Option (Binding SampleTraits)) b =>
          sampleEnv.Translate
            (bindingContextFor sampleEnv
              (samplePipe (uriEndpoint "timer:tick") (uriEndpoint "log:out")
                [uriEndpoint "direct:a", uriEndpoint "direct:b"]) "Kubernetes")
            { Type_ := .action, Position := some p.1 } p.2 = .ok b)
        (samplePipe (uriEndpoint "timer:tick") (uriEndpoint "log:out")
          [uriEndpoint "direct:a", uriEndpoint "direct:b"]).Spec.Steps.enum
        [uriBinding "direct:a", uriBinding "direct:b"] ∧
      result.Spec.Flows = inheritedFlows
        (samplePipe (uriEndpoint "timer:tick") (uriEndpoint "log:out")
          [uriEndpoint "direct:a", uriEndpoint "direct:b"]) ++ [{ RawMessage := raw }] ∧
      sampleEnv.Marshal (flowRoute (uriBinding "timer:tick").URI
        (pre ++ [uriBinding "direct:a", uriBinding "direct:b"].map sampleEnv.AsYamlDSL
          ++ post)) = .ok raw :=
  C1_translation_succeeds_and_keeps_step_order sampleEnv
    (samplePipe (uriEndpoint "timer:tick") (uriEndpoint "log:out")
      [uriEndpoint "direct:a", uriEndpoint "direct:b"])
    "Kubernetes" (uriBinding "timer:tick") (uriBinding "log:out") none
    [uriBinding "direct:a", uriBinding "direct:b"]
    ⟨rfl, rfl, rfl, rfl, rfl⟩ (by decide) (by simp [Binding.Empty, uriBinding])
    (by simp [Binding.Empty, uriBinding])
    ⟨_, rfl⟩
    (by simp [contributedProperties, configuredBindings, uriBinding])
    ⟨_, rfl⟩

/-- C2, as stated, fails: in the sample environment the Pipe with source "",
sink `log:out` and one step that names neither a reference nor a URI has a
translated source with an empty URI and a sink with a URI, and
`CreateIntegrationFor` fails on the translation of step 0, before any validation:
the error is not the one about the source step. -/
theorem C2_counterexample :
    sampleEnv.Translate
      (bindingContextFor sampleEnv
        (samplePipe (uriEndpoint "") (uriEndpoint "log:out") [none]) "Kubernetes")
      { Type_ := .source } (samplePipe (uriEndpoint "") (uriEndpoint "log:out") [none]).Spec.Source
      = .ok (uriBinding "") ∧
    (uriBinding "").URI = "" ∧
    sampleEnv.Translate
      (bindingContextFor sampleEnv
        (samplePipe (uriEndpoint "") (uriEndpoint "log:out") [none]) "Kubernetes")
      { Type_ := .sink } (samplePipe (uriEndpoint "") (uriEndpoint "log:out") [none]).Spec.Sink
      = .ok (uriBinding "log:out") ∧
    (uriBinding "log:out").URI ≠ "" ∧
    CreateIntegrationFor sampleEnv (samplePipe (uriEndpoint "") (uriEndpoint "log:out") [none])
      = .error (.wrapped "could not determine URI for step 0"
          (.text "no ref or URI specified in endpoint")) ∧
    CreateIntegrationFor sampleEnv (samplePipe (uriEndpoint "") (uriEndpoint "log:out") [none])
      ≠ .error (.text "illegal step definition for source step: URI should be provided") := by
  refine ⟨rfl, rfl, rfl, by decide, rfl, ?_⟩
  intro h
  have h2 : CreateIntegrationFor sampleEnv
      (samplePipe (uriEndpoint "") (uriEndpoint "log:out") [none])
      = .error (.wrapped "could not determine URI for step 0"
          (.text "no ref or URI specified in endpoint")) := rfl
  rw [h2] at h
  cases h

/-- C2, amended: for every Pipe whose translated source binding has an empty URI
and whose sink provides a URI, `CreateIntegrationFor` returns no Integration; and
when the error handler and the steps translate as well, it fails with the
validation error that names the source step's missing URI. -/
theorem C2_empty_source_uri_rejected
    (e : Env Ep Eh T R) (binding : Pipe Ep Eh T R) (profile : TraitProfile)
    (fromB toB : Binding T)
    (hp : determineTraitProfile e binding = .ok profile)
    (hs : e.Translate (bindingContextFor e binding profile) { Type_ := .source }
      binding.Spec.Source = .ok fromB)
    (hk : e.Translate (bindingContextFor e binding profile) { Type_ := .sink }
      binding.Spec.Sink = .ok toB)
    (hfrom : fromB.URI = "") (hto : toB.URI ≠ "") :
    (∀ result, CreateIntegrationFor e binding ≠ .ok result) ∧
    ∀ errorHandler steps,
      e.maybeErrorHandler binding.Spec.ErrorHandler (bindingContextFor e binding profile)
        = .ok errorHandler →
      translateSteps e (bindingContextFor e binding profile) 0 binding.Spec.Steps = .ok steps →
      CreateIntegrationFor e binding
        = .error (.text "illegal step definition for source step: URI should be provided") := by
  have hto2 : ¬ (toB.Step.isNone ∧ toB.URI = "") := fun h => hto h.2
  have key : ∀ errorHandler steps,
      e.maybeErrorHandler binding.Spec.ErrorHandler (bindingContextFor e binding profile)
        = .ok errorHandler →
      translateSteps e (bindingContextFor e binding profile) 0 binding.Spec.Steps = .ok steps →
      CreateIntegrationFor e binding
        = .error (.text "illegal step definition for source step: URI should be provided") := by
    intro errorHandler steps h4 h5
    rw [createIntegrationFor_of_translated e binding profile fromB toB errorHandler steps
      ⟨hp, hs, hk, h4, h5⟩]
    unfold assemble
    rw [if_neg hto2, if_pos hfrom]
  refine ⟨?_, key⟩
  intro result hres
  obtain ⟨profile1, fromB1, toB1, eh1, steps1, h1, h2, h3, h4, h5⟩ :=
    translated_of_ok e binding result hres
  rw [hp] at h1
  cases h1
  rw [key eh1 steps1 h4 h5] at hres
  cases hres

/-- The amended C2 at the sample Pipe with source "" and sink `log:out`, which
has no error handler and no steps. -/
theorem C2_witness :
    (∀ result, CreateIntegrationFor sampleEnv
        (samplePipe (uriEndpoint "") (uriEndpoint "log:out") []) ≠ .ok result) ∧
    CreateIntegrationFor sampleEnv (samplePipe (uriEndpoint "") (uriEndpoint "log:out") [])
      = .error (.text "illegal step definition for source step: URI should be provided") :=
  ⟨(C2_empty_source_uri_rejected sampleEnv
      (samplePipe (uriEndpoint "") (uriEndpoint "log:out") []) "Kubernetes"
      (uriBinding "") (uriBinding "log:out") rfl rfl rfl rfl (by decide)).1,
   (C2_empty_source_uri_rejected sampleEnv
      (samplePipe (uriEndpoint "") (uriEndpoint "log:out") []) "Kubernetes"
      (uriBinding "") (uriBinding "log:out") rfl rfl rfl rfl (by decide)).2 none [] rfl rfl⟩

/-- C3: when all translations succeed and the translated sink binding has neither
an embedded step nor a URI, `CreateIntegrationFor` returns no Integration and
fails with the validation error about the sink step, whatever the source binding,
the steps and the error handler are. -/
theorem C3_empty_sink_rejected
    (e : Env Ep Eh T R) (binding : Pipe Ep Eh T R) (profile : TraitProfile)
    (fromB toB : Binding T) (errorHandler : Option (Binding T)) (steps : List (Binding T))
    (ht : Translated e binding profile fromB toB errorHandler steps)
    (hto : toB.Empty) :
    CreateIntegrationFor e binding = .error (.text
      "illegal step definition for sink step: either Step or URI should be provided") := by
  have hto2 : toB.Step.isNone ∧ toB.URI = "" := hto
  rw [createIntegrationFor_of_translated e binding profile fromB toB errorHandler steps ht]
  unfold assemble
  rw [if_pos hto2]

/-- C3 at a sample Pipe whose source and only step are empty as well: the error
is still the one about the sink. -/
theorem C3_witness :
    (uriBinding "").Empty ∧
    CreateIntegrationFor sampleEnv (samplePipe (uriEndpoint "") (uriEndpoint "") [uriEndpoint ""])
      = .error (.text
        "illegal step definition for sink step: either Step or URI should be provided") :=
  ⟨⟨rfl, rfl⟩,
   C3_empty_sink_rejected sampleEnv
    (samplePipe (uriEndpoint "") (uriEndpoint "") [uriEndpoint ""]) "Kubernetes"
    (uriBinding "") (uriBinding "") none [uriBinding ""] ⟨rfl, rfl, rfl, rfl, rfl⟩ ⟨rfl, rfl⟩⟩

/-- C4: when all translations succeed, source and sink are valid and some
translated step has neither an embedded step nor a URI, `CreateIntegrationFor`
fails, and the message names the zero-based index of the first such step: the
number of steps in front of it, none of which offends, whatever follows it. -/
theorem C4_first_offending_step_named
    (e : Env Ep Eh T R) (binding : Pipe Ep Eh T R) (profile : TraitProfile)
    (fromB toB : Binding T) (errorHandler : Option (Binding T))
    (pre : List (Binding T)) (s : Binding T) (post : List (Binding T))
    (ht : Translated e binding profile fromB toB errorHandler (pre ++ s :: post))
    (hfrom : fromB.URI ≠ "") (hto : ¬ toB.Empty)
    (hpre : ∀ b ∈ pre, ¬ b.Empty) (hs : s.Empty) :
    CreateIntegrationFor e binding = .error (.text
      ("illegal step definition for step " ++ toString pre.length
        ++ ": either Step or URI should be provided")) := by
  have hto2 : ¬ (toB.Step.isNone ∧ toB.URI = "") := hto
  rw [createIntegrationFor_of_translated e binding profile fromB toB errorHandler _ ht]
  unfold assemble
  rw [if_neg hto2, if_neg hfrom, validateSteps_first_offender pre s post 0 hpre hs,
    Nat.zero_add]

/-- C4 at a sample Pipe with four steps of which the second and the fourth
offend: the index named is 1. -/
theorem C4_witness :
    CreateIntegrationFor sampleEnv
      (samplePipe (uriEndpoint "timer:tick") (uriEndpoint "log:out")
        [uriEndpoint "direct:a", uriEndpoint "", uriEndpoint "direct:b", uriEndpoint ""])
      = .error (.text
        ("illegal step definition for step " ++ toString [uriBinding "direct:a"].length
          ++ ": either Step or URI should be provided")) :=
  C4_first_offending_step_named sampleEnv
    (samplePipe (uriEndpoint "timer:tick") (uriEndpoint "log:out")
      [uriEndpoint "direct:a", uriEndpoint "", uriEndpoint "direct:b", uriEndpoint ""])
    "Kubernetes" (uriBinding "timer:tick") (uriBinding "log:out") none
    [uriBinding "direct:a"] (uriBinding "") [uriBinding "direct:b", uriBinding ""]
    ⟨rfl, rfl, rfl, rfl, rfl⟩ (by decide) (by simp [Binding.Empty, uriBinding])
    (by simp [Binding.Empty, uriBinding]) ⟨rfl, rfl⟩

/-- C5: on success, `Spec.Configuration` is the stable sort, ascending by (Type,
then Value), of the entries inherited from the Pipe's embedded integration spec
followed by one entry of type "property", holding the encoded pair, per
application property of the source, step, sink and error-handler bindings, in
that order. The order is `configurationLE`, stated on the entries and not through
the comparison of the code: an entry of smaller type first, and among entries of
one type the one of smaller value first. The list is sorted in that order, it is
a permutation of those entries (none lost, none invented), and it is the only
list sorted so that is. -/
theorem C5_configuration_is_sorted_permutation
    (e : Env Ep Eh T R) (binding : Pipe Ep Eh T R) (profile : TraitProfile)
    (fromB toB : Binding T) (errorHandler : Option (Binding T)) (steps : List (Binding T))
    (result : Integration T R)
    (ht : Translated e binding profile fromB toB errorHandler steps)
    (h : CreateIntegrationFor e binding = .ok result) :
    ∃ entries,
      List.Forall₂ (IsPropertyEntry e)
        (contributedProperties (configuredBindings fromB toB errorHandler steps)) entries ∧
      result.Spec.Configuration
        = (inheritedConfiguration binding ++ entries).insertionSort configurationLE ∧
      result.Spec.Configuration.Pairwise
        (fun a b => a.Type_.toList < b.Type_.toList ∨
          (a.Type_ = b.Type_ ∧ a.Value.toList ≤ b.Value.toList)) ∧
      result.Spec.Configuration.Perm (inheritedConfiguration binding ++ entries) ∧
      ∀ l : List ConfigurationSpec, l.Sorted configurationLE →
        l.Perm (inheritedConfiguration binding ++ entries) → l = result.Spec.Configuration := by
  obtain ⟨entries, h1, h2⟩ :=
    configuration_of_ok e binding profile fromB toB errorHandler steps result ht h
  refine ⟨entries, h1, ?_, ?_, ?_, ?_⟩
  · rw [h2]; exact sliceStable_eq_insertionSort _
  · rw [h2]; exact sliceStable_sorted _
  · rw [h2]; exact sliceStable_perm _
  · intro l hs hp
    rw [h2]
    exact sliceStable_unique _ l hs hp

/-- C5 at `typedPipe`: the entry `env z=9`, of the smaller type and of the
greatest value, comes first, then the entries of type `property` by value; the
same entries in the order of their values alone are not sorted by (Type, then
Value). -/
theorem C5_witness :
    ∃ result, CreateIntegrationFor sampleEnv typedPipe = .ok result ∧
      result.Spec.Configuration =
        [{ Type_ := "env", Value := "z=9" }, { Type_ := "property", Value := "a=0" },
         { Type_ := "property", Value := "b=2" }, { Type_ := "property", Value := "c=3" }] ∧
      ¬ List.Sorted configurationLE
        [{ Type_ := "property", Value := "a=0" }, { Type_ := "property", Value := "b=2" },
         { Type_ := "property", Value := "c=3" }, { Type_ := "env", Value := "z=9" }] ∧
      ∃ entries,
        List.Forall₂ (IsPropertyEntry sampleEnv)
          (contributedProperties (configuredBindings
            (propertyBinding "timer:tick" [("c", "3"), ("b", "2")])
            (propertyBinding "log:out" []) none [])) entries ∧
        result.Spec.Configuration
          = (inheritedConfiguration typedPipe ++ entries).insertionSort configurationLE ∧
        result.Spec.Configuration.Pairwise
          (fun a b => a.Type_.toList < b.Type_.toList ∨
            (a.Type_ = b.Type_ ∧ a.Value.toList ≤ b.Value.toList)) ∧
        result.Spec.Configuration.Perm (inheritedConfiguration typedPipe ++ entries) ∧
        ∀ l : List ConfigurationSpec, l.Sorted configurationLE →
          l.Perm (inheritedConfiguration typedPipe ++ entries) →
          l = result.Spec.Configuration :=
  ⟨_, rfl, rfl, by decide,
    C5_configuration_is_sorted_permutation sampleEnv typedPipe "Kubernetes"
      (propertyBinding "timer:tick" [("c", "3"), ("b", "2")])
      (propertyBinding "log:out" []) none [] _ ⟨rfl, rfl, rfl, rfl, rfl⟩ rfl⟩

/-- C6: take two runs of `CreateIntegrationFor` over the same Pipe that differ only
in the order in which the `ApplicationProperties` maps of the translated bindings
are enumerated (the translations of the second run return the bindings of the
first with their properties permuted). When both succeed, the two
`Spec.Configuration` lists are identical. -/
theorem C6_configuration_independent_of_map_order
    (e : Env Ep Eh T R) (binding : Pipe Ep Eh T R)
    (translate2 : BindingContext → EndpointContext → Ep → Except Error (Binding T))
    (maybeErrorHandler2 : Option Eh → BindingContext → Except Error (Option (Binding T)))
    (r1 r2 : Integration T R)
    (htr : ∀ ctx ec ep b1 b2, e.Translate ctx ec ep = .ok b1 → translate2 ctx ec ep = .ok b2 →
      b1.SameUpToMapOrder b2)
    (heh : ∀ eh ctx b1 b2, e.maybeErrorHandler eh ctx = .ok b1 →
      maybeErrorHandler2 eh ctx = .ok b2 → SameOptionalBinding b1 b2)
    (h1 : CreateIntegrationFor e binding = .ok r1)
    (h2 : CreateIntegrationFor
      { e with Translate := translate2, maybeErrorHandler := maybeErrorHandler2 } binding
      = .ok r2) :
    r1.Spec.Configuration = r2.Spec.Configuration := by
  obtain ⟨p1, f1, t1, eh1, s1, ht1⟩ := translated_of_ok e binding r1 h1
  obtain ⟨p2, f2, t2, eh2, s2, ht2⟩ := translated_of_ok _ binding r2 h2
  obtain ⟨entries1, ha1, hb1⟩ := configuration_of_ok e binding p1 f1 t1 eh1 s1 r1 ht1 h1
  obtain ⟨entries2, ha2, hb2⟩ := configuration_of_ok _ binding p2 f2 t2 eh2 s2 r2 ht2 h2
  obtain ⟨hp1, hf1, hk1, he1, hs1⟩ := ht1
  obtain ⟨hp2, hf2, hk2, he2, hs2⟩ := ht2
  have hp : p2 = p1 := by
    have hp2b : determineTraitProfile e binding = .ok p2 := hp2
    rw [hp1] at hp2b
    cases hp2b
    rfl
  subst hp
  have hf2b : translate2 (bindingContextFor e binding p2) { Type_ := .source }
      binding.Spec.Source = .ok f2 := hf2
  have hk2b : translate2 (bindingContextFor e binding p2) { Type_ := .sink }
      binding.Spec.Sink = .ok t2 := hk2
  have he2b : maybeErrorHandler2 binding.Spec.ErrorHandler (bindingContextFor e binding p2)
      = .ok eh2 := he2
  have hsteps := translations_same
    (fun (p : Nat × Ep) => e.Translate (bindingContextFor e binding p2)
      { Type_ := .action, Position := some p.1 } p.2)
    (fun (p : Nat × Ep) => translate2 (bindingContextFor e binding p2)
      { Type_ := .action, Position := some p.1 } p.2)
    (fun p b1 b2 g1 g2 => htr _ _ _ b1 b2 g1 g2)
    (binding.Spec.Steps.enumFrom 0) s1 s2
    (translateSteps_ok e _ _ 0 s1 hs1)
    (translateSteps_ok _ _ _ 0 s2 hs2)
  have hall := configuredBindings_same f1 t1 f2 t2 eh1 eh2 s1 s2
    (htr _ _ _ f1 f2 hf1 hf2b) (htr _ _ _ t1 t2 hk1 hk2b) (heh _ _ eh1 eh2 he1 he2b) hsteps
  have hperm := contributedProperties_perm _ _ hall
  have hentries1 := entries_eq_map e _ _ ha1
  have hentries2 : entries2 = _ := entries_eq_map e _ _ ha2
  have hpe : entries1.Perm entries2 := by
    rw [hentries1, hentries2]
    exact hperm.map _
  rw [hb1, hb2]
  exact sliceStable_unique _ _ (sliceStable_sorted _)
    ((sliceStable_perm _).trans (List.Perm.append_left _ hpe))

/-- C6 at `configuredPipe`, run in the sample environment and in the one that
enumerates every property map in reverse. -/
theorem C6_witness :
    ∃ r1 r2, CreateIntegrationFor sampleEnv configuredPipe = .ok r1 ∧
      CreateIntegrationFor reversedEnv configuredPipe = .ok r2 ∧
      r1.Spec.Configuration = r2.Spec.Configuration :=
  ⟨_, _, rfl, rfl,
    C6_configuration_independent_of_map_order sampleEnv configuredPipe
      reversedEnv.Translate reversedEnv.maybeErrorHandler _ _
      (by
        intro ctx ec ep b1 b2 g1 g2
        cases ep with
        | none => cases g1
        | some b =>
          cases g1
          cases g2
          exact ⟨rfl, rfl, rfl, (List.reverse_perm _).symm⟩)
      (by
        intro eh ctx b1 b2 g1 g2
        cases eh with
        | none =>
          cases g1
          cases g2
          trivial
        | some b =>
          cases g1
          cases g2
          exact ⟨rfl, rfl, rfl, (List.reverse_perm _).symm⟩)
      rfl rfl⟩

/-- C7, as stated, fails: the source of `stepSourcePipe` translates to a binding
with an embedded step, and the steps of the generated route start with that step,
in front of the final `to`; the list the claim describes (no Pipe steps, no sink
step, the final `to`) is a different one. -/
theorem C7_counterexample :
    ∃ result, CreateIntegrationFor sampleEnv stepSourcePipe = .ok result ∧
      result.Spec.Flows =
        [{ RawMessage := flowRoute "kamelet:timer-source"
            [[("kamelet", Value.map [("name", Value.str "data-type-action")])],
             [("to", Value.str "log:out")]] }] ∧
      result.Spec.Flows ≠
        inheritedFlows stepSourcePipe ++
          [{ RawMessage := flowRoute "kamelet:timer-source"
              (([] : List (Binding SampleTraits)).map sampleEnv.AsYamlDSL ++ []
                ++ [[("to", Value.str "log:out")]]) }] := by
  refine ⟨_, rfl, rfl, ?_⟩
  intro h
  have h2 : flowRoute "kamelet:timer-source"
        ([("kamelet", Value.map [("name", Value.str "data-type-action")])] ::
          [[("to", Value.str "log:out")]])
      = flowRoute "kamelet:timer-source" [[("to", Value.str "log:out")]] :=
    congrArg Flow.RawMessage (List.cons.inj h).1
  simp [flowRoute] at h2

/-- C7, amended: on success, `CreateIntegrationFor` appends exactly one flow after
the flows inherited from the Pipe's embedded integration spec; it is the
serialisation of the route with id `binding` whose from.uri is the source URI and
whose steps list is exactly: the source's embedded step if it has one, then the
translated Pipe steps in order, then the sink's embedded step if it has one, then
a final to(sink URI) entry. -/
theorem C7_route_shape
    (e : Env Ep Eh T R) (binding : Pipe Ep Eh T R) (profile : TraitProfile)
    (fromB toB : Binding T) (errorHandler : Option (Binding T)) (steps : List (Binding T))
    (result : Integration T R)
    (ht : Translated e binding profile fromB toB errorHandler steps)
    (h : CreateIntegrationFor e binding = .ok result) :
    ∃ raw,
      result.Spec.Flows = inheritedFlows binding ++ [{ RawMessage := raw }] ∧
      e.Marshal (Value.map [("route", Value.map [("id", Value.str "binding"),
        ("from", Value.map [("uri", Value.str fromB.URI),
          ("steps", Value.seq (List.map Value.map
            ((if fromB.Step.isSome then [e.AsYamlDSL fromB] else [])
              ++ steps.map e.AsYamlDSL
              ++ (if toB.Step.isSome then [e.AsYamlDSL toB] else [])
              ++ [[("to", Value.str toB.URI)]])))])])]) = .ok raw := by
  obtain ⟨raw, h1, h2⟩ := flows_of_ok e binding profile fromB toB errorHandler steps result ht h
  exact ⟨raw, h2, h1⟩

/-- The amended C7 at `stepSourcePipe`. -/
theorem C7_witness :
    ∃ result, CreateIntegrationFor sampleEnv stepSourcePipe = .ok result ∧
    ∃ raw,
      result.Spec.Flows = inheritedFlows stepSourcePipe ++ [{ RawMessage := raw }] ∧
      sampleEnv.Marshal (Value.map [("route", Value.map [("id", Value.str "binding"),
        ("from", Value.map [("uri", Value.str "kamelet:timer-source"),
          ("steps", Value.seq (List.map Value.map
            ([[("kamelet", Value.map [("name", Value.str "data-type-action")])]]
              ++ ([] : List (Binding SampleTraits)).map sampleEnv.AsYamlDSL
              ++ []
              ++ [[("to", Value.str "log:out")]])))])])]) = .ok raw :=
  ⟨_, rfl,
    C7_route_shape sampleEnv stepSourcePipe "Kubernetes"
      { URI := "kamelet:timer-source", Traits := [], ApplicationProperties := [],
        Step := some [("kamelet", Value.map [("name", Value.str "data-type-action")])] }
      (uriBinding "log:out") none [] _ ⟨rfl, rfl, rfl, rfl, rfl⟩ rfl⟩

/-- C8, as stated, fails: for the Pipe from `timer:tick` to `log:out` without
steps the steps list of the generated route is not empty, it holds the entry
`to: log:out`. -/
theorem C8_counterexample :
    ∃ result,
      CreateIntegrationFor sampleEnv
        (samplePipe (uriEndpoint "timer:tick") (uriEndpoint "log:out") []) = .ok result ∧
      result.Spec.Flows
        = [{ RawMessage := flowRoute "timer:tick" [[("to", Value.str "log:out")]] }] ∧
      result.Spec.Flows ≠ [{ RawMessage := flowRoute "timer:tick" [] }] := by
  refine ⟨_, rfl, rfl, ?_⟩
  intro h
  have h2 : flowRoute "timer:tick" [[("to", Value.str "log:out")]] = flowRoute "timer:tick" [] :=
    congrArg Flow.RawMessage (List.cons.inj h).1
  simp [flowRoute] at h2

/-- C8, amended: for a Pipe without steps whose source translates to the plain
URI `timer:tick` and whose sink translates to the plain URI `log:out` (no
embedded step on either), when the trait merges meet no conflict, the
properties encode and the route serialises, `CreateIntegrationFor` succeeds and appends the route with from.uri `timer:tick`
whose steps list holds exactly one entry, `to: log:out`: no step stands between
the source and the sink. -/
theorem C8_timer_to_log
    (e : Env Ep Eh T R) (binding : Pipe Ep Eh T R) (profile : TraitProfile)
    (fromB toB : Binding T) (errorHandler : Option (Binding T))
    (ht : Translated e binding profile fromB toB errorHandler [])
    (hfu : fromB.URI = "timer:tick") (hfs : fromB.Step = none)
    (htu : toB.URI = "log:out") (hts : toB.Step = none)
    (hmerge : ∃ t, mergeInOrder e (inheritedTraits e binding)
      (configuredBindings fromB toB errorHandler []) = .ok t)
    (hencode : ∀ kv ∈ contributedProperties (configuredBindings fromB toB errorHandler []),
      ∃ s, e.EncodePropertyFileEntry kv.1 kv.2 = .ok s)
    (hmarshal : ∃ raw,
      e.Marshal (Value.map [("route", Value.map [("id", Value.str "binding"),
        ("from", Value.map [("uri", Value.str "timer:tick"),
          ("steps", Value.seq [Value.map [("to", Value.str "log:out")]])])])]) = .ok raw) :
    ∃ result raw,
      CreateIntegrationFor e binding = .ok result ∧
      result.Spec.Flows = inheritedFlows binding ++ [{ RawMessage := raw }] ∧
      e.Marshal (Value.map [("route", Value.map [("id", Value.str "binding"),
        ("from", Value.map [("uri", Value.str "timer:tick"),
          ("steps", Value.seq [Value.map [("to", Value.str "log:out")]])])])]) = .ok raw := by
  obtain ⟨raw, hdoc⟩ := hmarshal
  have hraw : e.Marshal (flowRoute fromB.URI (dslSteps e fromB [] toB)) = .ok raw := by
    simpa [flowRoute, dslSteps, hfu, hfs, htu, hts] using hdoc
  have hfrom : fromB.URI ≠ "" := by rw [hfu]; decide
  have hto : ¬ toB.Empty := by
    intro h
    have h2 : toB.URI = "" := h.2
    rw [htu] at h2
    exact absurd h2 (by decide)
  obtain ⟨t, hmerge⟩ := hmerge
  obtain ⟨result, h1, h2⟩ := createIntegrationFor_succeeds e binding profile fromB toB
    errorHandler [] raw t ht hfrom hto (by simp) hmerge hencode hraw
  exact ⟨result, raw, h1, h2, hdoc⟩

/-- The amended C8 in the sample environment. -/
theorem C8_witness :
    ∃ result raw,
      CreateIntegrationFor sampleEnv
        (samplePipe (uriEndpoint "timer:tick") (uriEndpoint "log:out") []) = .ok result ∧
      result.Spec.Flows
        = inheritedFlows (samplePipe (uriEndpoint "timer:tick") (uriEndpoint "log:out") [])
          ++ [{ RawMessage := raw }] ∧
      sampleEnv.Marshal (Value.map [("route", Value.map [("id", Value.str "binding"),
        ("from", Value.map [("uri", Value.str "timer:tick"),
          ("steps", Value.seq [Value.map [("to", Value.str "log:out")]])])])]) = .ok raw :=
  C8_timer_to_log sampleEnv (samplePipe (uriEndpoint "timer:tick") (uriEndpoint "log:out") [])
    "Kubernetes" (uriBinding "timer:tick") (uriBinding "log:out") none
    ⟨rfl, rfl, rfl, rfl, rfl⟩ rfl rfl rfl rfl
    ⟨_, rfl⟩
    (by simp [contributedProperties, configuredBindings, uriBinding])
    ⟨_, rfl⟩

/-- C9: once the translated bindings pass the validation, `CreateIntegrationFor`
merges the trait settings in the order source, steps in their order, sink, error
handler (skipped when absent). On success the Integration's traits are the result
of merging in that order into the inherited traits. When the merge of a binding
`b` conflicts, the bindings `pre` in front of it in that order having been merged
(and their properties encoded) without error, the function returns the error of
that merge, and no Integration, whatever comes after `b`. -/
theorem C9_trait_merge_order
    (e : Env Ep Eh T R) (binding : Pipe Ep Eh T R) (profile : TraitProfile)
    (fromB toB : Binding T) (errorHandler : Option (Binding T)) (steps : List (Binding T))
    (ht : Translated e binding profile fromB toB errorHandler steps)
    (hfrom : fromB.URI ≠ "") (hto : ¬ toB.Empty)
    (hsteps : ∀ s ∈ steps, ¬ s.Empty) :
    (∀ result, CreateIntegrationFor e binding = .ok result →
      mergeInOrder e (inheritedTraits e binding)
        (configuredBindings fromB toB errorHandler steps) = .ok result.Spec.Traits) ∧
    (∀ pre b post t err,
      configuredBindings fromB toB errorHandler steps = pre ++ b :: post →
      mergeInOrder e (inheritedTraits e binding) pre = .ok t →
      (∀ kv ∈ contributedProperties pre, ∃ s, e.EncodePropertyFileEntry kv.1 kv.2 = .ok s) →
      e.Merge t b.Traits = .error err →
      CreateIntegrationFor e binding = .error err) := by
  have hcif := createIntegrationFor_of_translated e binding profile fromB toB errorHandler
    steps ht
  rw [assemble_eq e _ fromB toB errorHandler steps hto hfrom hsteps] at hcif
  constructor
  · intro result h
    rw [hcif] at h
    cases hc : configureBinding e (profiledIntegration e binding profile)
        (configureArguments fromB toB errorHandler steps) with
    | error err => simp [hc] at h
    | ok it4 =>
      simp only [hc] at h
      cases hm : e.Marshal (flowRoute fromB.URI (dslSteps e fromB steps toB)) with
      | error err => simp [hm] at h
      | ok raw =>
        simp only [hm, Except.ok.injEq] at h
        obtain ⟨_, _, _, _, _, h6, _⟩ := configureBinding_ok e _ _ _ hc
        rw [reduceOption_configureArguments, profiledIntegration_traits] at h6
        rw [← h]
        exact h6
  · intro pre b post t err hsplit hm he hc
    rw [← profiledIntegration_traits e binding profile] at hm
    rw [hcif, configureBinding_skips_nil, reduceOption_configureArguments, hsplit,
      configureBinding_first_conflict e pre b post _ t err hm he hc]

/-- C9 at `conflictPipe`: source and step merge, the sink conflicts with the
source, and the error returned is the one of the sink's merge. -/
theorem C9_witness :
    mergeInOrder sampleEnv (inheritedTraits sampleEnv conflictPipe)
      [traitBinding "timer:tick" [("knative.enabled", "true")],
       traitBinding "direct:a" [("camel.runtime-version", "3.8.1")]]
      = .ok [("knative.enabled", "true"), ("camel.runtime-version", "3.8.1")] ∧
    CreateIntegrationFor sampleEnv conflictPipe
      = .error (.text "conflicting values for trait setting knative.enabled") :=
  ⟨rfl,
   (C9_trait_merge_order sampleEnv conflictPipe "Kubernetes"
      (traitBinding "timer:tick" [("knative.enabled", "true")])
      (traitBinding "log:out" [("knative.enabled", "false")]) none
      [traitBinding "direct:a" [("camel.runtime-version", "3.8.1")]]
      ⟨rfl, rfl, rfl, rfl, rfl⟩ (by decide) (by simp [Binding.Empty, traitBinding])
      (by simp [Binding.Empty, traitBinding])).2
      [traitBinding "timer:tick" [("knative.enabled", "true")],
       traitBinding "direct:a" [("camel.runtime-version", "3.8.1")]]
      (traitBinding "log:out" [("knative.enabled", "false")]) []
      [("knative.enabled", "true"), ("camel.runtime-version", "3.8.1")]
      (.text "conflicting values for trait setting knative.enabled")
      rfl rfl (by simp [contributedProperties, traitBinding]) rfl⟩

/-- C10: (1) whenever `determineTraitProfile` returns a profile, it is the first
available one in the order override, platform status profile, platform spec
profile, Knative profile if serving is installed, profile derived from the
cluster type, global default; (2) it does return one when the platform lookup
answers (a platform or none, with no error other than not-found) and the Knative
check answers; (3) a non-empty override is returned whatever the environment is,
so without any lookup; (4) a non-empty platform profile (status first, then spec)
is returned whatever the Knative check would answer. -/
theorem C10_profile_precedence (e : Env Ep Eh T R) (binding : Pipe Ep Eh T R) :
    (∀ profile, determineTraitProfile e binding = .ok profile →
      profile = profileByPrecedence e binding (e.GetForResource binding).1
        (servingInstalled e)) ∧
    (∀ pl err k, e.GetForResource binding = (pl, err) →
      (∀ x, err = some x → e.IsNotFound x = true) →
      e.IsServingInstalled = .ok k →
      determineTraitProfile e binding = .ok (profileByPrecedence e binding pl k)) ∧
    (∀ i, binding.Spec.Integration = some i → i.Profile ≠ "" →
      determineTraitProfile e binding = .ok i.Profile) ∧
    (∀ pl err, e.GetForResource binding = (some pl, err) →
      (∀ x, err = some x → e.IsNotFound x = true) →
      (∀ i, binding.Spec.Integration = some i → i.Profile = "") →
      (pl.Status.Profile ≠ "" → determineTraitProfile e binding = .ok pl.Status.Profile) ∧
      (pl.Status.Profile = "" → pl.Spec.Profile ≠ "" →
        determineTraitProfile e binding = .ok pl.Spec.Profile)) := by
  have hlookup : ∀ pl err, e.GetForResource binding = (pl, err) →
      (∀ x, err = some x → e.IsNotFound x = true) →
      (∀ i, binding.Spec.Integration = some i → i.Profile = "") →
      determineTraitProfile e binding = profileFromPlatform e pl := by
    intro pl err hG hN hO
    unfold determineTraitProfile
    have hcond : ¬ (binding.Spec.Integration.isSome ∧
        (match binding.Spec.Integration with
          | some i => i.Profile
          | none => "") ≠ "") := by
      cases hI : binding.Spec.Integration with
      | none => simp
      | some i => simp [hO i hI]
    simp only [hcond, if_false, hG]
    cases err with
    | none => rfl
    | some x => simp [hN x rfl]
  have hoverride : ∀ i, binding.Spec.Integration = some i → i.Profile ≠ "" →
      ∀ pl k, determineTraitProfile e binding = .ok i.Profile ∧
        profileByPrecedence e binding pl k = i.Profile := by
    intro i hI hP pl k
    unfold determineTraitProfile profileByPrecedence
    simp [hI, hP, Option.filter]
  have hfrom : ∀ pl k,
      (∀ i, binding.Spec.Integration = some i → i.Profile = "") →
      ∀ profile, profileFromPlatform e pl = .ok profile →
        (e.IsServingInstalled = .ok k ∨
          ∃ p, pl = some p ∧ (p.Status.Profile ≠ "" ∨ p.Spec.Profile ≠ "")) →
        profile = profileByPrecedence e binding pl k := by
    intro pl k hO profile hp hk
    have hfirst : (binding.Spec.Integration.map (fun i => i.Profile)).filter
        (fun x => x ≠ "") = none := by
      cases hI : binding.Spec.Integration with
      | none => rfl
      | some i => simp [Option.filter, hO i hI]
    unfold profileByPrecedence
    simp only [hfirst]
    cases pl with
    | none =>
      rcases hk with hK | ⟨p, hp1, _⟩
      · cases k <;>
          simp [profileFromPlatform, profileAfterPlatform, hK] at hp <;>
          (subst hp; simp [Option.filter])
      · cases hp1
    | some p =>
      by_cases h1 : p.Status.Profile = ""
      · by_cases h2 : p.Spec.Profile = ""
        · rcases hk with hK | ⟨q, hq1, hq2⟩
          · by_cases h3 : e.GetTraitProfile p = ""
            · cases k <;>
                simp [profileFromPlatform, profileAfterPlatform, hK, h1, h2, h3] at hp <;>
                (subst hp; simp [Option.filter, h1, h2, h3])
            · cases k <;>
                simp [profileFromPlatform, profileAfterPlatform, hK, h1, h2, h3] at hp <;>
                (subst hp; simp [Option.filter, h1, h2, h3])
          · cases hq1
            rcases hq2 with hq2 | hq2
            · exact absurd h1 hq2
            · exact absurd h2 hq2
        · simp [profileFromPlatform, h1, h2] at hp
          subst hp
          simp [Option.filter, h1, h2]
      · simp [profileFromPlatform, h1] at hp
        subst hp
        simp [Option.filter, h1]
  have hanswers : ∀ pl k, e.IsServingInstalled = .ok k →
      ∃ profile, profileFromPlatform e pl = .ok profile := by
    intro pl k hK
    cases pl with
    | none => cases k <;> simp [profileFromPlatform, profileAfterPlatform, hK]
    | some p =>
      unfold profileFromPlatform profileAfterPlatform
      simp only [hK]
      cases k <;> split_ifs <;> exact ⟨_, rfl⟩
  refine ⟨?_, ?_, ?_, ?_⟩
  · intro profile h
    by_cases hO : ∀ i, binding.Spec.Integration = some i → i.Profile = ""
    · cases hG : e.GetForResource binding with
      | mk pl err =>
        have hN : ∀ x, err = some x → e.IsNotFound x = true := by
          intro x hx
          by_contra hnf
          have hnf2 : e.IsNotFound x = false := by simpa using hnf
          unfold determineTraitProfile at h
          have hcond : ¬ (binding.Spec.Integration.isSome ∧
              (match binding.Spec.Integration with
                | some i => i.Profile
                | none => "") ≠ "") := by
            cases hI : binding.Spec.Integration with
            | none => simp
            | some i => simp [hO i hI]
          simp [hcond, hG, hx, hnf2] at h
        rw [hlookup pl err hG hN hO] at h
        apply hfrom pl (servingInstalled e) hO profile h
        cases hK : e.IsServingInstalled with
        | ok k => left; simp [servingInstalled, hK]
        | error x =>
          right
          cases pl with
          | none => simp [profileFromPlatform, profileAfterPlatform, hK] at h
          | some p =>
            refine ⟨p, rfl, ?_⟩
            by_contra hne
            push_neg at hne
            simp [profileFromPlatform, profileAfterPlatform, hK, hne.1, hne.2] at h
    · push_neg at hO
      obtain ⟨i, hI, hP⟩ := hO
      obtain ⟨h1, h2⟩ := hoverride i hI hP (e.GetForResource binding).1 (servingInstalled e)
      rw [h1] at h
      cases h
      exact h2.symm
  · intro pl err k hG hN hK
    by_cases hO : ∀ i, binding.Spec.Integration = some i → i.Profile = ""
    · rw [hlookup pl err hG hN hO]
      obtain ⟨profile, hp⟩ := hanswers pl k hK
      rw [hp, hfrom pl k hO profile hp (Or.inl hK)]
    · push_neg at hO
      obtain ⟨i, hI, hP⟩ := hO
      obtain ⟨h1, h2⟩ := hoverride i hI hP pl k
      rw [h1, h2]
  · intro i hI hP
    exact (hoverride i hI hP none false).1
  · intro pl err hG hN hO
    rw [hlookup (some pl) err hG hN hO]
    constructor
    · intro h1
      simp [profileFromPlatform, h1]
    · intro h1 h2
      simp [profileFromPlatform, h1, h2]

/-- C10 at three sample inputs: without platform and Knative the Pipe gets the
global default; with Knative serving installed the platform's spec profile still
wins; and an override wins over both. -/
theorem C10_witness :
    determineTraitProfile sampleEnv
      (samplePipe (uriEndpoint "timer:tick") (uriEndpoint "log:out") []) = .ok "Kubernetes" ∧
    determineTraitProfile platformEnv
      (samplePipe (uriEndpoint "timer:tick") (uriEndpoint "log:out") []) = .ok "OpenShift" ∧
    determineTraitProfile platformEnv
      (samplePipeOver (some { sampleSpec [] [] with Profile := "Knative" })
        (uriEndpoint "timer:tick") (uriEndpoint "log:out") [] none) = .ok "Knative" :=
  ⟨(C10_profile_precedence sampleEnv
      (samplePipe (uriEndpoint "timer:tick") (uriEndpoint "log:out") [])).2.1
      none none false rfl (by simp) rfl,
   ((C10_profile_precedence platformEnv
      (samplePipe (uriEndpoint "timer:tick") (uriEndpoint "log:out") [])).2.2.2
      { Spec := { Profile := "OpenShift" }, Status := { Profile := "", Cluster := "Kubernetes" } }
      none rfl (by simp) (by simp [samplePipe, samplePipeOver])).2 rfl (by decide),
   (C10_profile_precedence platformEnv
      (samplePipeOver (some { sampleSpec [] [] with Profile := "Knative" })
        (uriEndpoint "timer:tick") (uriEndpoint "log:out") [] none)).2.2.1
      { sampleSpec [] [] with Profile := "Knative" } rfl (by decide)⟩

/-- C11: of the two values that `CreateIntegrationFor` returns, exactly one is
nil on every path: whenever the error is non-nil the Integration is nil, and
whenever the error is nil the Integration is non-nil. The pair is the one that
stands for the result of `CreateIntegrationFor` as embedded above. -/
theorem C11_no_partial_result (e : Env Ep Eh T R) (binding : Pipe Ep Eh T R) :
    ((CreateIntegrationForPair e binding).2 ≠ none →
      (CreateIntegrationForPair e binding).1 = none) ∧
    ((CreateIntegrationForPair e binding).2 = none →
      (CreateIntegrationForPair e binding).1 ≠ none) ∧
    CreateIntegrationForPair e binding = asPair (CreateIntegrationFor e binding) := by
  have hpair : CreateIntegrationForPair e binding = asPair (CreateIntegrationFor e binding) := by
    unfold CreateIntegrationForPair CreateIntegrationFor assemble asPair
    cases determineTraitProfile e binding with
    | error err => rfl
    | ok profile =>
      simp only
      cases e.Translate (bindingContextFor e binding profile) { Type_ := .source }
          binding.Spec.Source with
      | error err => rfl
      | ok fromB =>
        simp only
        cases e.Translate (bindingContextFor e binding profile) { Type_ := .sink }
            binding.Spec.Sink with
        | error err => rfl
        | ok toB =>
          simp only
          cases e.maybeErrorHandler binding.Spec.ErrorHandler
              (bindingContextFor e binding profile) with
          | error err => rfl
          | ok errorHandler =>
            simp only
            cases translateSteps e (bindingContextFor e binding profile) 0
                binding.Spec.Steps with
            | error err => rfl
            | ok steps =>
              simp only
              by_cases hto : toB.Step.isNone ∧ toB.URI = ""
              · simp only [hto, and_self, if_true]
              · simp only [hto, if_false]
                by_cases hfrom : fromB.URI = ""
                · simp only [hfrom, if_true]
                · simp only [hfrom, if_false]
                  cases validateSteps 0 steps with
                  | error err => rfl
                  | ok u =>
                    simp only
                    cases configureBinding e (profiledIntegration e binding profile)
                        [some fromB] with
                    | error err => rfl
                    | ok it1 =>
                      simp only
                      cases configureBinding e it1 (steps.map some) with
                      | error err => rfl
                      | ok it2 =>
                        simp only
                        cases configureBinding e it2 [some toB] with
                        | error err => rfl
                        | ok it3 =>
                          simp only
                          cases configureBinding e it3 [errorHandler] with
                          | error err => rfl
                          | ok it4 =>
                            simp only
                            cases e.Marshal (flowRoute fromB.URI
                                (dslSteps e fromB steps toB)) with
                            | error err => rfl
                            | ok raw => rfl
  refine ⟨?_, ?_, hpair⟩
  · rw [hpair]
    cases CreateIntegrationFor e binding <;> simp [asPair]
  · rw [hpair]
    cases CreateIntegrationFor e binding <;> simp [asPair]

/-- C11 at two sample Pipes: the one with source "" fails and returns no
Integration, the one from `timer:tick` to `log:out` succeeds and returns one. -/
theorem C11_witness :
    (CreateIntegrationForPair sampleEnv
        (samplePipe (uriEndpoint "") (uriEndpoint "log:out") [])).2
      = some (.text "illegal step definition for source step: URI should be provided") ∧
    (CreateIntegrationForPair sampleEnv
        (samplePipe (uriEndpoint "") (uriEndpoint "log:out") [])).1 = none ∧
    (CreateIntegrationForPair sampleEnv
        (samplePipe (uriEndpoint "timer:tick") (uriEndpoint "log:out") [])).2 = none ∧
    (CreateIntegrationForPair sampleEnv
        (samplePipe (uriEndpoint "timer:tick") (uriEndpoint "log:out") [])).1 ≠ none :=
  have hfail : (CreateIntegrationForPair sampleEnv
      (samplePipe (uriEndpoint "") (uriEndpoint "log:out") [])).2
      = some (.text "illegal step definition for source step: URI should be provided") := rfl
  have hpass : (CreateIntegrationForPair sampleEnv
      (samplePipe (uriEndpoint "timer:tick") (uriEndpoint "log:out") [])).2 = none := rfl
  ⟨hfail,
   (C11_no_partial_result sampleEnv
      (samplePipe (uriEndpoint "") (uriEndpoint "log:out") [])).1
      (by rw [hfail]; exact Option.some_ne_none _),
   hpass,
   (C11_no_partial_result sampleEnv
      (samplePipe (uriEndpoint "timer:tick") (uriEndpoint "log:out") [])).2.1 hpass⟩

namespace Trait

variable {O : Type}

/-! ## Lemmas on the knative trait -/

theorem forEach_append {α σ : Type} (body : α → σ → σ × Option Error) :
    ∀ (xs ys : List α) (s : σ),
      forEach body (xs ++ ys) s =
        match forEach body xs s with
        | (s1, some err) => (s1, some err)
        | (s1, none) => forEach body ys s1 := by
  intro xs
  induction xs with
  | nil => intro ys s; rfl
  | cons x rest ih =>
    intro ys s
    simp only [List.cons_append, forEach]
    rcases hb : body x s with ⟨s1, _ | err⟩
    · exact ih ys s1
    · rfl

theorem forEach_stops {α σ : Type} (body : α → σ → σ × Option Error)
    (pre : List α) (x : α) (rest : List α) (s0 s s1 : σ) (err : Error)
    (hpre : forEach body pre s0 = (s, none)) (hx : body x s = (s1, some err)) :
    forEach body (pre ++ x :: rest) s0 = (s1, some err) := by
  rw [forEach_append, hpre]
  simp only [forEach, hx]

theorem resolveReference_single (d : Deps O) (serviceType : CamelServiceType)
    (ref candidate : ObjectReference) (s : Run O) :
    resolveReference d serviceType ref [candidate] s = (s, .ok candidate) := rfl

theorem resolveReference_lookup (d : Deps O) (serviceType : CamelServiceType)
    (ref : ObjectReference) (possibleRefs : List ObjectReference) (s : Run O)
    (hmany : possibleRefs.length ≠ 1) :
    resolveReference d serviceType ref possibleRefs s =
      (s.called (.GetAddressableReference possibleRefs s.e.integration.ObjectMeta.Namespace
          ref.Name),
        match d.GetAddressableReference s.e.ClientCalls possibleRefs
            s.e.integration.ObjectMeta.Namespace ref.Name with
        | .error err =>
          if d.IsNotFound err then
            .error (.text ("cannot find " ++ d.ResourceDescription serviceType ref.Name))
          else
            .error (.wrapped ("error looking up "
              ++ d.ResourceDescription serviceType ref.Name) err)
        | .ok actualRef => .ok actualRef) := by
  have hgen : ∀ l : List ObjectReference, l.length ≠ 1 →
      resolveReference d serviceType ref l s =
      (s.called (.GetAddressableReference l s.e.integration.ObjectMeta.Namespace ref.Name),
        match d.GetAddressableReference s.e.ClientCalls l
            s.e.integration.ObjectMeta.Namespace ref.Name with
        | .error err =>
          if d.IsNotFound err then
            .error (.text ("cannot find " ++ d.ResourceDescription serviceType ref.Name))
          else
            .error (.wrapped ("error looking up "
              ++ d.ResourceDescription serviceType ref.Name) err)
        | .ok actualRef => .ok actualRef) := by
    intro l hl
    match l, hl with
    | [], _ =>
      simp only [resolveReference]
      cases d.GetAddressableReference s.e.ClientCalls []
          s.e.integration.ObjectMeta.Namespace ref.Name with
      | error err => by_cases hnf : d.IsNotFound err = true <;> simp [hnf]
      | ok actualRef => rfl
    | [a], h => exact absurd rfl h
    | a :: b :: l2, _ =>
      simp only [resolveReference]
      cases d.GetAddressableReference s.e.ClientCalls (a :: b :: l2)
          s.e.integration.ObjectMeta.Namespace ref.Name with
      | error err => by_cases hnf : d.IsNotFound err = true <;> simp [hnf]
      | ok actualRef => rfl
  exact hgen possibleRefs hmany

/-- The body of `withServiceDo` for a reference with one candidate. -/
theorem withService_single (d : Deps O) (skipDuplicates : Bool)
    (serviceType : CamelServiceType) (endpointKind : CamelEndpointKind) (gen : Gen O)
    (serviceURI : String) (s : Run O) (ref candidate : ObjectReference)
    (href : d.ExtractObjectReference serviceURI = .ok ref)
    (hone : d.FillMissingReferenceData serviceType ref = [candidate]) :
    withService d skipDuplicates serviceType endpointKind gen serviceURI s =
      if skipDuplicates ∧ ContainsService d s.env ref.Name endpointKind serviceType
          ref.APIVersion ref.Kind then (s, none)
      else handled d serviceType ref
        (gen candidate serviceURI (urlProvider d serviceType ref candidate) s) := by
  unfold withService
  simp only [href, hone, resolveReference_single]
  split_ifs
  · rfl
  · unfold handled
    rcases gen candidate serviceURI (urlProvider d serviceType ref candidate) s with
      ⟨s2, _ | err⟩ <;> rfl

theorem urlProvider_called (d : Deps O) (serviceType : CamelServiceType)
    (ref actualRef : ObjectReference) (s : Run O) :
    (urlProvider d serviceType ref actualRef s).1
      = s.called (.GetSinkURL actualRef s.e.integration.ObjectMeta.Namespace) := by
  unfold urlProvider
  simp only
  split <;> rfl

theorem forEach_invariant {α σ β : Type} (body : α → σ → σ × Option Error) (f : σ → β) :
    ∀ (xs : List α) (s : σ), (∀ x ∈ xs, ∀ s1, f (body x s1).1 = f s1) →
      f (forEach body xs s).1 = f s := by
  intro xs
  induction xs with
  | nil => intro s _; rfl
  | cons x rest ih =>
    intro s h
    simp only [forEach]
    have hx := h x (List.mem_cons_self _ _) s
    rcases hb : body x s with ⟨s1, _ | err⟩
    · rw [hb] at hx
      simp only
      rw [ih s1 (fun y hy => h y (List.mem_cons_of_mem _ hy))]
      exact hx
    · rw [hb] at hx
      exact hx

theorem resolveReference_sinkURLCalls (d : Deps O) (serviceType : CamelServiceType)
    (ref : ObjectReference) (possibleRefs : List ObjectReference) (s : Run O) :
    (resolveReference d serviceType ref possibleRefs s).1.e.ClientCalls.filter
        ClusterCall.isGetSinkURL
      = s.e.ClientCalls.filter ClusterCall.isGetSinkURL := by
  by_cases hone : possibleRefs.length = 1
  · match possibleRefs, hone with
    | [c], _ => rfl
  · rw [resolveReference_lookup d serviceType ref possibleRefs s hone]
    simp [Run.called, ClusterCall.isGetSinkURL]

/-- The body of `withServiceDo` asks for no address unless the callback does. -/
theorem withService_sinkURLCalls (d : Deps O) (skipDuplicates : Bool)
    (serviceType : CamelServiceType) (endpointKind : CamelEndpointKind) (gen : Gen O)
    (hgen : ∀ ref uri provider s, (gen ref uri provider s).1.e.ClientCalls.filter
      ClusterCall.isGetSinkURL = s.e.ClientCalls.filter ClusterCall.isGetSinkURL)
    (serviceURI : String) (s : Run O) :
    (withService d skipDuplicates serviceType endpointKind gen serviceURI s).1.e.ClientCalls.filter
        ClusterCall.isGetSinkURL
      = s.e.ClientCalls.filter ClusterCall.isGetSinkURL := by
  unfold withService
  cases d.ExtractObjectReference serviceURI with
  | error err => rfl
  | ok ref =>
    simp only
    split_ifs
    · rfl
    · have hres := resolveReference_sinkURLCalls d serviceType ref
        (d.FillMissingReferenceData serviceType ref) s
      rcases hr : resolveReference d serviceType ref
          (d.FillMissingReferenceData serviceType ref) s with ⟨s1, err | actualRef⟩
      · rw [hr] at hres
        exact hres
      · rw [hr] at hres
        simp only
        have hg := hgen actualRef serviceURI (urlProvider d serviceType ref actualRef) s1
        rcases hgr : gen actualRef serviceURI (urlProvider d serviceType ref actualRef) s1 with
          ⟨s2, _ | err⟩
        · rw [hgr] at hg
          simp only
          rw [hg, hres]
        · rw [hgr] at hg
          simp only
          rw [hg, hres]

/-- The body of `withServiceDo` calls the cluster not at all for a single
candidate, when the callback does not. -/
theorem withService_single_calls (d : Deps O) (skipDuplicates : Bool)
    (serviceType : CamelServiceType) (endpointKind : CamelEndpointKind) (gen : Gen O)
    (hgen : ∀ ref uri provider s, (gen ref uri provider s).1.e.ClientCalls = s.e.ClientCalls)
    (serviceURI : String) (s : Run O)
    (hone : ∀ ref, d.ExtractObjectReference serviceURI = .ok ref →
      ∃ c, d.FillMissingReferenceData serviceType ref = [c]) :
    (withService d skipDuplicates serviceType endpointKind gen serviceURI s).1.e.ClientCalls
      = s.e.ClientCalls := by
  cases href : d.ExtractObjectReference serviceURI with
  | error err => simp only [withService, href]
  | ok ref =>
    obtain ⟨c, hc⟩ := hone ref href
    rw [withService_single d skipDuplicates serviceType endpointKind gen serviceURI s ref c
      href hc]
    split_ifs
    · rfl
    · have hg := hgen c serviceURI (urlProvider d serviceType ref c) s
      unfold handled
      rcases hgr : gen c serviceURI (urlProvider d serviceType ref c) s with ⟨s2, _ | err⟩
      · rw [hgr] at hg; exact hg
      · rw [hgr] at hg; exact hg

theorem sinkBindingGen_calls (d : Deps O) (t : knativeTrait) (serviceType : CamelServiceType)
    (ref : ObjectReference) (uri : String) (provider : URLProvider O) (s : Run O) :
    (sinkBindingGen d t serviceType ref uri provider s).1.e.ClientCalls = s.e.ClientCalls := by
  unfold sinkBindingGen
  simp only
  split_ifs <;> rfl

/-- Method `configureSinkBinding` in terms of the sinks it selects and of the
service type it settles on. -/
theorem configureSinkBinding_eq (d : Deps O) (t : knativeTrait) (s : Run O) :
    configureSinkBinding d t s =
      if ¬ BoolDeref t.SinkBinding false then (s, none)
      else if (selectedSinks d t).length ≠ 1 then
        (s, some (.text ("sinkbinding can only be used with a single sink: found "
          ++ toString (selectedSinks d t).length ++ " sinks")))
      else
        withServiceDo d false (selectedSinks d t) (sinkServiceType d t) CamelEndpointKindSink
          (sinkBindingGen d t (sinkServiceType d t)) s := by
  have hc : CamelServiceTypeChannel.length ≠ 0 := by decide
  have he : CamelServiceTypeEndpoint.length ≠ 0 := by decide
  have hz : ("" : String).length = 0 := by decide
  have htype :
      (if (if (extractServices d t.ChannelSinks CamelServiceTypeChannel).length > 0
              then CamelServiceTypeChannel else "").length = 0 ∧
            (extractServices d t.ChannelSinks CamelServiceTypeChannel
              ++ extractServices d t.EndpointSinks CamelServiceTypeEndpoint).length > 0
          then CamelServiceTypeEndpoint
          else (if (extractServices d t.ChannelSinks CamelServiceTypeChannel).length > 0
              then CamelServiceTypeChannel else "")) =
      (if (extractServices d t.ChannelSinks CamelServiceTypeChannel).length > 0 then
          CamelServiceTypeChannel
        else if (extractServices d t.EndpointSinks CamelServiceTypeEndpoint).length > 0 then
          CamelServiceTypeEndpoint
        else "") := by
    by_cases h1 : (extractServices d t.ChannelSinks CamelServiceTypeChannel).length > 0
    · simp [h1, hc]
    · have h1z : (extractServices d t.ChannelSinks CamelServiceTypeChannel).length = 0 := by
        omega
      by_cases h2 : (extractServices d t.EndpointSinks CamelServiceTypeEndpoint).length > 0
      · simp [h1z, h2, hz]
      · have h2z : (extractServices d t.EndpointSinks CamelServiceTypeEndpoint).length = 0 := by
          omega
        simp [h1z, h2z]
  have htype2 :
      (if (if (extractServices d t.ChannelSinks CamelServiceTypeChannel).length > 0 then
              CamelServiceTypeChannel
            else if (extractServices d t.EndpointSinks CamelServiceTypeEndpoint).length > 0 then
              CamelServiceTypeEndpoint
            else "").length = 0 ∧
            (extractServices d t.ChannelSinks CamelServiceTypeChannel
              ++ extractServices d t.EndpointSinks CamelServiceTypeEndpoint
              ++ extractServices d t.EventSinks CamelServiceTypeEvent).length > 0
          then CamelServiceTypeEvent
          else (if (extractServices d t.ChannelSinks CamelServiceTypeChannel).length > 0 then
              CamelServiceTypeChannel
            else if (extractServices d t.EndpointSinks CamelServiceTypeEndpoint).length > 0 then
              CamelServiceTypeEndpoint
            else "")) = sinkServiceType d t := by
    unfold sinkServiceType
    by_cases h1 : (extractServices d t.ChannelSinks CamelServiceTypeChannel).length > 0
    · simp [h1, hc]
    · have h1z : (extractServices d t.ChannelSinks CamelServiceTypeChannel).length = 0 := by
        omega
      by_cases h2 : (extractServices d t.EndpointSinks CamelServiceTypeEndpoint).length > 0
      · simp [h1z, h2, he]
      · have h2z : (extractServices d t.EndpointSinks CamelServiceTypeEndpoint).length = 0 := by
          omega
        simp [h1z, h2z, hz]
  unfold configureSinkBinding selectedSinks
  simp only [htype, htype2]

theorem createTrigger_found (d : Deps O) (e : Environment O) (ref : ObjectReference)
    (eventType path : String) (o : O) (trigger : Trigger) (filter : TriggerFilter)
    (ho : o ∈ e.Resources) (htr : d.AsTrigger o = some trigger)
    (hbroker : trigger.Spec.Broker = ref.Name) (hfilter : trigger.Spec.Filter = some filter)
    (htype : mapGet filter.Attributes "type" = eventType) :
    createTrigger d e ref eventType path = e := by
  have hfound : HasKnativeTrigger d e.Resources (fun trigger =>
      trigger.Spec.Broker == ref.Name &&
        match trigger.Spec.Filter with
        | some filter => mapGet filter.Attributes "type" == eventType
        | none => false) = true := by
    unfold HasKnativeTrigger
    rw [List.any_eq_true]
    refine ⟨o, ho, ?_⟩
    simp [htr, hbroker, hfilter, htype]
  unfold createTrigger
  simp only [hfound, not_true_eq_false, if_false]

theorem sortStrings_pair (u : String) : sortStrings [u, u] = [u, u] := by
  simp [sortStrings, List.insertionSort, List.orderedInsert]

theorem extractServices_twice (d : Deps O) (c : String) (serviceType : CamelServiceType) :
    extractServices d [c, c] serviceType
      = extractServices d [c] serviceType ++ extractServices d [c] serviceType := by
  unfold extractServices
  by_cases h : stringsTrim c " \t\"" = ""
  · simp [h, sortStrings]
  · simp [h, sortStrings, List.insertionSort, List.orderedInsert]

theorem extractServices_once (d : Deps O) (c : String) (serviceType : CamelServiceType) :
    extractServices d [c] serviceType = [] ∨
      ∃ u, extractServices d [c] serviceType = [u] := by
  unfold extractServices
  by_cases h : stringsTrim c " \t\"" = ""
  · left; simp [h, sortStrings]
  · right
    exact ⟨d.NormalizeToURI serviceType (stringsTrim c " \t\""),
      by simp [h, sortStrings, List.insertionSort, List.orderedInsert]⟩

theorem resolveReference_state (d : Deps O) (serviceType : CamelServiceType)
    (ref : ObjectReference) (possibleRefs : List ObjectReference) (s : Run O) :
    (resolveReference d serviceType ref possibleRefs s).1.env = s.env ∧
    (resolveReference d serviceType ref possibleRefs s).1.e.Resources = s.e.Resources ∧
    (resolveReference d serviceType ref possibleRefs s).1.e.Integration = s.e.Integration := by
  by_cases hone : possibleRefs.length = 1
  · match possibleRefs, hone with
    | [c], _ => exact ⟨rfl, rfl, rfl⟩
  · rw [resolveReference_lookup d serviceType ref possibleRefs s hone]
    exact ⟨rfl, rfl, rfl⟩

/-- The definition that the callback of the channel sources appends is found by
the question that `withServiceDo` asks about the reference it was resolved from. -/
theorem channelSource_contained (d : Deps O) (t : knativeTrait) (services : List CamelServiceDefinition)
    (ref actual : ObjectReference) (host : String)
    (hkeys : [d.CamelMetaEndpointKind, d.CamelMetaKnativeAPIVersion, d.CamelMetaKnativeKind,
      d.CamelMetaKnativeReply, d.CamelMetaFilterPrefix ++ knativeHistoryHeader].Nodup)
    (href : Refines actual ref) :
    ContainsService d
      { Services := services ++ [
        { Name := actual.Name, ServiceType := CamelServiceTypeChannel,
          Path := "/channels/" ++ actual.Name,
          Metadata :=
            if BoolDeref t.FilterSourceChannels false then
              mapSet [(d.CamelMetaEndpointKind, CamelEndpointKindSource),
                (d.CamelMetaKnativeAPIVersion, actual.APIVersion),
                (d.CamelMetaKnativeKind, actual.Kind),
                (d.CamelMetaKnativeReply, "false")]
                (d.CamelMetaFilterPrefix ++ knativeHistoryHeader) host
            else [(d.CamelMetaEndpointKind, CamelEndpointKindSource),
                (d.CamelMetaKnativeAPIVersion, actual.APIVersion),
                (d.CamelMetaKnativeKind, actual.Kind),
                (d.CamelMetaKnativeReply, "false")] }] }
      ref.Name CamelEndpointKindSource CamelServiceTypeChannel ref.APIVersion ref.Kind
      = true := by
  obtain ⟨hname, hav, hkind⟩ := href
  simp only [List.nodup_cons, List.mem_cons, List.mem_singleton, List.not_mem_nil, not_or,
    List.nodup_nil, and_true, not_false_eq_true] at hkeys
  obtain ⟨⟨h12, h13, h14, h15⟩, ⟨h23, h24, h25⟩, ⟨h34, h35⟩, h45⟩ := hkeys
  have hmeta : ∀ key, key ≠ d.CamelMetaFilterPrefix ++ knativeHistoryHeader →
      mapGet
        (if BoolDeref t.FilterSourceChannels false then
          mapSet [(d.CamelMetaEndpointKind, CamelEndpointKindSource),
            (d.CamelMetaKnativeAPIVersion, actual.APIVersion),
            (d.CamelMetaKnativeKind, actual.Kind),
            (d.CamelMetaKnativeReply, "false")]
            (d.CamelMetaFilterPrefix ++ knativeHistoryHeader) host
        else [(d.CamelMetaEndpointKind, CamelEndpointKindSource),
            (d.CamelMetaKnativeAPIVersion, actual.APIVersion),
            (d.CamelMetaKnativeKind, actual.Kind),
            (d.CamelMetaKnativeReply, "false")]) key
      = mapGet [(d.CamelMetaEndpointKind, CamelEndpointKindSource),
            (d.CamelMetaKnativeAPIVersion, actual.APIVersion),
            (d.CamelMetaKnativeKind, actual.Kind),
            (d.CamelMetaKnativeReply, "false")] key := by
    intro key hkey
    split_ifs
    · have hne : ∀ k : String, k ≠ d.CamelMetaFilterPrefix ++ knativeHistoryHeader →
          decide (k = d.CamelMetaFilterPrefix ++ knativeHistoryHeader) = false := by
        intro k hk; simpa using hk
      simp [mapSet, mapGet, List.find?, h15, h25, h35, h45, hne, Ne.symm hkey,
        List.find?_append]
    · rfl
  unfold ContainsService
  rw [List.any_eq_true]
  refine ⟨_, List.mem_append_right _ (List.mem_singleton_self _), ?_⟩
  simp only [hmeta _ h15, hmeta _ h25, hmeta _ h35]
  have e1 : mapGet [(d.CamelMetaEndpointKind, CamelEndpointKindSource),
      (d.CamelMetaKnativeAPIVersion, actual.APIVersion),
      (d.CamelMetaKnativeKind, actual.Kind),
      (d.CamelMetaKnativeReply, "false")] d.CamelMetaEndpointKind = CamelEndpointKindSource := by
    simp [mapGet, List.find?]
  have e2 : mapGet [(d.CamelMetaEndpointKind, CamelEndpointKindSource),
      (d.CamelMetaKnativeAPIVersion, actual.APIVersion),
      (d.CamelMetaKnativeKind, actual.Kind),
      (d.CamelMetaKnativeReply, "false")] d.CamelMetaKnativeAPIVersion = actual.APIVersion := by
    simp [mapGet, List.find?, h12]
  have e3 : mapGet [(d.CamelMetaEndpointKind, CamelEndpointKindSource),
      (d.CamelMetaKnativeAPIVersion, actual.APIVersion),
      (d.CamelMetaKnativeKind, actual.Kind),
      (d.CamelMetaKnativeReply, "false")] d.CamelMetaKnativeKind = actual.Kind := by
    simp [mapGet, List.find?, h13, h23]
  rw [e1, e2, e3]
  simp only [decide_eq_true_eq]
  exact ⟨hname, trivial, trivial, hav, hkind⟩

/-- One successful round of the channel sources on a source that is not
contained yet: what the round leaves behind. -/
theorem withService_channelSource (d : Deps O) (t : knativeTrait) (uri : String) (s s1 : Run O)
    (ref actual : ObjectReference) (loc : URL)
    (href : d.ExtractObjectReference uri = .ok ref)
    (hnot : ContainsService d s.env ref.Name CamelEndpointKindSource CamelServiceTypeChannel
      ref.APIVersion ref.Kind = false)
    (hres : resolveReference d CamelServiceTypeChannel ref
      (d.FillMissingReferenceData CamelServiceTypeChannel ref) s = (s1, .ok actual))
    (hurl : d.GetSinkURL s1.e.ClientCalls actual s1.e.integration.ObjectMeta.Namespace
      = .ok loc) :
    (withService d true CamelServiceTypeChannel CamelEndpointKindSource (channelSourceGen d t)
        uri s).2 = none ∧
    (withService d true CamelServiceTypeChannel CamelEndpointKindSource (channelSourceGen d t)
        uri s).1.env = { Services := s.env.Services ++ [
        { Name := actual.Name, ServiceType := CamelServiceTypeChannel,
          Path := "/channels/" ++ actual.Name,
          Metadata :=
            if BoolDeref t.FilterSourceChannels false then
              mapSet [(d.CamelMetaEndpointKind, CamelEndpointKindSource),
                (d.CamelMetaKnativeAPIVersion, actual.APIVersion),
                (d.CamelMetaKnativeKind, actual.Kind),
                (d.CamelMetaKnativeReply, "false")]
                (d.CamelMetaFilterPrefix ++ knativeHistoryHeader) loc.Host
            else [(d.CamelMetaEndpointKind, CamelEndpointKindSource),
                (d.CamelMetaKnativeAPIVersion, actual.APIVersion),
                (d.CamelMetaKnativeKind, actual.Kind),
                (d.CamelMetaKnativeReply, "false")] }] } ∧
    (withService d true CamelServiceTypeChannel CamelEndpointKindSource (channelSourceGen d t)
        uri s).1.e.Resources = s.e.Resources ++ [d.CreateSubscription
        (if actual.Namespace = "" then
          { actual with Namespace := s.e.integration.ObjectMeta.Namespace } else actual)
        s.e.integration.ObjectMeta.Name ("/channels/" ++ actual.Name)] := by
  have hstate := resolveReference_state d CamelServiceTypeChannel ref
    (d.FillMissingReferenceData CamelServiceTypeChannel ref) s
  rw [hres] at hstate
  obtain ⟨henv, hresources, hint⟩ := hstate
  simp only at henv hresources hint
  have hw : withService d true CamelServiceTypeChannel CamelEndpointKindSource
      (channelSourceGen d t) uri s
      = channelSourceGen d t actual uri (urlProvider d CamelServiceTypeChannel ref actual) s1 := by
    unfold withService
    simp only [href, hnot, Bool.false_eq_true, and_false, if_false, hres]
    unfold channelSourceGen urlProvider
    simp only [hurl, createSubscription]
  rw [hw]
  unfold channelSourceGen urlProvider
  simp only [hurl, createSubscription]
  refine ⟨trivial, ?_, ?_⟩
  · simp only [Run.called, henv]
  · simp only [Run.called, Add, hresources, Environment.integration, hint]

/-- A round of the channel sources that succeeded is skipped when it is run
again on the state it left. -/
theorem withService_channelSource_again (d : Deps O) (t : knativeTrait) (uri : String)
    (s s1 : Run O)
    (hkeys : [d.CamelMetaEndpointKind, d.CamelMetaKnativeAPIVersion, d.CamelMetaKnativeKind,
      d.CamelMetaKnativeReply, d.CamelMetaFilterPrefix ++ knativeHistoryHeader].Nodup)
    (hrefines : ∀ (ref : ObjectReference) (s0 s2 : Run O) (actual : ObjectReference),
      d.ExtractObjectReference uri = .ok ref →
      resolveReference d CamelServiceTypeChannel ref
        (d.FillMissingReferenceData CamelServiceTypeChannel ref) s0 = (s2, .ok actual) →
      Refines actual ref)
    (h : withService d true CamelServiceTypeChannel CamelEndpointKindSource
      (channelSourceGen d t) uri s = (s1, none)) :
    withService d true CamelServiceTypeChannel CamelEndpointKindSource
      (channelSourceGen d t) uri s1 = (s1, none) := by
  cases href : d.ExtractObjectReference uri with
  | error err =>
    unfold withService at h
    simp [href] at h
  | ok ref =>
    have hskip : ∀ s0 : Run O,
        ContainsService d s0.env ref.Name CamelEndpointKindSource CamelServiceTypeChannel
          ref.APIVersion ref.Kind = true →
        withService d true CamelServiceTypeChannel CamelEndpointKindSource
          (channelSourceGen d t) uri s0 = (s0, none) := by
      intro s0 hc
      unfold withService
      simp only [href, hc, and_self, if_true]
    by_cases hc : ContainsService d s.env ref.Name CamelEndpointKindSource
        CamelServiceTypeChannel ref.APIVersion ref.Kind = true
    · have hs := hskip s hc
      rw [hs] at h
      have hss : s = s1 := (Prod.mk.inj h).1
      rw [← hss]
      exact hs
    · have hnot := Bool.eq_false_iff.mpr hc
      rcases hr : resolveReference d CamelServiceTypeChannel ref
        (d.FillMissingReferenceData CamelServiceTypeChannel ref) s with ⟨sr, rr⟩
      cases rr with
      | error err =>
        unfold withService at h
        simp [href, hnot, hr] at h
      | ok actual =>
        cases hu : d.GetSinkURL sr.e.ClientCalls actual sr.e.integration.ObjectMeta.Namespace with
        | error err =>
          unfold withService at h
          simp only [href, hnot, Bool.false_eq_true, and_false, if_false, hr] at h
          unfold channelSourceGen urlProvider at h
          simp [hu] at h
        | ok loc =>
          obtain ⟨_, henv, _⟩ := withService_channelSource d t uri s sr ref actual loc href hnot
            hr hu
          rw [h] at henv
          apply hskip
          simp only at henv
          rw [henv]
          exact channelSource_contained d t s.env.Services ref actual loc.Host hkeys
            (hrefines ref s sr actual href hr)

/-! ## The claims on the knative trait -/

/-- C13: in the body of `withServiceDo`, a service that is not skipped and whose
reference has zero or several candidates costs exactly one call of
`GetAddressableReference`; when that lookup reports not-found, `withServiceDo`
stops there with the error `cannot find <description of type and name>`,
whatever the generation callback is (it is not called) and whatever services
follow (they are not processed). -/
theorem C13_lookup_not_found (d : Deps O) (skipDuplicates : Bool)
    (serviceType : CamelServiceType) (endpointKind : CamelEndpointKind)
    (serviceURI : String) (s : Run O) (ref : ObjectReference)
    (href : d.ExtractObjectReference serviceURI = .ok ref)
    (hnotskipped : ¬ (skipDuplicates ∧ ContainsService d s.env ref.Name endpointKind
      serviceType ref.APIVersion ref.Kind))
    (hmany : (d.FillMissingReferenceData serviceType ref).length ≠ 1) :
    (resolveReference d serviceType ref (d.FillMissingReferenceData serviceType ref) s).1
      = s.called (.GetAddressableReference (d.FillMissingReferenceData serviceType ref)
          s.e.integration.ObjectMeta.Namespace ref.Name) ∧
    ∀ err,
      d.GetAddressableReference s.e.ClientCalls (d.FillMissingReferenceData serviceType ref)
        s.e.integration.ObjectMeta.Namespace ref.Name = .error err →
      d.IsNotFound err = true →
      ∀ (gen : Gen O) (serviceURIs pre rest : List String) (s0 : Run O),
        extractServices d serviceURIs serviceType = pre ++ serviceURI :: rest →
        forEach (withService d skipDuplicates serviceType endpointKind gen) pre s0 = (s, none) →
        withServiceDo d skipDuplicates serviceURIs serviceType endpointKind gen s0 =
          (s.called (.GetAddressableReference (d.FillMissingReferenceData serviceType ref)
              s.e.integration.ObjectMeta.Namespace ref.Name),
            some (.text ("cannot find " ++ d.ResourceDescription serviceType ref.Name))) := by
  constructor
  · rw [resolveReference_lookup d serviceType ref _ s hmany]
  · intro err hlookup hnf gen serviceURIs pre rest s0 hlist hpre
    unfold withServiceDo
    rw [hlist]
    apply forEach_stops _ pre serviceURI rest s0 s _ _ hpre
    unfold withService
    simp only [href, hnotskipped, if_false,
      resolveReference_lookup d serviceType ref _ s hmany, hlookup, hnf, if_true]

/-- C13 at the sample channel sinks `a-missing`, which the sample cluster does not
hold, and `channel-sink-1`, which comes after it: one lookup, and the error. -/
theorem C13_witness :
    (resolveReference sampleDeps CamelServiceTypeChannel
        { Kind := "", Namespace := "", Name := "a-missing", APIVersion := "" }
        (sampleDeps.FillMissingReferenceData CamelServiceTypeChannel
          { Kind := "", Namespace := "", Name := "a-missing", APIVersion := "" })
        sampleRun).1
      = sampleRun.called (.GetAddressableReference
          (sampleDeps.FillMissingReferenceData CamelServiceTypeChannel
            { Kind := "", Namespace := "", Name := "a-missing", APIVersion := "" })
          "ns" "a-missing") ∧
    withServiceDo sampleDeps true ["channel-sink-1", "a-missing"] CamelServiceTypeChannel
        CamelEndpointKindSink (sinkGen sampleDeps CamelServiceTypeChannel) sampleRun
      = (sampleRun.called (.GetAddressableReference
          (sampleDeps.FillMissingReferenceData CamelServiceTypeChannel
            { Kind := "", Namespace := "", Name := "a-missing", APIVersion := "" })
          "ns" "a-missing"),
        some (.text "cannot find channel a-missing")) :=
  ⟨(C13_lookup_not_found sampleDeps true CamelServiceTypeChannel CamelEndpointKindSink
      "knative:channel/a-missing" sampleRun
      { Kind := "", Namespace := "", Name := "a-missing", APIVersion := "" }
      rfl (by decide) (by decide)).1,
   (C13_lookup_not_found sampleDeps true CamelServiceTypeChannel CamelEndpointKindSink
      "knative:channel/a-missing" sampleRun
      { Kind := "", Namespace := "", Name := "a-missing", APIVersion := "" }
      rfl (by decide) (by decide)).2 (.text "not found") rfl rfl
      (sinkGen sampleDeps CamelServiceTypeChannel) ["channel-sink-1", "a-missing"] []
      ["knative:channel/channel-sink-1"] sampleRun (by decide) rfl⟩

/-- C14: for a sink reference with one candidate, `withServiceDo` hands the
callback the state as it was, no call to the cluster made, and a URL provider
that, when invoked, makes exactly one call, `GetSinkURL`; whatever the
callback, `withServiceDo` adds no `GetSinkURL` call of its own; and
`configureSinkBinding`, whose callback ignores the provider, makes no
`GetSinkURL` call at all, and no call to the cluster whatsoever when every sink
it selects has one candidate. -/
theorem C14_lazy_address_lookup (d : Deps O)
    (serviceType : CamelServiceType) (endpointKind : CamelEndpointKind) (gen : Gen O)
    (serviceURI : String) (s : Run O) (ref candidate : ObjectReference)
    (href : d.ExtractObjectReference serviceURI = .ok ref)
    (hone : d.FillMissingReferenceData serviceType ref = [candidate]) :
    withService d false serviceType endpointKind gen serviceURI s
      = handled d serviceType ref
          (gen candidate serviceURI (urlProvider d serviceType ref candidate) s) ∧
    (∀ s1 : Run O, (urlProvider d serviceType ref candidate s1).1
      = s1.called (.GetSinkURL candidate s1.e.integration.ObjectMeta.Namespace)) ∧
    ((∀ ref1 uri provider s1, (gen ref1 uri provider s1).1.e.ClientCalls.filter
        ClusterCall.isGetSinkURL = s1.e.ClientCalls.filter ClusterCall.isGetSinkURL) →
      ∀ serviceURIs skipDuplicates,
        (withServiceDo d skipDuplicates serviceURIs serviceType endpointKind gen
            s).1.e.ClientCalls.filter ClusterCall.isGetSinkURL
          = s.e.ClientCalls.filter ClusterCall.isGetSinkURL) ∧
    (∀ t : knativeTrait,
      (configureSinkBinding d t s).1.e.ClientCalls.filter ClusterCall.isGetSinkURL
        = s.e.ClientCalls.filter ClusterCall.isGetSinkURL) ∧
    (∀ t : knativeTrait,
      (∀ uri ∈ extractServices d (selectedSinks d t) (sinkServiceType d t),
        ∀ ref1, d.ExtractObjectReference uri = .ok ref1 →
          ∃ c, d.FillMissingReferenceData (sinkServiceType d t) ref1 = [c]) →
      (configureSinkBinding d t s).1.e.ClientCalls = s.e.ClientCalls) := by
  refine ⟨?_, ?_, ?_, ?_, ?_⟩
  · rw [withService_single d false serviceType endpointKind gen serviceURI s ref candidate
      href hone]
    simp
  · intro s1
    exact urlProvider_called d serviceType ref candidate s1
  · intro hgen serviceURIs skipDuplicates
    unfold withServiceDo
    exact forEach_invariant _
      (fun r : Run O => r.e.ClientCalls.filter ClusterCall.isGetSinkURL) _ s
      (fun uri _ s1 => withService_sinkURLCalls d skipDuplicates serviceType endpointKind gen
        hgen uri s1)
  · intro t
    rw [configureSinkBinding_eq]
    have hloop : (withServiceDo d false (selectedSinks d t) (sinkServiceType d t)
        CamelEndpointKindSink (sinkBindingGen d t (sinkServiceType d t))
        s).1.e.ClientCalls.filter ClusterCall.isGetSinkURL
        = s.e.ClientCalls.filter ClusterCall.isGetSinkURL := by
      unfold withServiceDo
      exact forEach_invariant _
        (fun r : Run O => r.e.ClientCalls.filter ClusterCall.isGetSinkURL) _ s
        (fun uri _ s1 => withService_sinkURLCalls d false _ _ _
          (fun ref1 u p s2 => by rw [sinkBindingGen_calls]) uri s1)
    split_ifs <;> first | rfl | exact hloop
  · intro t hsingle
    rw [configureSinkBinding_eq]
    have hloop : (withServiceDo d false (selectedSinks d t) (sinkServiceType d t)
        CamelEndpointKindSink (sinkBindingGen d t (sinkServiceType d t)) s).1.e.ClientCalls
        = s.e.ClientCalls := by
      unfold withServiceDo
      exact forEach_invariant _ (fun r : Run O => r.e.ClientCalls) _ s
        (fun uri huri s1 => withService_single_calls d false _ _ _
          (fun ref1 u p s2 => sinkBindingGen_calls d t _ ref1 u p s2) uri s1
          (hsingle uri huri))
    split_ifs <;> first | rfl | exact hloop


/-- C14 at the sample endpoint sink `endpoint-sink-1`, which has one candidate:
`configureSinkBinding` makes no call to the sample cluster. -/
theorem C14_witness :
    sampleDeps.ExtractObjectReference "knative:endpoint/endpoint-sink-1"
      = .ok { Kind := "", Namespace := "", Name := "endpoint-sink-1", APIVersion := "" } ∧
    (configureSinkBinding sampleDeps
        { SinkBinding := some true, EndpointSinks := ["endpoint-sink-1"] }
        sampleRun).1.e.ClientCalls = [] :=
  ⟨rfl,
   (C14_lazy_address_lookup sampleDeps CamelServiceTypeEndpoint CamelEndpointKindSink
      (sinkBindingGen sampleDeps { SinkBinding := some true, EndpointSinks := ["endpoint-sink-1"] }
        CamelServiceTypeEndpoint)
      "knative:endpoint/endpoint-sink-1" sampleRun
      { Kind := "", Namespace := "", Name := "endpoint-sink-1", APIVersion := "" }
      { Kind := "Service", Namespace := "", Name := "endpoint-sink-1",
        APIVersion := servingGroupVersion }
      rfl rfl).2.2.2.2
      { SinkBinding := some true, EndpointSinks := ["endpoint-sink-1"] }
      (by
        intro uri _ ref1 _
        have ht : sinkServiceType sampleDeps
            { SinkBinding := some true, EndpointSinks := ["endpoint-sink-1"] }
              = CamelServiceTypeEndpoint := by decide
        rw [ht]
        exact ⟨_, rfl⟩)⟩

/-- C15: trigger creation is idempotent. When `knativeutil.CreateTrigger` yields
a Trigger of the broker with a `type` filter reading as the event type, a second
`createTrigger` for a reference of the same name and the same event type leaves
the Resource Collection as the first call left it; and `createTrigger` changes
nothing when the collection already holds a Trigger whose broker is the name of
the reference and whose filter is present with a `type` attribute equal to the
event type (a missing attribute equals the empty event type). -/
theorem C15_trigger_creation_idempotent (d : Deps O) (hct : CreatesFilteredTrigger d)
    (e : Environment O) (ref : ObjectReference) (eventType path : String) :
    (∀ (ref2 : ObjectReference) (path2 : String), ref2.Name = ref.Name →
      createTrigger d (createTrigger d e ref eventType path) ref2 eventType path2
        = createTrigger d e ref eventType path) ∧
    (∀ (o : O) (trigger : Trigger) (filter : TriggerFilter),
      o ∈ e.Resources → d.AsTrigger o = some trigger →
      trigger.Spec.Broker = ref.Name → trigger.Spec.Filter = some filter →
      mapGet filter.Attributes "type" = eventType →
      createTrigger d e ref eventType path = e) := by
  refine ⟨?_, ?_⟩
  · intro ref2 path2 hname
    by_cases hfound : HasKnativeTrigger d e.Resources (fun trigger =>
        trigger.Spec.Broker == ref.Name &&
          match trigger.Spec.Filter with
          | some filter => mapGet filter.Attributes "type" == eventType
          | none => false) = true
    · have hsame : createTrigger d e ref eventType path = e := by
        unfold createTrigger
        simp only [hfound, not_true_eq_false, if_false]
      rw [hsame]
      unfold createTrigger
      simp only [hname, hfound, not_true_eq_false, if_false]
    · obtain ⟨trigger, filter, htr, hbroker, hfilter, htype⟩ :=
        hct (if ref.Namespace = "" then
              { ref with Namespace := e.integration.ObjectMeta.Namespace } else ref)
          e.integration.ObjectMeta.Name eventType path
      have hfirst : createTrigger d e ref eventType path
          = { e with
              Resources := Add e.Resources
                            (d.CreateTrigger
                              (if ref.Namespace = "" then
                                { ref with Namespace := e.integration.ObjectMeta.Namespace }
                              else ref)
                              e.integration.ObjectMeta.Name eventType path) } := by
        have hf := Bool.eq_false_iff.mpr hfound
        unfold createTrigger
        simp only [hf]
        rfl
      rw [hfirst]
      refine createTrigger_found d _ ref2 eventType path2 _ trigger filter ?_ htr ?_ hfilter htype
      · simp [Add]
      · rw [hbroker, hname]
        split_ifs <;> rfl
  · intro o trigger filter ho htr hbroker hfilter htype
    exact createTrigger_found d e ref eventType path o trigger filter ho htr hbroker hfilter htype

/-- C15 at the sample cluster: the event type `evt`, then again, and the empty
event type against the Trigger the first call created for it. -/
theorem C15_witness :
    CreatesFilteredTrigger sampleDeps ∧
    createTrigger sampleDeps
        (createTrigger sampleDeps sampleRun.e
          { Kind := "Broker", Namespace := "", Name := "default", APIVersion := "" } "evt"
          "/events/evt")
        { Kind := "Broker", Namespace := "ns", Name := "default", APIVersion := "" } "evt"
        "/events/evt"
      = createTrigger sampleDeps sampleRun.e
          { Kind := "Broker", Namespace := "", Name := "default", APIVersion := "" } "evt"
          "/events/evt" ∧
    (createTrigger sampleDeps sampleRun.e
        { Kind := "Broker", Namespace := "", Name := "default", APIVersion := "" } "evt"
        "/events/evt").Resources.length = 2 :=
  have hct : CreatesFilteredTrigger sampleDeps := by
    intro ref serviceName eventType path
    by_cases h : eventType = ""
    · exact ⟨_, _, rfl, rfl, rfl, by simp [h, mapGet]⟩
    · exact ⟨_, _, rfl, rfl, rfl, by simp [h, mapGet]⟩
  ⟨hct,
   (C15_trigger_creation_idempotent sampleDeps hct sampleRun.e
      { Kind := "Broker", Namespace := "", Name := "default", APIVersion := "" } "evt"
      "/events/evt").1
      { Kind := "Broker", Namespace := "ns", Name := "default", APIVersion := "" }
      "/events/evt" rfl,
   by decide⟩

/-- C16: `configureChannels` skips a channel source whose service definition the
Camel environment already contains (the name of the reference, kind `source`,
type `channel`, matching API version and kind): the round changes nothing, no
definition and no Subscription is added; a round on a source that is not
contained appends one definition and one Subscription; and, the metadata keys
being distinct and the reference resolved for the channel agreeing with the one
read from its URI, a channel listed twice gives what the channel listed once
gives. -/
theorem C16_channel_source_wired_once (d : Deps O) (t : knativeTrait) (c : String) (s : Run O)
    (hkeys : [d.CamelMetaEndpointKind, d.CamelMetaKnativeAPIVersion, d.CamelMetaKnativeKind,
      d.CamelMetaKnativeReply, d.CamelMetaFilterPrefix ++ knativeHistoryHeader].Nodup)
    (hrefines : ∀ uri ∈ extractServices d [c] CamelServiceTypeChannel,
      ∀ (ref : ObjectReference) (s0 s2 : Run O) (actual : ObjectReference),
      d.ExtractObjectReference uri = .ok ref →
      resolveReference d CamelServiceTypeChannel ref
        (d.FillMissingReferenceData CamelServiceTypeChannel ref) s0 = (s2, .ok actual) →
      Refines actual ref) :
    (∀ (uri : String) (s0 : Run O) (ref : ObjectReference),
      d.ExtractObjectReference uri = .ok ref →
      ContainsService d s0.env ref.Name CamelEndpointKindSource CamelServiceTypeChannel
        ref.APIVersion ref.Kind = true →
      withService d true CamelServiceTypeChannel CamelEndpointKindSource
        (channelSourceGen d t) uri s0 = (s0, none)) ∧
    (∀ (uri : String) (s0 s1 : Run O) (ref actual : ObjectReference) (loc : URL),
      d.ExtractObjectReference uri = .ok ref →
      ContainsService d s0.env ref.Name CamelEndpointKindSource CamelServiceTypeChannel
        ref.APIVersion ref.Kind = false →
      resolveReference d CamelServiceTypeChannel ref
        (d.FillMissingReferenceData CamelServiceTypeChannel ref) s0 = (s1, .ok actual) →
      d.GetSinkURL s1.e.ClientCalls actual s1.e.integration.ObjectMeta.Namespace = .ok loc →
      (withService d true CamelServiceTypeChannel CamelEndpointKindSource
        (channelSourceGen d t) uri s0).2 = none ∧
      (∃ svc : CamelServiceDefinition,
        svc.Name = actual.Name ∧ svc.ServiceType = CamelServiceTypeChannel ∧
        (withService d true CamelServiceTypeChannel CamelEndpointKindSource
          (channelSourceGen d t) uri s0).1.env.Services = s0.env.Services ++ [svc]) ∧
      (withService d true CamelServiceTypeChannel CamelEndpointKindSource
        (channelSourceGen d t) uri s0).1.e.Resources
        = s0.e.Resources ++ [d.CreateSubscription
            (if actual.Namespace = "" then
              { actual with Namespace := s0.e.integration.ObjectMeta.Namespace } else actual)
            s0.e.integration.ObjectMeta.Name ("/channels/" ++ actual.Name)]) ∧
    configureChannels d { t with ChannelSources := [c, c] } s
      = configureChannels d { t with ChannelSources := [c] } s := by
  refine ⟨?_, ?_, ?_⟩
  · intro uri s0 ref href hc
    unfold withService
    simp only [href, hc, and_self, if_true]
  · intro uri s0 s1 ref actual loc href hnot hres hurl
    obtain ⟨h1, h2, h3⟩ := withService_channelSource d t uri s0 s1 ref actual loc href hnot
      hres hurl
    refine ⟨h1, ?_, h3⟩
    rw [h2]
    refine ⟨_, ?_, ?_, rfl⟩
    · rfl
    · rfl
  · have hsrc : ifServiceMissingDo d [c, c] CamelServiceTypeChannel CamelEndpointKindSource
        (channelSourceGen d t) s
        = ifServiceMissingDo d [c] CamelServiceTypeChannel CamelEndpointKindSource
            (channelSourceGen d t) s := by
      unfold ifServiceMissingDo withServiceDo
      rw [extractServices_twice]
      rcases extractServices_once d c CamelServiceTypeChannel with h | ⟨u, h⟩
      · rw [h]; rfl
      · rw [h] at hrefines ⊢
        rcases hb : withService d true CamelServiceTypeChannel CamelEndpointKindSource
          (channelSourceGen d t) u s with ⟨s1, r⟩
        cases r with
        | some err => simp [forEach, hb]
        | none =>
          have hagain := withService_channelSource_again d t u s s1 hkeys
            (hrefines u (List.mem_singleton_self u)) hb
          simp [forEach, hb, hagain]
    show (match ifServiceMissingDo d [c, c] CamelServiceTypeChannel CamelEndpointKindSource
        (channelSourceGen d t) s with
      | (s1, some err) => (s1, some err)
      | (s1, none) =>
        match ifServiceMissingDo d t.ChannelSinks CamelServiceTypeChannel CamelEndpointKindSink
            (sinkGen d CamelServiceTypeChannel) s1 with
        | (s2, some err) => (s2, some err)
        | (s2, none) => (s2, none))
      = (match ifServiceMissingDo d [c] CamelServiceTypeChannel CamelEndpointKindSource
        (channelSourceGen d t) s with
      | (s1, some err) => (s1, some err)
      | (s1, none) =>
        match ifServiceMissingDo d t.ChannelSinks CamelServiceTypeChannel CamelEndpointKindSink
            (sinkGen d CamelServiceTypeChannel) s1 with
        | (s2, some err) => (s2, some err)
        | (s2, none) => (s2, none))
    rw [hsrc]

/-- C16 at the sample channel `channel-source-1`: listed twice, it leaves one
service definition and one Subscription, as when it is listed once. -/
theorem C16_witness :
    configureChannels sampleDeps
        { ChannelSources := ["channel-source-1", "channel-source-1"] } sampleRun
      = configureChannels sampleDeps { ChannelSources := ["channel-source-1"] } sampleRun ∧
    (configureChannels sampleDeps
        { ChannelSources := ["channel-source-1", "channel-source-1"] }
        sampleRun).1.env.Services.map CamelServiceDefinition.Name = ["channel-source-1"] ∧
    (configureChannels sampleDeps
        { ChannelSources := ["channel-source-1", "channel-source-1"] }
        sampleRun).1.e.Resources
      = [.deployment "test",
         .subscription
           { Kind := "Channel", Namespace := "ns", Name := "channel-source-1",
             APIVersion := "messaging.knative.dev/v1" }
           "test" "/channels/channel-source-1"] :=
  ⟨(C16_channel_source_wired_once sampleDeps {} "channel-source-1" sampleRun (by decide)
      (by
        intro uri huri ref s0 s2 actual href hres
        have hs : extractServices sampleDeps ["channel-source-1"] CamelServiceTypeChannel
            = ["knative:channel/channel-source-1"] := by decide
        rw [hs] at huri
        have hu := List.mem_singleton.mp huri
        subst hu
        have hr : ref
            = { Kind := "", Namespace := "", Name := "channel-source-1", APIVersion := "" } :=
          (Except.ok.inj href).symm
        subst hr
        rw [resolveReference_lookup _ _ _ _ _ (by decide)] at hres
        have ha := (Prod.mk.inj hres).2
        have ha2 : actual
            = { Kind := "Channel", Namespace := "", Name := "channel-source-1",
                APIVersion := "messaging.knative.dev/v1" } :=
          (Except.ok.inj ha).symm
        subst ha2
        exact ⟨rfl, Or.inl rfl, Or.inl rfl⟩)).2.2,
   by decide, by decide⟩

/-- C17, the run that diverges: the endpoint source `endpoint-source-1` listed
twice. `configureEndpoints` succeeds and leaves two source endpoint service
definitions of that name, although the environment with the first of them
already contains a definition of the name `endpoint-source-1`, kind `source`,
type `endpoint`, serving API version and kind `Service`: the source asks
`ContainsService` about the URI `knative:endpoint/endpoint-source-1`, under
which no definition is stored. -/
theorem C17_endpoint_source_listed_twice :
    (configureEndpoints sampleDeps
        { EndpointSources := ["endpoint-source-1", "endpoint-source-1"] } sampleRun).2 = none ∧
    (configureEndpoints sampleDeps
        { EndpointSources := ["endpoint-source-1", "endpoint-source-1"] } sampleRun).1.env.Services
      = [{ Name := "endpoint-source-1", ServiceType := CamelServiceTypeEndpoint, Path := "/",
           Metadata := [("camel.endpoint.kind", "source"),
             ("knative.apiVersion", "serving.knative.dev/v1"), ("knative.kind", "Service")] },
         { Name := "endpoint-source-1", ServiceType := CamelServiceTypeEndpoint, Path := "/",
           Metadata := [("camel.endpoint.kind", "source"),
             ("knative.apiVersion", "serving.knative.dev/v1"), ("knative.kind", "Service")] }] ∧
    ContainsService sampleDeps
        (configureEndpoints sampleDeps { EndpointSources := ["endpoint-source-1"] }
          sampleRun).1.env
        "endpoint-source-1" CamelEndpointKindSource CamelServiceTypeEndpoint
        servingGroupVersion "Service" = true ∧
    ContainsService sampleDeps
        (configureEndpoints sampleDeps { EndpointSources := ["endpoint-source-1"] }
          sampleRun).1.env
        "knative:endpoint/endpoint-source-1" CamelEndpointKindSource CamelServiceTypeEndpoint
        servingGroupVersion "Service" = false := by
  refine ⟨?_, ?_, ?_, ?_⟩ <;> decide

/-- C18: `configureEvents` runs its sources through `withServiceDo` without the
check for duplicates. For every extracted event source whose reference is read
and resolved, whatever the Camel environment contains, the round succeeds,
calls `createTrigger` for the resolved broker and the event type, and appends
the service definition exactly when the environment contains none of the same
name (`default` for the empty event type), kind `source`, type `event`, API
version and kind of object. -/
theorem C18_event_sources_not_skipped (d : Deps O) (uri : String) (s s1 : Run O)
    (ref actual : ObjectReference)
    (href : d.ExtractObjectReference uri = .ok ref)
    (hres : resolveReference d CamelServiceTypeEvent ref
      (d.FillMissingReferenceData CamelServiceTypeEvent ref) s = (s1, .ok actual)) :
    (∀ t : knativeTrait,
      configureEvents d t s
        = match forEach (withService d false CamelServiceTypeEvent CamelEndpointKindSource
              (eventSourceGen d)) (extractServices d t.EventSources CamelServiceTypeEvent) s with
          | (s2, some err) => (s2, some err)
          | (s2, none) =>
            ifServiceMissingDo d t.EventSinks CamelServiceTypeEvent CamelEndpointKindSink
              (sinkGen d CamelServiceTypeEvent) s2) ∧
    (withService d false CamelServiceTypeEvent CamelEndpointKindSource (eventSourceGen d)
        uri s).2 = none ∧
    (withService d false CamelServiceTypeEvent CamelEndpointKindSource (eventSourceGen d)
        uri s).1.e
      = createTrigger d s1.e actual (d.ExtractEventType uri)
          ("/events/" ++ d.ExtractEventType uri) ∧
    (withService d false CamelServiceTypeEvent CamelEndpointKindSource (eventSourceGen d)
        uri s).1.env.Services
      = if ContainsService d s1.env
            (if d.ExtractEventType uri = "" then "default" else d.ExtractEventType uri)
            CamelEndpointKindSource CamelServiceTypeEvent actual.APIVersion actual.Kind then
          s1.env.Services
        else
          s1.env.Services ++ [
            { Name := if d.ExtractEventType uri = "" then "default" else d.ExtractEventType uri,
              ServiceType := CamelServiceTypeEvent,
              Path := "/events/" ++ d.ExtractEventType uri,
              Metadata := [
                (d.CamelMetaEndpointKind, CamelEndpointKindSource),
                (d.CamelMetaKnativeAPIVersion, actual.APIVersion),
                (d.CamelMetaKnativeKind, actual.Kind),
                (d.CamelMetaKnativeName, actual.Name),
                (d.CamelMetaKnativeReply, "false")] }] := by
  have hw : withService d false CamelServiceTypeEvent CamelEndpointKindSource (eventSourceGen d)
      uri s
      = eventSourceGen d actual uri (urlProvider d CamelServiceTypeEvent ref actual) s1 := by
    unfold withService
    simp only [href, Bool.false_eq_true, false_and, if_false, hres]
    unfold eventSourceGen
    simp only
    split_ifs <;> rfl
  refine ⟨?_, ?_, ?_, ?_⟩
  · intro t
    unfold configureEvents withServiceDo
    rcases forEach (withService d false CamelServiceTypeEvent CamelEndpointKindSource
      (eventSourceGen d)) (extractServices d t.EventSources CamelServiceTypeEvent) s
      with ⟨s2, r⟩
    cases r with
    | some err => rfl
    | none =>
      simp only
      rcases ifServiceMissingDo d t.EventSinks CamelServiceTypeEvent CamelEndpointKindSink
        (sinkGen d CamelServiceTypeEvent) s2 with ⟨s3, r3⟩
      cases r3 <;> rfl
  · rw [hw]
    unfold eventSourceGen
    simp only
    split_ifs <;> rfl
  · rw [hw]
    unfold eventSourceGen
    simp only
    split_ifs <;> rfl
  · rw [hw]
    unfold eventSourceGen
    simp only
    split_ifs <;> simp_all

/-- C18 at the sample event source `evt`, on an environment that already holds
its service definition: the round is not skipped, the Trigger is created, the
definition is not appended a second time. -/
theorem C18_witness :
    (withService sampleDeps false CamelServiceTypeEvent CamelEndpointKindSource
        (eventSourceGen sampleDeps) "knative:event/evt"
        (configureEvents sampleDeps { EventSources := ["evt"] } sampleRun).1).1.e.Resources
      = (createTrigger sampleDeps
          (createTrigger sampleDeps sampleRun.e
            { Kind := "Broker", Namespace := "", Name := "default",
              APIVersion := "eventing.knative.dev/v1" } "evt" "/events/evt")
          { Kind := "Broker", Namespace := "", Name := "default",
            APIVersion := "eventing.knative.dev/v1" } "evt" "/events/evt").Resources ∧
    (withService sampleDeps false CamelServiceTypeEvent CamelEndpointKindSource
        (eventSourceGen sampleDeps) "knative:event/evt"
        (configureEvents sampleDeps { EventSources := ["evt"] }
          sampleRun).1).1.env.Services.map CamelServiceDefinition.Name = ["evt"] ∧
    (withService sampleDeps false CamelServiceTypeEvent CamelEndpointKindSource
        (eventSourceGen sampleDeps) "knative:event/evt" sampleRun).1.e.Resources.length = 2 :=
  ⟨congrArg Environment.Resources
    (C18_event_sources_not_skipped sampleDeps "knative:event/evt"
      (configureEvents sampleDeps { EventSources := ["evt"] } sampleRun).1
      (configureEvents sampleDeps { EventSources := ["evt"] } sampleRun).1
      { Kind := "", Namespace := "", Name := "default", APIVersion := "" }
      { Kind := "Broker", Namespace := "", Name := "default",
        APIVersion := "eventing.knative.dev/v1" }
      rfl rfl).2.2.1,
   by decide, by decide⟩

/-- C19: `isSinkBindingAllowed` answers true exactly when the channel, endpoint
and event sinks it extracts are one in all and no owner reference of the
Integration has an API version containing `sources.knative.dev`. -/
theorem C19_sink_binding_allowed_iff (d : Deps O) (t : knativeTrait) (e : Environment O)
    (it : Trait.Integration) (hit : e.Integration = some it) :
    isSinkBindingAllowed d t e = true ↔
      (extractServices d t.ChannelSinks CamelServiceTypeChannel
        ++ extractServices d t.EndpointSinks CamelServiceTypeEndpoint
        ++ extractServices d t.EventSinks CamelServiceTypeEvent).length = 1 ∧
      ∀ owner ∈ it.ObjectMeta.OwnerReferences,
        stringsContains owner.APIVersion "sources.knative.dev" = false := by
  have hint : e.integration = it := by
    unfold Environment.integration
    rw [hit]
  unfold isSinkBindingAllowed
  simp only [hint]
  constructor
  · intro h
    split_ifs at h with h1 h2
    · refine ⟨not_not.mp h1, ?_⟩
      intro owner ho
      by_contra hc
      exact h2 (List.any_eq_true.mpr ⟨owner, ho, by simpa using hc⟩)
  · rintro ⟨h1, h2⟩
    have hany : it.ObjectMeta.OwnerReferences.any
        (fun owner => stringsContains owner.APIVersion "sources.knative.dev") = false := by
      rw [List.any_eq_false]
      intro owner ho
      simp [h2 owner ho]
    rw [if_neg (not_not.mpr h1), hany]
    rfl

/-- C19 at the sample Integration: one endpoint sink and no owner allow the sink
binding; an owner of a `sources.knative.dev` kind forbids it, and so do two
sinks. -/
theorem C19_witness :
    isSinkBindingAllowed sampleDeps { EndpointSinks := ["endpoint-sink-1"] } sampleRun.e
      = true ∧
    isSinkBindingAllowed sampleDeps
      { EndpointSinks := ["endpoint-sink-1"], ChannelSinks := ["channel-sink-1"] } sampleRun.e
      = false ∧
    isSinkBindingAllowed sampleDeps { EndpointSinks := ["endpoint-sink-1"] }
      { sampleRun.e with
        Integration := some { sampleIntegration .Deploying with
          ObjectMeta := { Namespace := "ns", Name := "test", Annotations := [], Labels := [],
                          OwnerReferences := [
                            { APIVersion := "sources.knative.dev/v1", Kind := "ApiServerSource",
                              Name := "owner", UID := "", Controller := some true,
                              BlockOwnerDeletion := none }] } } }
      = false :=
  ⟨(C19_sink_binding_allowed_iff sampleDeps { EndpointSinks := ["endpoint-sink-1"] } sampleRun.e
      (sampleIntegration .Deploying) rfl).mpr ⟨by decide, by decide⟩,
   by decide, by decide⟩

/-- C20: the sink-binding post-action, run on a Resource Collection with no
object of kind `SinkBinding` in a group containing `knative` and with a
controller, returns no error and leaves the collection with the new SinkBinding
first and all previous items after it in their order. The source of the binding
is the API version and kind of the controller with the name and namespace of
the Integration; its target is the kind, name and API version of the resolved
sink reference in the namespace of the Integration. -/
theorem C20_sink_binding_added_first (d : Deps O) (t : knativeTrait) (ref : ObjectReference)
    (e : Environment O) (it : Trait.Integration) (controller : O)
    (hit : e.Integration = some it)
    (hnone : ∀ o ∈ e.Resources, ¬ ((d.GroupVersionKind o).Kind = "SinkBinding" ∧
      stringsContains (d.GroupVersionKind o).Group "knative" = true))
    (hctrl : d.GetController e.Resources = some controller) :
    (sinkBindingPostStep d t ref e).2 = none ∧
    (sinkBindingPostStep d t ref e).1.Resources
      = d.CreateSinkBinding
          { Kind := (d.GroupVersionKind controller).ToAPIVersionAndKind.2,
            Namespace := it.ObjectMeta.Namespace,
            Name := it.ObjectMeta.Name,
            APIVersion := (d.GroupVersionKind controller).ToAPIVersionAndKind.1 }
          { Kind := ref.Kind, Namespace := it.ObjectMeta.Namespace, Name := ref.Name,
            APIVersion := ref.APIVersion }
        :: e.Resources := by
  have hint : e.integration = it := by
    unfold Environment.integration
    rw [hit]
  have hinj : e.Resources.any (fun object =>
      decide ((d.GroupVersionKind object).Kind = "SinkBinding" ∧
        stringsContains (d.GroupVersionKind object).Group "knative" = true)) = false := by
    rw [List.any_eq_false]
    intro o ho
    simpa using hnone o ho
  unfold sinkBindingPostStep
  simp only [hinj, hctrl, hint, Bool.false_eq_true, if_false]
  refine ⟨trivial, ?_⟩
  split_ifs
  · cases d.EnableKnativeBindInNamespace e.ClientCalls it.ObjectMeta.Namespace <;> rfl
  · rfl

/-- C20 at the sample run: the SinkBinding from the Deployment of the Integration
`test` to the Service `endpoint-sink-1` goes in front of the Deployment. -/
theorem C20_witness :
    (sinkBindingPostStep sampleDeps {}
        { Kind := "Service", Namespace := "", Name := "endpoint-sink-1",
          APIVersion := servingGroupVersion }
        sampleRun.e).1.Resources
      = [.sinkBinding
          { Kind := "Deployment", Namespace := "ns", Name := "test", APIVersion := "apps/v1" }
          { Kind := "Service", Namespace := "ns", Name := "endpoint-sink-1",
            APIVersion := "serving.knative.dev/v1" },
         .deployment "test"] :=
  (C20_sink_binding_added_first sampleDeps {}
    { Kind := "Service", Namespace := "", Name := "endpoint-sink-1",
      APIVersion := servingGroupVersion }
    sampleRun.e (sampleIntegration .Deploying) (.deployment "test") rfl (by decide) rfl).2

/-! ## Lemmas on `extractServices` -/

theorem extractServices_eq (d : Deps O) (names : List String) (serviceType : CamelServiceType) :
    extractServices d names serviceType = sortStrings (normalisedItems d names serviceType) := by
  have hitems : names.filterMap (fun item =>
      if stringsTrim item " \t\"" ≠ "" then
        some (d.NormalizeToURI serviceType (stringsTrim item " \t\"")) else none)
      = normalisedItems d names serviceType := by
    unfold normalisedItems
    induction names with
    | nil => rfl
    | cons item rest ih =>
      by_cases h : stringsTrim item " \t\"" = ""
      · simp only [List.filterMap_cons, h, ne_eq, not_true_eq_false, if_false, ih,
          List.map_cons, decide_False, List.filter_cons_of_neg, Bool.false_eq_true,
          not_false_eq_true]
      · simp only [List.filterMap_cons, h, ne_eq, not_false_eq_true, if_true, ih,
          List.map_cons, decide_True, List.filter_cons_of_pos]
  show sortStrings _ = _
  rw [← hitems]

theorem sortStrings_perm (xs : List String) : (sortStrings xs).Perm xs :=
  List.perm_insertionSort _ xs

theorem sortStrings_sorted (xs : List String) :
    (sortStrings xs).Sorted (fun a b => a.toList ≤ b.toList) := by
  unfold sortStrings
  haveI : IsTotal String (fun a b => a.toList ≤ b.toList) := ⟨fun a b => le_total a.toList b.toList⟩
  haveI : IsTrans String (fun a b => a.toList ≤ b.toList) :=
    ⟨fun a b c hab hbc => le_trans hab hbc⟩
  exact List.sorted_insertionSort _ xs

theorem sortStrings_of_perm (xs ys : List String) (h : xs.Perm ys) :
    sortStrings xs = sortStrings ys := by
  haveI : IsAntisymm String (fun a b => a.toList ≤ b.toList) :=
    ⟨fun a b hab hba => String.ext (le_antisymm hab hba)⟩
  exact List.eq_of_perm_of_sorted
    ((sortStrings_perm xs).trans (h.trans (sortStrings_perm ys).symm))
    (sortStrings_sorted xs) (sortStrings_sorted ys)

/-! ## Lemmas on the sink binding -/

theorem sinkBindingPostStep_present (d : Deps O) (t : knativeTrait) (ref : ObjectReference)
    (e : Environment O) (h : HasKnativeSinkBinding d e.Resources) :
    sinkBindingPostStep d t ref e = (e, none) := by
  obtain ⟨o, ho, hkind, hgroup⟩ := h
  have hinj : e.Resources.any (fun object =>
      decide ((d.GroupVersionKind object).Kind = "SinkBinding" ∧
        stringsContains (d.GroupVersionKind object).Group "knative" = true)) = true := by
    rw [List.any_eq_true]
    exact ⟨o, ho, by simp [hkind, hgroup]⟩
  unfold sinkBindingPostStep
  simp only [hinj, if_true]

theorem sinkBindingPostStep_absent (d : Deps O) (e : Environment O) (h : ¬ HasKnativeSinkBinding d e.Resources) :
    e.Resources.any (fun object =>
      decide ((d.GroupVersionKind object).Kind = "SinkBinding" ∧
        stringsContains (d.GroupVersionKind object).Group "knative" = true)) = false := by
  rw [List.any_eq_false]
  intro o ho hc
  exact h ⟨o, ho, by simpa using hc⟩

theorem sinkBindingPostStep_no_controller (d : Deps O) (t : knativeTrait)
    (ref : ObjectReference) (e : Environment O)
    (hctrl : d.GetController e.Resources = none) :
    sinkBindingPostStep d t ref e = (e, none) := by
  unfold sinkBindingPostStep
  simp only [hctrl]
  split_ifs <;> rfl

/-- The post-action on a collection with a controller and no Knative SinkBinding:
no error, the binding in front, and the labelling call when the option asks for
it. -/
theorem sinkBindingPostStep_adds (d : Deps O) (t : knativeTrait) (ref : ObjectReference)
    (e : Environment O) (it : Trait.Integration) (controller : O)
    (hit : e.Integration = some it)
    (hnone : ¬ HasKnativeSinkBinding d e.Resources)
    (hctrl : d.GetController e.Resources = some controller) :
    (sinkBindingPostStep d t ref e).2 = none ∧
    (sinkBindingPostStep d t ref e).1.Resources
      = newSinkBinding d it controller ref :: e.Resources ∧
    (sinkBindingPostStep d t ref e).1.ClientCalls
      = (if BoolDeref t.NamespaceLabel true then
          e.ClientCalls ++ [.EnableKnativeBindInNamespace it.ObjectMeta.Namespace]
        else e.ClientCalls) ∧
    (sinkBindingPostStep d t ref e).1.Integration = e.Integration ∧
    (sinkBindingPostStep d t ref e).1.PostStepProcessors = e.PostStepProcessors := by
  have hint : e.integration = it := by
    unfold Environment.integration
    rw [hit]
  have hinj := sinkBindingPostStep_absent d e hnone
  unfold sinkBindingPostStep newSinkBinding
  simp only [hinj, hctrl, hint, Bool.false_eq_true, if_false]
  by_cases hl : BoolDeref t.NamespaceLabel true = true
  · simp only [hl, if_true]
    cases d.EnableKnativeBindInNamespace e.ClientCalls it.ObjectMeta.Namespace <;>
      exact ⟨trivial, rfl, rfl, rfl, rfl⟩
  · simp only [hl, if_false]
    exact ⟨trivial, rfl, rfl, rfl, rfl⟩

theorem forEach_preserves {α σ : Type} (body : α → σ → σ × Option Error) (P : σ → Prop) :
    ∀ (xs : List α) (s : σ), (∀ x ∈ xs, ∀ s1, P s1 → P (body x s1).1) → P s →
      P (forEach body xs s).1 := by
  intro xs
  induction xs with
  | nil => intro s _ hs; exact hs
  | cons x rest ih =>
    intro s h hs
    simp only [forEach]
    have hx := h x (List.mem_cons_self _ _) s hs
    rcases hb : body x s with ⟨s1, _ | err⟩
    · rw [hb] at hx
      exact ih s1 (fun y hy => h y (List.mem_cons_of_mem _ hy)) hx
    · rw [hb] at hx
      exact hx

theorem resolveReference_processors (d : Deps O) (serviceType : CamelServiceType)
    (ref : ObjectReference) (possibleRefs : List ObjectReference) (s : Run O) :
    (resolveReference d serviceType ref possibleRefs s).1.e.PostStepProcessors
      = s.e.PostStepProcessors ∧
    (resolveReference d serviceType ref possibleRefs s).1.e.ApplicationProperties
      = s.e.ApplicationProperties := by
  by_cases hone : possibleRefs.length = 1
  · match possibleRefs, hone with
    | [c], _ => exact ⟨rfl, rfl⟩
  · rw [resolveReference_lookup d serviceType ref possibleRefs s hone]
    exact ⟨rfl, rfl⟩

/-- One round of `configureSinkBinding` on a sink whose reference is read and
resolved: the service is marked, and the post-action is registered in the
phases Deploying and Running. -/
theorem withService_sinkBinding (d : Deps O) (t : knativeTrait) (serviceType : CamelServiceType)
    (uri : String) (s s1 : Run O) (ref actual : ObjectReference)
    (href : d.ExtractObjectReference uri = .ok ref)
    (hres : resolveReference d serviceType ref (d.FillMissingReferenceData serviceType ref) s
      = (s1, .ok actual)) :
    (withService d false serviceType CamelEndpointKindSink (sinkBindingGen d t serviceType)
        uri s).2 = none ∧
    (withService d false serviceType CamelEndpointKindSink (sinkBindingGen d t serviceType)
        uri s).1.env
      = d.SetSinkBinding s.env actual.Name CamelEndpointKindSink serviceType actual.APIVersion
          actual.Kind ∧
    (withService d false serviceType CamelEndpointKindSink (sinkBindingGen d t serviceType)
        uri s).1.e.PostStepProcessors
      = (if s.e.IntegrationInPhase [.Deploying, .Running] then
          s.e.PostStepProcessors ++ [.sinkBinding t actual]
        else s.e.PostStepProcessors) := by
  have hstate := resolveReference_state d serviceType ref
    (d.FillMissingReferenceData serviceType ref) s
  have hproc := (resolveReference_processors d serviceType ref
    (d.FillMissingReferenceData serviceType ref) s).1
  rw [hres] at hstate hproc
  obtain ⟨henv, _, hint⟩ := hstate
  simp only at henv hint hproc
  have hphase : s1.e.IntegrationInPhase [.Deploying, .Running]
      = s.e.IntegrationInPhase [.Deploying, .Running] := by
    unfold Environment.IntegrationInPhase
    rw [hint]
  have hw : withService d false serviceType CamelEndpointKindSink (sinkBindingGen d t serviceType)
      uri s
      = sinkBindingGen d t serviceType actual uri (urlProvider d serviceType ref actual) s1 := by
    unfold withService
    simp only [href, Bool.false_eq_true, false_and, if_false, hres]
    unfold sinkBindingGen
    simp only
    split_ifs <;> rfl
  rw [hw]
  unfold sinkBindingGen
  simp only [hphase]
  split_ifs
  · exact ⟨rfl, by rw [henv], by rw [hproc]⟩
  · exact ⟨rfl, by rw [henv], by rw [hproc]⟩

/-- A round of `configureSinkBinding` outside the phases Deploying and Running
registers nothing, whatever becomes of it. -/
theorem withService_sinkBinding_idle (d : Deps O) (t : knativeTrait)
    (serviceType : CamelServiceType) (uri : String) (s : Run O)
    (hphase : s.e.IntegrationInPhase [.Deploying, .Running] = false) :
    (withService d false serviceType CamelEndpointKindSink (sinkBindingGen d t serviceType)
        uri s).1.e.Integration = s.e.Integration ∧
    (withService d false serviceType CamelEndpointKindSink (sinkBindingGen d t serviceType)
        uri s).1.e.PostStepProcessors = s.e.PostStepProcessors := by
  cases href : d.ExtractObjectReference uri with
  | error err =>
    unfold withService
    simp only [href, and_self]
  | ok ref =>
    rcases hr : resolveReference d serviceType ref (d.FillMissingReferenceData serviceType ref) s
      with ⟨s1, rr⟩
    have hstate := resolveReference_state d serviceType ref
      (d.FillMissingReferenceData serviceType ref) s
    have hproc := (resolveReference_processors d serviceType ref
      (d.FillMissingReferenceData serviceType ref) s).1
    rw [hr] at hstate hproc
    obtain ⟨_, _, hint⟩ := hstate
    simp only at hint hproc
    cases rr with
    | error err =>
      unfold withService
      simp only [href, Bool.false_eq_true, false_and, if_false, hr]
      exact ⟨hint, hproc⟩
    | ok actual =>
      obtain ⟨_, _, h3⟩ := withService_sinkBinding d t serviceType uri s s1 ref actual href hr
      rw [hphase] at h3
      refine ⟨?_, by simpa using h3⟩
      unfold withService
      simp only [href, Bool.false_eq_true, false_and, if_false, hr]
      unfold sinkBindingGen
      simp only
      split_ifs <;> exact hint

theorem sinkBindingPostStep_unlabelled (d : Deps O) (t : knativeTrait) (ref : ObjectReference)
    (e : Environment O) (hoff : BoolDeref t.NamespaceLabel true = false) :
    (sinkBindingPostStep d t ref e).1.ClientCalls = e.ClientCalls := by
  unfold sinkBindingPostStep
  simp only [hoff, Bool.false_eq_true, if_false]
  split_ifs
  · rfl
  · cases d.GetController e.Resources <;> rfl

theorem selectedSinks_single (d : Deps O) (t : knativeTrait) (uri : String)
    (h : selectedSinks d t = [uri]) :
    (uri ∈ extractServices d t.ChannelSinks CamelServiceTypeChannel →
      sinkServiceType d t = CamelServiceTypeChannel) ∧
    (uri ∈ extractServices d t.EndpointSinks CamelServiceTypeEndpoint →
      sinkServiceType d t = CamelServiceTypeEndpoint) ∧
    (uri ∈ extractServices d t.EventSinks CamelServiceTypeEvent →
      sinkServiceType d t = CamelServiceTypeEvent) := by
  have hlen : (extractServices d t.ChannelSinks CamelServiceTypeChannel).length
      + (extractServices d t.EndpointSinks CamelServiceTypeEndpoint).length
      + (extractServices d t.EventSinks CamelServiceTypeEvent).length = 1 := by
    have := congrArg List.length h
    simp only [selectedSinks, List.length_append, List.length_singleton] at this
    omega
  refine ⟨?_, ?_, ?_⟩
  · intro hm
    have hpos := List.length_pos_of_mem hm
    unfold sinkServiceType
    simp only [gt_iff_lt, hpos, if_true]
  · intro hm
    have hpos := List.length_pos_of_mem hm
    have hz : ¬ (extractServices d t.ChannelSinks CamelServiceTypeChannel).length > 0 := by omega
    unfold sinkServiceType
    simp only [hz, if_false, gt_iff_lt, hpos, if_true]
  · intro hm
    have hpos := List.length_pos_of_mem hm
    have hz : ¬ (extractServices d t.ChannelSinks CamelServiceTypeChannel).length > 0 := by omega
    have hz2 : ¬ (extractServices d t.EndpointSinks CamelServiceTypeEndpoint).length > 0 := by
      omega
    unfold sinkServiceType
    simp only [hz, hz2, if_false, gt_iff_lt, hpos, if_true]

/-! ## Lemmas on the service definitions of the sources -/

theorem forEach_services {α : Type} (body : α → Run O → Run O × Option Error)
    (Q : CamelServiceDefinition → Prop)
    (hstep : ∀ x s1, ∀ svc ∈ (body x s1).1.env.Services, svc ∈ s1.env.Services ∨ Q svc)
    (xs : List α) (s : Run O) :
    ∀ svc ∈ (forEach body xs s).1.env.Services, svc ∈ s.env.Services ∨ Q svc := by
  apply forEach_preserves body
    (fun r : Run O => ∀ svc ∈ r.env.Services, svc ∈ s.env.Services ∨ Q svc) xs s
  · intro x _ s1 hs1 svc hsvc
    rcases hstep x s1 svc hsvc with h | h
    · exact hs1 svc h
    · exact Or.inr h
  · intro svc hsvc
    exact Or.inl hsvc

theorem mapGet_channel_reply (d : Deps O) (t : knativeTrait) (actual : ObjectReference)
    (host : String)
    (hkeys : [d.CamelMetaEndpointKind, d.CamelMetaKnativeAPIVersion, d.CamelMetaKnativeKind,
      d.CamelMetaKnativeName, d.CamelMetaKnativeReply,
      d.CamelMetaFilterPrefix ++ knativeHistoryHeader].Nodup) (key value : String)
    (hin : (key, value) ∈ [(d.CamelMetaEndpointKind, CamelEndpointKindSource),
      (d.CamelMetaKnativeAPIVersion, actual.APIVersion),
      (d.CamelMetaKnativeKind, actual.Kind),
      (d.CamelMetaKnativeReply, "false")]) :
    mapGet
      (if BoolDeref t.FilterSourceChannels false then
        mapSet [(d.CamelMetaEndpointKind, CamelEndpointKindSource),
          (d.CamelMetaKnativeAPIVersion, actual.APIVersion),
          (d.CamelMetaKnativeKind, actual.Kind),
          (d.CamelMetaKnativeReply, "false")]
          (d.CamelMetaFilterPrefix ++ knativeHistoryHeader) host
      else [(d.CamelMetaEndpointKind, CamelEndpointKindSource),
          (d.CamelMetaKnativeAPIVersion, actual.APIVersion),
          (d.CamelMetaKnativeKind, actual.Kind),
          (d.CamelMetaKnativeReply, "false")]) key = value := by
  simp only [List.nodup_cons, List.mem_cons, List.mem_singleton, List.not_mem_nil, not_or,
    List.nodup_nil, and_true, not_false_eq_true] at hkeys
  obtain ⟨⟨h12, h13, _, h15, h16⟩, ⟨h23, _, h25, h26⟩, ⟨_, h35, h36⟩, _, h56⟩ := hkeys
  have hne : ∀ k : String, k ≠ d.CamelMetaFilterPrefix ++ knativeHistoryHeader →
      decide (k = d.CamelMetaFilterPrefix ++ knativeHistoryHeader) = false := by
    intro k hk; simpa using hk
  simp only [List.mem_cons, List.mem_singleton, List.not_mem_nil, or_false, Prod.mk.injEq] at hin
  rcases hin with ⟨rfl, rfl⟩ | ⟨rfl, rfl⟩ | ⟨rfl, rfl⟩ | ⟨rfl, rfl⟩
  · split_ifs <;>
      simp [mapSet, mapGet, List.find?, h16, h26, h36, h56, hne, List.find?_append]
  · split_ifs <;>
      simp [mapSet, mapGet, List.find?, h12, h16, h26, h36, h56, hne, List.find?_append]
  · split_ifs <;>
      simp [mapSet, mapGet, List.find?, h13, h23, h16, h26, h36, h56, hne, List.find?_append]
  · split_ifs <;>
      simp [mapSet, mapGet, List.find?, h15, h25, h35, h16, h26, h36, h56, hne,
        List.find?_append]

/-- A round of the channel sources leaves the service definitions as they were
or appends one, of type `channel`, without URL, of kind `source` and with the
reply metadata `false`. -/
theorem withService_channelSource_services (d : Deps O) (t : knativeTrait) (uri : String)
    (s : Run O)
    (hkeys : [d.CamelMetaEndpointKind, d.CamelMetaKnativeAPIVersion, d.CamelMetaKnativeKind,
      d.CamelMetaKnativeName, d.CamelMetaKnativeReply,
      d.CamelMetaFilterPrefix ++ knativeHistoryHeader].Nodup) :
    ∀ svc ∈ (withService d true CamelServiceTypeChannel CamelEndpointKindSource
        (channelSourceGen d t) uri s).1.env.Services,
      svc ∈ s.env.Services ∨
        (svc.ServiceType = CamelServiceTypeChannel ∧ svc.URL = "" ∧
          mapGet svc.Metadata d.CamelMetaEndpointKind = CamelEndpointKindSource ∧
          mapGet svc.Metadata d.CamelMetaKnativeReply = "false") := by
  intro svc hsvc
  cases href : d.ExtractObjectReference uri with
  | error err =>
    unfold withService at hsvc
    simp only [href] at hsvc
    exact Or.inl hsvc
  | ok ref =>
    by_cases hc : ContainsService d s.env ref.Name CamelEndpointKindSource
        CamelServiceTypeChannel ref.APIVersion ref.Kind = true
    · unfold withService at hsvc
      simp only [href, hc, and_self, if_true] at hsvc
      exact Or.inl hsvc
    · have hnot := Bool.eq_false_iff.mpr hc
      rcases hr : resolveReference d CamelServiceTypeChannel ref
        (d.FillMissingReferenceData CamelServiceTypeChannel ref) s with ⟨sr, rr⟩
      have hstate := resolveReference_state d CamelServiceTypeChannel ref
        (d.FillMissingReferenceData CamelServiceTypeChannel ref) s
      rw [hr] at hstate
      obtain ⟨henv, _, _⟩ := hstate
      simp only at henv
      cases rr with
      | error err =>
        unfold withService at hsvc
        simp only [href, hnot, Bool.false_eq_true, and_false, if_false, hr, henv] at hsvc
        exact Or.inl hsvc
      | ok actual =>
        cases hu : d.GetSinkURL sr.e.ClientCalls actual sr.e.integration.ObjectMeta.Namespace with
        | error err =>
          unfold withService at hsvc
          simp only [href, hnot, Bool.false_eq_true, and_false, if_false, hr] at hsvc
          unfold channelSourceGen urlProvider at hsvc
          simp only [hu, Run.called, henv] at hsvc
          exact Or.inl hsvc
        | ok loc =>
          obtain ⟨_, henv2, _⟩ := withService_channelSource d t uri s sr ref actual loc href hnot
            hr hu
          rw [henv2] at hsvc
          simp only [List.mem_append, List.mem_singleton] at hsvc
          rcases hsvc with h | h
          · exact Or.inl h
          · right
            subst h
            refine ⟨rfl, rfl, ?_, ?_⟩
            · exact mapGet_channel_reply d t actual loc.Host hkeys _ _
                (List.mem_cons_self _ _)
            · exact mapGet_channel_reply d t actual loc.Host hkeys _ _
                (by simp)

/-- A round of the endpoint sources leaves the service definitions as they were
or appends one, of type `endpoint`, without URL, of kind `source` and without
reply metadata. -/
theorem endpointSource_services (d : Deps O) (endpoint : String) (s : Run O)
    (hkeys : [d.CamelMetaEndpointKind, d.CamelMetaKnativeAPIVersion, d.CamelMetaKnativeKind,
      d.CamelMetaKnativeName, d.CamelMetaKnativeReply,
      d.CamelMetaFilterPrefix ++ knativeHistoryHeader].Nodup) :
    ∀ svc ∈ (endpointSource d endpoint s).1.env.Services,
      svc ∈ s.env.Services ∨
        (svc.ServiceType = CamelServiceTypeEndpoint ∧ svc.URL = "" ∧
          mapGet svc.Metadata d.CamelMetaEndpointKind = CamelEndpointKindSource ∧
          ∀ kv ∈ svc.Metadata, kv.1 ≠ d.CamelMetaKnativeReply) := by
  simp only [List.nodup_cons, List.mem_cons, List.mem_singleton, List.not_mem_nil, not_or,
    List.nodup_nil, and_true, not_false_eq_true] at hkeys
  obtain ⟨⟨_, _, _, h15, _⟩, ⟨_, _, h25, _⟩, ⟨_, h35, _⟩, _, _⟩ := hkeys
  intro svc hsvc
  unfold endpointSource at hsvc
  cases href : d.ExtractObjectReference endpoint with
  | error err =>
    simp only [href] at hsvc
    exact Or.inl hsvc
  | ok ref =>
    simp only [href] at hsvc
    split_ifs at hsvc
    · exact Or.inl hsvc
    · simp only [List.mem_append, List.mem_singleton] at hsvc
      rcases hsvc with h | h
      · exact Or.inl h
      · right
        subst h
        refine ⟨rfl, rfl, ?_, ?_⟩
        · simp [mapGet, List.find?]
        · intro kv hkv
          simp only [List.mem_cons, List.mem_singleton, List.not_mem_nil, or_false] at hkv
          rcases hkv with rfl | rfl | rfl
          · exact h15
          · exact h25
          · exact h35

/-- The service definitions after a round of the event sources whose reference
is read and resolved. -/
theorem withService_eventSource_env (d : Deps O) (uri : String) (s s1 : Run O)
    (ref actual : ObjectReference)
    (href : d.ExtractObjectReference uri = .ok ref)
    (hres : resolveReference d CamelServiceTypeEvent ref
      (d.FillMissingReferenceData CamelServiceTypeEvent ref) s = (s1, .ok actual)) :
    (withService d false CamelServiceTypeEvent CamelEndpointKindSource (eventSourceGen d)
        uri s).1.env.Services
      = if ContainsService d s1.env
            (if d.ExtractEventType uri = "" then "default" else d.ExtractEventType uri)
            CamelEndpointKindSource CamelServiceTypeEvent actual.APIVersion actual.Kind then
          s1.env.Services
        else
          s1.env.Services ++ [
            { Name := if d.ExtractEventType uri = "" then "default" else d.ExtractEventType uri,
              ServiceType := CamelServiceTypeEvent,
              Path := "/events/" ++ d.ExtractEventType uri,
              Metadata := [
                (d.CamelMetaEndpointKind, CamelEndpointKindSource),
                (d.CamelMetaKnativeAPIVersion, actual.APIVersion),
                (d.CamelMetaKnativeKind, actual.Kind),
                (d.CamelMetaKnativeName, actual.Name),
                (d.CamelMetaKnativeReply, "false")] }] := by
  have hw : withService d false CamelServiceTypeEvent CamelEndpointKindSource (eventSourceGen d)
      uri s
      = eventSourceGen d actual uri (urlProvider d CamelServiceTypeEvent ref actual) s1 := by
    unfold withService
    simp only [href, Bool.false_eq_true, false_and, if_false, hres]
    unfold eventSourceGen
    simp only
    split_ifs <;> rfl
  rw [hw]
  unfold eventSourceGen
  simp only
  split_ifs <;> simp_all

/-- A round of the event sources leaves the service definitions as they were or
appends one, of type `event`, without URL, of kind `source` and with the reply
metadata `false`. -/
theorem withService_eventSource_services (d : Deps O) (uri : String) (s : Run O)
    (hkeys : [d.CamelMetaEndpointKind, d.CamelMetaKnativeAPIVersion, d.CamelMetaKnativeKind,
      d.CamelMetaKnativeName, d.CamelMetaKnativeReply,
      d.CamelMetaFilterPrefix ++ knativeHistoryHeader].Nodup) :
    ∀ svc ∈ (withService d false CamelServiceTypeEvent CamelEndpointKindSource
        (eventSourceGen d) uri s).1.env.Services,
      svc ∈ s.env.Services ∨
        (svc.ServiceType = CamelServiceTypeEvent ∧ svc.URL = "" ∧
          mapGet svc.Metadata d.CamelMetaEndpointKind = CamelEndpointKindSource ∧
          mapGet svc.Metadata d.CamelMetaKnativeReply = "false") := by
  simp only [List.nodup_cons, List.mem_cons, List.mem_singleton, List.not_mem_nil, not_or,
    List.nodup_nil, and_true, not_false_eq_true] at hkeys
  obtain ⟨⟨_, _, _, h15, _⟩, ⟨_, _, h25, _⟩, ⟨_, h35, _⟩, ⟨h45, _⟩, _⟩ := hkeys
  intro svc hsvc
  cases href : d.ExtractObjectReference uri with
  | error err =>
    unfold withService at hsvc
    simp only [href] at hsvc
    exact Or.inl hsvc
  | ok ref =>
    rcases hr : resolveReference d CamelServiceTypeEvent ref
      (d.FillMissingReferenceData CamelServiceTypeEvent ref) s with ⟨sr, rr⟩
    have hstate := resolveReference_state d CamelServiceTypeEvent ref
      (d.FillMissingReferenceData CamelServiceTypeEvent ref) s
    rw [hr] at hstate
    obtain ⟨henv, _, _⟩ := hstate
    simp only at henv
    cases rr with
    | error err =>
      unfold withService at hsvc
      simp only [href, Bool.false_eq_true, false_and, if_false, hr, henv] at hsvc
      exact Or.inl hsvc
    | ok actual =>
      rw [withService_eventSource_env d uri s sr ref actual href hr, henv] at hsvc
      by_cases hcont : ContainsService d s.env
          (if d.ExtractEventType uri = "" then "default" else d.ExtractEventType uri)
          CamelEndpointKindSource CamelServiceTypeEvent actual.APIVersion actual.Kind = true
      · rw [if_pos hcont] at hsvc
        exact Or.inl hsvc
      · rw [if_neg hcont] at hsvc
        simp only [List.mem_append, List.mem_singleton] at hsvc
        rcases hsvc with h | h
        · exact Or.inl h
        · right
          rw [h]
          refine ⟨rfl, rfl, ?_, ?_⟩
          · simp [mapGet, List.find?]
          · simp [mapGet, List.find?, h15, h25, h35, h45]

/-! ## Lemmas on `Apply`: the Integration is left alone by the wiring -/

theorem withService_integration (d : Deps O) (skipDuplicates : Bool)
    (serviceType : CamelServiceType) (endpointKind : CamelEndpointKind) (gen : Gen O)
    (hgen : ∀ (ref actual : ObjectReference) (uri : String) (s1 : Run O),
      (gen actual uri (urlProvider d serviceType ref actual) s1).1.e.Integration
        = s1.e.Integration)
    (uri : String) (s : Run O) :
    (withService d skipDuplicates serviceType endpointKind gen uri s).1.e.Integration
      = s.e.Integration := by
  cases href : d.ExtractObjectReference uri with
  | error err =>
    unfold withService
    simp only [href]
  | ok ref =>
    rcases hr : resolveReference d serviceType ref (d.FillMissingReferenceData serviceType ref) s
      with ⟨sr, rr⟩
    have hstate := resolveReference_state d serviceType ref
      (d.FillMissingReferenceData serviceType ref) s
    rw [hr] at hstate
    obtain ⟨_, _, hint⟩ := hstate
    simp only at hint
    unfold withService
    simp only [href, hr]
    split_ifs
    · rfl
    · cases rr with
      | error err => exact hint
      | ok actual =>
        have hg := hgen ref actual uri sr
        simp only
        rcases hgg : gen actual uri (urlProvider d serviceType ref actual) sr with ⟨s2, r⟩
        rw [hgg] at hg
        cases r <;> exact hg.trans hint

theorem withServiceDo_integration (d : Deps O) (skipDuplicates : Bool)
    (serviceURIs : List String) (serviceType : CamelServiceType)
    (endpointKind : CamelEndpointKind) (gen : Gen O)
    (hgen : ∀ (ref actual : ObjectReference) (uri : String) (s1 : Run O),
      (gen actual uri (urlProvider d serviceType ref actual) s1).1.e.Integration
        = s1.e.Integration)
    (s : Run O) :
    (withServiceDo d skipDuplicates serviceURIs serviceType endpointKind gen s).1.e.Integration
      = s.e.Integration := by
  unfold withServiceDo
  exact forEach_invariant _ (fun r : Run O => r.e.Integration) _ s
    (fun uri _ s1 => withService_integration d skipDuplicates serviceType endpointKind gen hgen
      uri s1)

theorem sinkGen_integration (d : Deps O) (serviceType : CamelServiceType)
    (ref actual : ObjectReference) (uri : String) (s1 : Run O) :
    (sinkGen d serviceType actual uri (urlProvider d serviceType ref actual) s1).1.e.Integration
      = s1.e.Integration := by
  unfold sinkGen urlProvider
  cases hu : d.GetSinkURL s1.e.ClientCalls actual s1.e.integration.ObjectMeta.Namespace with
  | error err =>
    simp only [hu]
    rfl
  | ok loc =>
    simp only [hu]
    cases d.BuildCamelServiceDefinition actual.Name CamelEndpointKindSink serviceType loc
      actual.APIVersion actual.Kind <;> rfl

theorem channelSourceGen_integration (d : Deps O) (t : knativeTrait)
    (ref actual : ObjectReference) (uri : String) (s1 : Run O) :
    (channelSourceGen d t actual uri
        (urlProvider d CamelServiceTypeChannel ref actual) s1).1.e.Integration
      = s1.e.Integration := by
  unfold channelSourceGen urlProvider
  cases hu : d.GetSinkURL s1.e.ClientCalls actual s1.e.integration.ObjectMeta.Namespace with
  | error err =>
    simp only [hu]
    rfl
  | ok loc =>
    simp only [hu, createSubscription]
    rfl

theorem eventSourceGen_integration (d : Deps O) (ref actual : ObjectReference) (uri : String)
    (s1 : Run O) :
    (eventSourceGen d actual uri
        (urlProvider d CamelServiceTypeEvent ref actual) s1).1.e.Integration
      = s1.e.Integration := by
  unfold eventSourceGen createTrigger
  simp only
  split_ifs <;> rfl

theorem sinkBindingGen_integration (d : Deps O) (t : knativeTrait)
    (serviceType : CamelServiceType) (ref actual : ObjectReference) (uri : String)
    (s1 : Run O) :
    (sinkBindingGen d t serviceType actual uri
        (urlProvider d serviceType ref actual) s1).1.e.Integration
      = s1.e.Integration := by
  unfold sinkBindingGen
  simp only
  split_ifs <;> rfl

theorem endpointSource_integration (d : Deps O) (endpoint : String) (s : Run O) :
    (endpointSource d endpoint s).1.e.Integration = s.e.Integration := by
  unfold endpointSource
  cases d.ExtractObjectReference endpoint with
  | error err => rfl
  | ok ref =>
    simp only
    split_ifs <;> rfl

theorem configureChannels_integration (d : Deps O) (t : knativeTrait) (s : Run O) :
    (configureChannels d t s).1.e.Integration = s.e.Integration := by
  have h1 := withServiceDo_integration d true t.ChannelSources CamelServiceTypeChannel
    CamelEndpointKindSource (channelSourceGen d t) (channelSourceGen_integration d t) s
  unfold configureChannels ifServiceMissingDo
  rcases hw : withServiceDo d true t.ChannelSources CamelServiceTypeChannel
    CamelEndpointKindSource (channelSourceGen d t) s with ⟨s1, r1⟩
  rw [hw] at h1
  cases r1 with
  | some err => exact h1
  | none =>
    have h2 := withServiceDo_integration d true t.ChannelSinks CamelServiceTypeChannel
      CamelEndpointKindSink (sinkGen d CamelServiceTypeChannel)
      (sinkGen_integration d CamelServiceTypeChannel) s1
    simp only
    rcases hw2 : withServiceDo d true t.ChannelSinks CamelServiceTypeChannel
      CamelEndpointKindSink (sinkGen d CamelServiceTypeChannel) s1 with ⟨s2, r2⟩
    rw [hw2] at h2
    cases r2 <;> exact h2.trans h1

theorem configureEndpoints_integration (d : Deps O) (t : knativeTrait) (s : Run O) :
    (configureEndpoints d t s).1.e.Integration = s.e.Integration := by
  have h1 := forEach_invariant (endpointSource d) (fun r : Run O => r.e.Integration)
    (extractServices d t.EndpointSources CamelServiceTypeEndpoint) s
    (fun endpoint _ s1 => endpointSource_integration d endpoint s1)
  unfold configureEndpoints ifServiceMissingDo
  simp only
  rcases hw : forEach (endpointSource d)
    (extractServices d t.EndpointSources CamelServiceTypeEndpoint) s with ⟨s1, r1⟩
  rw [hw] at h1
  cases r1 with
  | some err => exact h1
  | none =>
    have h2 := withServiceDo_integration d true t.EndpointSinks CamelServiceTypeEndpoint
      CamelEndpointKindSink (sinkGen d CamelServiceTypeEndpoint)
      (sinkGen_integration d CamelServiceTypeEndpoint) s1
    simp only
    rcases hw2 : withServiceDo d true t.EndpointSinks CamelServiceTypeEndpoint
      CamelEndpointKindSink (sinkGen d CamelServiceTypeEndpoint) s1 with ⟨s2, r2⟩
    rw [hw2] at h2
    cases r2 <;> exact h2.trans h1

theorem configureEvents_integration (d : Deps O) (t : knativeTrait) (s : Run O) :
    (configureEvents d t s).1.e.Integration = s.e.Integration := by
  have h1 := withServiceDo_integration d false t.EventSources CamelServiceTypeEvent
    CamelEndpointKindSource (eventSourceGen d) (eventSourceGen_integration d) s
  unfold configureEvents ifServiceMissingDo
  rcases hw : withServiceDo d false t.EventSources CamelServiceTypeEvent
    CamelEndpointKindSource (eventSourceGen d) s with ⟨s1, r1⟩
  rw [hw] at h1
  cases r1 with
  | some err => exact h1
  | none =>
    have h2 := withServiceDo_integration d true t.EventSinks CamelServiceTypeEvent
      CamelEndpointKindSink (sinkGen d CamelServiceTypeEvent)
      (sinkGen_integration d CamelServiceTypeEvent) s1
    simp only
    rcases hw2 : withServiceDo d true t.EventSinks CamelServiceTypeEvent
      CamelEndpointKindSink (sinkGen d CamelServiceTypeEvent) s1 with ⟨s2, r2⟩
    rw [hw2] at h2
    cases r2 <;> exact h2.trans h1

theorem configureSinkBinding_integration (d : Deps O) (t : knativeTrait) (s : Run O) :
    (configureSinkBinding d t s).1.e.Integration = s.e.Integration := by
  have hloop := withServiceDo_integration d false (selectedSinks d t) (sinkServiceType d t)
    CamelEndpointKindSink (sinkBindingGen d t (sinkServiceType d t))
    (sinkBindingGen_integration d t (sinkServiceType d t)) s
  rw [configureSinkBinding_eq]
  split_ifs <;> first | rfl | exact hloop

theorem applyInRunningPhases_integration (c : TraitDeps O) (t : knativeTrait)
    (e : Environment O) :
    (applyInRunningPhases c t e).1.Integration = e.Integration := by
  unfold applyInRunningPhases
  rcases (if t.Configuration ≠ "" then c.Deserialize NewCamelEnvironment t.Configuration
      else .ok NewCamelEnvironment) with err | env
  · rfl
  · simp only
    have h1 := configureChannels_integration c.toDeps t { e := e, env := env }
    rcases hw1 : configureChannels c.toDeps t { e := e, env := env } with ⟨s1, r1⟩
    rw [hw1] at h1
    cases r1 with
    | some err => exact h1
    | none =>
      simp only
      have h2 := configureEndpoints_integration c.toDeps t s1
      rcases hw2 : configureEndpoints c.toDeps t s1 with ⟨s2, r2⟩
      rw [hw2] at h2
      cases r2 with
      | some err => exact h2.trans h1
      | none =>
        simp only
        have h3 := configureEvents_integration c.toDeps t s2
        rcases hw3 : configureEvents c.toDeps t s2 with ⟨s3, r3⟩
        rw [hw3] at h3
        cases r3 with
        | some err => exact h3.trans (h2.trans h1)
        | none =>
          simp only
          have h4 := configureSinkBinding_integration c.toDeps t s3
          rcases hw4 : configureSinkBinding c.toDeps t s3 with ⟨s4, r4⟩
          rw [hw4] at h4
          cases r4 with
          | some err => exact h4.trans (h3.trans (h2.trans h1))
          | none => exact h4.trans (h3.trans (h2.trans h1))

/-! ## Lemmas on the capabilities -/

theorem mem_stringSliceUniqueAdd (slice : List String) (item x : String) :
    x ∈ StringSliceUniqueAdd slice item ↔ x ∈ slice ∨ x = item := by
  unfold StringSliceUniqueAdd
  split_ifs with h
  · constructor
    · exact Or.inl
    · rintro (hx | rfl)
      · exact hx
      · exact h
  · simp [List.mem_append]

theorem count_stringSliceUniqueAdd (slice : List String) (item x : String) :
    (StringSliceUniqueAdd slice item).count x = slice.count x ∨
      (slice.count x = 0 ∧ (StringSliceUniqueAdd slice item).count x = 1) := by
  unfold StringSliceUniqueAdd
  split_ifs with h
  · exact Or.inl rfl
  · by_cases hx : x = item
    · subst hx
      right
      have hz : slice.count x = 0 := List.count_eq_zero.mpr h
      exact ⟨hz, by simp [List.count_append, hz]⟩
    · left
      have hne : ¬ item = x := fun h2 => hx h2.symm
      simp [List.count_append, List.count_cons, hne]

/-- A list of capabilities grown without a duplicate: every capability occurs as
often as before, or once when it did not occur. -/
theorem count_step_trans (a b c : List String)
    (hab : ∀ x, b.count x = a.count x ∨ (a.count x = 0 ∧ b.count x = 1))
    (hbc : ∀ x, c.count x = b.count x ∨ (b.count x = 0 ∧ c.count x = 1)) :
    ∀ x, c.count x = a.count x ∨ (a.count x = 0 ∧ c.count x = 1) := by
  intro x
  rcases hab x with h1 | ⟨h1, h1b⟩ <;> rcases hbc x with h2 | ⟨h2, h2b⟩
  · exact Or.inl (h2.trans h1)
  · exact Or.inr ⟨by omega, h2b⟩
  · exact Or.inr ⟨h1, by omega⟩
  · omega

theorem addCapability_of_some (e : Environment O) (it : Trait.Integration) (capability : String)
    (hit : e.Integration = some it) :
    (e.addCapability capability).Integration
      = some { it with
          Status := { it.Status with
            Capabilities := StringSliceUniqueAdd it.Status.Capabilities capability } } := by
  unfold Environment.addCapability
  rw [hit]

/-- The capabilities after `Apply`, statement by statement. -/
theorem Apply_capabilities (c : TraitDeps O) (t : knativeTrait) (e : Environment O)
    (it : Trait.Integration) (hit : e.Integration = some it) :
    ∃ caps1 caps2 caps3 : List String,
      caps1 = (if it.Status.Phase = .Initialization then
          StringSliceUniqueAdd it.Status.Capabilities c.CapabilityKnative
        else it.Status.Capabilities) ∧
      caps2 = (if t.ChannelSources.length > 0 ∨ t.EndpointSources.length > 0 ∨
            t.EventSources.length > 0 then
          StringSliceUniqueAdd caps1 c.CapabilityPlatformHTTP
        else caps1) ∧
      caps3 = (if t.ChannelSinks.length > 0 ∨ t.EndpointSinks.length > 0 ∨
            t.EventSinks.length > 0 then
          StringSliceUniqueAdd caps2 c.CapabilityPlatformHTTP
        else caps2) ∧
      (Apply c t e).1.Integration
        = some { it with Status := { it.Status with Capabilities := caps3 } } := by
  refine ⟨_, _, _, rfl, rfl, rfl, ?_⟩
  have hstep : ∀ (e0 : Environment O) (caps : List String) (cond : Prop) [Decidable cond]
      (capability : String),
      e0.Integration = some { it with Status := { it.Status with Capabilities := caps } } →
      (if cond then e0.addCapability capability else e0).Integration
        = some { it with
            Status := { it.Status with
              Capabilities :=
                if cond then StringSliceUniqueAdd caps capability else caps } } := by
    intro e0 caps cond _ capability h0
    split_ifs
    · rw [addCapability_of_some e0 _ capability h0]
    · exact h0
  have h0 : e.Integration
      = some { it with Status := { it.Status with Capabilities := it.Status.Capabilities } } :=
    hit
  have hphase : e.IntegrationInPhase [.Initialization] = true
      ↔ it.Status.Phase = .Initialization := by
    unfold Environment.IntegrationInPhase
    rw [hit]
    simp only [List.contains_cons, List.contains_nil, Bool.or_false, beq_iff_eq]
  have htail : ∀ e3 : Environment O,
      (if e3.IntegrationInRunningPhases then applyInRunningPhases c t e3
        else (e3, none)).1.Integration = e3.Integration := by
    intro e3
    split_ifs
    · exact applyInRunningPhases_integration c t e3
    · rfl
  have h1 := hstep e it.Status.Capabilities (e.IntegrationInPhase [.Initialization] = true)
    c.CapabilityKnative h0
  have h2 := hstep _ _ (t.ChannelSources.length > 0 ∨ t.EndpointSources.length > 0 ∨
    t.EventSources.length > 0) c.CapabilityPlatformHTTP h1
  have h3 := hstep _ _ (t.ChannelSinks.length > 0 ∨ t.EndpointSinks.length > 0 ∨
    t.EventSinks.length > 0) c.CapabilityPlatformHTTP h2
  unfold Apply
  simp only
  rw [htail, h3]
  simp only [hphase]

/-! ## Lemmas on the trait catalog -/

/-- What `Configure` of one trait leaves of the run. -/
theorem configureTrait_ok {σ : Type} (c : Catalog σ) (profile : TraitProfile)
    (tr : TraitVariant σ) (st st1 : CatalogRun σ)
    (h : configureTrait c profile tr st = .ok st1) :
    (st1.enabled = st.enabled ∨ st1.enabled = st.enabled ++ [tr]) ∧
    (∃ extra, st1.conditions = st.conditions ++ extra) ∧
    ((tr.Configure st.env).2.1 = true → c.policy profile tr.Id = none →
      st1.enabled = st.enabled ++ [tr]) ∧
    ((tr.Configure st.env).2.1 = true → ∀ winner, c.policy profile tr.Id = some winner →
      winner ∈ st.enabled.map (fun other => other.Id) →
      st1.enabled = st.enabled ∧
      st1.conditions = st.conditions ++ [exclusionCondition tr.Id winner]) := by
  unfold configureTrait at h
  rcases hc : tr.Configure st.env with ⟨env1, enabled, condition, err⟩
  rw [hc] at h
  cases err with
  | some err => simp at h
  | none =>
    simp only at h
    cases hp : c.policy profile tr.Id with
    | none =>
      rw [hp] at h
      simp only [Except.ok.injEq] at h
      subst h
      refine ⟨?_, ⟨_, rfl⟩, ?_, ?_⟩
      · cases enabled
        · exact Or.inl (by simp)
        · exact Or.inr (by simp)
      · intro he _
        simp only at he
        simp [he]
      · intro _ winner hw
        simp at hw
    | some winner =>
      rw [hp] at h
      simp only at h
      by_cases hx : enabled = true ∧ winner ∈ st.enabled.map (fun other => other.Id)
      · rw [if_pos hx] at h
        simp only [Except.ok.injEq] at h
        subst h
        refine ⟨Or.inl rfl, ⟨_, rfl⟩, ?_, ?_⟩
        · intro _ hn
          simp at hn
        · intro _ w hw _
          simp only [Option.some.injEq] at hw
          subst hw
          exact ⟨rfl, rfl⟩
      · rw [if_neg hx] at h
        simp only [Except.ok.injEq] at h
        subst h
        refine ⟨?_, ⟨_, rfl⟩, ?_, ?_⟩
        · cases enabled
          · exact Or.inl (by simp)
          · exact Or.inr (by simp)
        · intro _ hn
          simp at hn
        · intro he w hw hmem
          simp only [Option.some.injEq] at hw
          subst hw
          simp only at he
          exact absurd ⟨he, hmem⟩ hx

/-- The mutual exclusion along the `Configure` pass: with the winner among the
traits to come or enabled already, the winner ends enabled, the loser does not,
and the loser's condition is recorded. -/
theorem configureAll_exclusion {σ : Type} (c : Catalog σ) (profile : TraitProfile)
    (sv kv : TraitVariant σ)
    (hpolicy : c.policy profile sv.Id = some kv.Id)
    (hkpolicy : c.policy profile kv.Id = none)
    (hprio : kv.Priority < sv.Priority)
    (hsv : ∀ env0, (sv.Configure env0).2.1 = true)
    (hkv : ∀ env0, (kv.Configure env0).2.1 = true) :
    ∀ (l : List (TraitVariant σ)) (st st2 : CatalogRun σ),
      l.Pairwise (fun a b => a.Priority ≤ b.Priority) →
      (∀ tr ∈ l, tr.Id = sv.Id → tr = sv) →
      configureAll c profile l st = .ok st2 →
      (kv ∈ l ∨ kv.Id ∈ st.enabled.map (fun other => other.Id)) →
      sv.Id ∉ st.enabled.map (fun other => other.Id) →
      kv.Id ∈ st2.enabled.map (fun other => other.Id) ∧
      sv.Id ∉ st2.enabled.map (fun other => other.Id) ∧
      ((sv ∈ l ∨ exclusionCondition sv.Id kv.Id ∈ st.conditions) →
        exclusionCondition sv.Id kv.Id ∈ st2.conditions) := by
  have hids : sv.Id ≠ kv.Id := by
    intro h
    rw [h, hkpolicy] at hpolicy
    exact Option.noConfusion hpolicy
  intro l
  induction l with
  | nil =>
    intro st st2 _ _ hrun hk hs
    simp only [configureAll, Except.ok.injEq] at hrun
    subst hrun
    refine ⟨?_, hs, ?_⟩
    · rcases hk with hk | hk
      · exact absurd hk (List.not_mem_nil _)
      · exact hk
    · rintro (h | h)
      · exact absurd h (List.not_mem_nil _)
      · exact h
  | cons x rest ih =>
    intro st st2 hsorted huniq hrun hk hs
    simp only [configureAll] at hrun
    cases hx : configureTrait c profile x st with
    | error err =>
      rw [hx] at hrun
      simp at hrun
    | ok st1 =>
      rw [hx] at hrun
      simp only at hrun
      obtain ⟨hgrow, ⟨extra, hconds⟩, hplain, hloser⟩ := configureTrait_ok c profile x st st1 hx
      have hmono : ∀ id, id ∈ st.enabled.map (fun other => other.Id) →
          id ∈ st1.enabled.map (fun other => other.Id) := by
        intro id hid
        rcases hgrow with h | h
        · rw [h]; exact hid
        · rw [h, List.map_append, List.mem_append]; exact Or.inl hid
      -- the winner is enabled before the loser is configured
      have hbefore : x = sv → kv.Id ∈ st.enabled.map (fun other => other.Id) := by
        intro hxs
        rcases hk with hk | hk
        · rcases List.mem_cons.mp hk with h | h
          · exact absurd (by rw [← hxs, ← h]) hids
          · have := (List.pairwise_cons.mp hsorted).1 kv h
            rw [hxs] at this
            omega
        · exact hk
      have hk1 : kv ∈ rest ∨ kv.Id ∈ st1.enabled.map (fun other => other.Id) := by
        rcases hk with hk | hk
        · rcases List.mem_cons.mp hk with h | h
          · right
            have := hplain (by rw [← h]; exact hkv st.env) (by rw [← h]; exact hkpolicy)
            rw [this, List.map_append, List.mem_append]
            right
            rw [← h]
            simp
          · exact Or.inl h
        · exact Or.inr (hmono _ hk)
      have hs1 : sv.Id ∉ st1.enabled.map (fun other => other.Id) := by
        intro hin
        rcases hgrow with h | h
        · rw [h] at hin; exact hs hin
        · rw [h, List.map_append, List.mem_append] at hin
          rcases hin with hin | hin
          · exact hs hin
          · simp only [List.map_cons, List.map_nil, List.mem_singleton] at hin
            have hxs : x = sv := huniq x (List.mem_cons_self _ _) hin.symm
            have hl := hloser (by rw [hxs]; exact hsv st.env) kv.Id (by rw [hxs]; exact hpolicy)
              (hbefore hxs)
            rw [hl.1] at h
            have := congrArg List.length h
            simp at this
      obtain ⟨r1, r2, r3⟩ := ih st1 st2 (List.pairwise_cons.mp hsorted).2
        (fun tr htr => huniq tr (List.mem_cons_of_mem _ htr)) hrun hk1 hs1
      refine ⟨r1, r2, ?_⟩
      intro hc
      apply r3
      rcases hc with hc | hc
      · rcases List.mem_cons.mp hc with h | h
        · right
          have hxs : x = sv := h.symm
          have hl := hloser (by rw [hxs]; exact hsv st.env) kv.Id (by rw [hxs]; exact hpolicy)
            (hbefore hxs)
          rw [hl.2, hxs]
          simp
        · exact Or.inl h
      · right
        rw [hconds]
        exact List.mem_append_left _ hc

/-! ## The claims on the sink binding, `extractServices`, `Configure`, `Apply` and the catalog -/

/-- C21: the sink-binding post-action never creates a second binding. On a
Resource Collection that holds an object of kind `SinkBinding` in a group whose
name contains `knative` it returns no error and leaves the environment as it
is; it returns no error in any case; and, `knativeutil.CreateSinkBinding`
creating such an object, a second run of the post-action changes nothing of what
the first run left. -/
theorem C21_sink_binding_created_once (d : Deps O) (hcs : CreatesKnativeSinkBinding d)
    (t : knativeTrait) (ref : ObjectReference) (e : Environment O) :
    (HasKnativeSinkBinding d e.Resources → sinkBindingPostStep d t ref e = (e, none)) ∧
    (sinkBindingPostStep d t ref e).2 = none ∧
    sinkBindingPostStep d t ref (sinkBindingPostStep d t ref e).1
      = ((sinkBindingPostStep d t ref e).1, none) := by
  refine ⟨sinkBindingPostStep_present d t ref e, ?_, ?_⟩
  · by_cases hp : HasKnativeSinkBinding d e.Resources
    · rw [sinkBindingPostStep_present d t ref e hp]
    · cases hctrl : d.GetController e.Resources with
      | none => rw [sinkBindingPostStep_no_controller d t ref e hctrl]
      | some controller =>
        have hinj := sinkBindingPostStep_absent d e hp
        unfold sinkBindingPostStep
        simp only [hinj, hctrl, Bool.false_eq_true, if_false]
  · by_cases hp : HasKnativeSinkBinding d e.Resources
    · rw [sinkBindingPostStep_present d t ref e hp, sinkBindingPostStep_present d t ref e hp]
    · cases hctrl : d.GetController e.Resources with
      | none =>
        rw [sinkBindingPostStep_no_controller d t ref e hctrl,
          sinkBindingPostStep_no_controller d t ref e hctrl]
      | some controller =>
        apply sinkBindingPostStep_present
        have hinj := sinkBindingPostStep_absent d e hp
        unfold sinkBindingPostStep
        simp only [hinj, hctrl, Bool.false_eq_true, if_false, AddFirst]
        exact ⟨_, List.mem_cons_self _ _, (hcs _ _).1, (hcs _ _).2⟩

/-- C21 at the sample run: the second run of the post-action leaves the one
SinkBinding of the first run in front of the Deployment. -/
theorem C21_witness :
    CreatesKnativeSinkBinding sampleDeps ∧
    (sinkBindingPostStep sampleDeps {}
        { Kind := "Service", Namespace := "", Name := "endpoint-sink-1",
          APIVersion := servingGroupVersion }
        (sinkBindingPostStep sampleDeps {}
          { Kind := "Service", Namespace := "", Name := "endpoint-sink-1",
            APIVersion := servingGroupVersion }
          sampleRun.e).1).1.Resources
      = [.sinkBinding
          { Kind := "Deployment", Namespace := "ns", Name := "test", APIVersion := "apps/v1" }
          { Kind := "Service", Namespace := "ns", Name := "endpoint-sink-1",
            APIVersion := "serving.knative.dev/v1" },
         .deployment "test"] :=
  have hcs : CreatesKnativeSinkBinding sampleDeps := fun _ _ =>
    ⟨rfl, show stringsContains "sources.knative.dev" "knative" = true by decide⟩
  ⟨hcs,
   (congrArg (fun r => r.1.Resources)
      (C21_sink_binding_created_once sampleDeps hcs {}
        { Kind := "Service", Namespace := "", Name := "endpoint-sink-1",
          APIVersion := servingGroupVersion }
        sampleRun.e).2.2).trans (by decide)⟩

/-- C22: the list that `extractServices` returns is sorted in the order of
strings, it is a rearrangement of the items of the input that are not empty
once trimmed of spaces, tabs and double quotes, each trimmed and normalised to
its URI, and it is the same for every permutation of the input. -/
theorem C22_extracted_sorted (d : Deps O) (names : List String)
    (serviceType : CamelServiceType) :
    (extractServices d names serviceType).Sorted (fun a b => a.toList ≤ b.toList) ∧
    (extractServices d names serviceType).Perm (normalisedItems d names serviceType) ∧
    ∀ names2 : List String, names2.Perm names →
      extractServices d names2 serviceType = extractServices d names serviceType := by
  refine ⟨?_, ?_, ?_⟩
  · rw [extractServices_eq]
    exact sortStrings_sorted _
  · rw [extractServices_eq]
    exact sortStrings_perm _
  · intro names2 hperm
    rw [extractServices_eq, extractServices_eq]
    apply sortStrings_of_perm
    unfold normalisedItems
    exact ((hperm.map _).filter _).map _

/-- C22 at sample names: blanks and quotes are trimmed, the empty item is left
out, and the order of the input does not matter. -/
theorem C22_witness :
    extractServices sampleDeps [" b ", "", "\"a\""] CamelServiceTypeEndpoint
      = ["knative:endpoint/a", "knative:endpoint/b"] ∧
    extractServices sampleDeps ["\"a\"", " b ", ""] CamelServiceTypeEndpoint
      = extractServices sampleDeps [" b ", "", "\"a\""] CamelServiceTypeEndpoint :=
  ⟨by decide,
   (C22_extracted_sorted sampleDeps [" b ", "", "\"a\""] CamelServiceTypeEndpoint).2.2
      ["\"a\"", " b ", ""] (by decide)⟩

/-- C23 fails as stated: `extractServices` returns the endpoint `a`, listed
twice, twice. -/
theorem C23_counterexample :
    extractServices sampleDeps ["a", "a"] CamelServiceTypeEndpoint
      = ["knative:endpoint/a", "knative:endpoint/a"] ∧
    ¬ (extractServices sampleDeps ["a", "a"] CamelServiceTypeEndpoint).Nodup := by
  constructor <;> decide

/-- C23, amended: `extractServices` removes no duplicate. A URI occurs in the
list it returns as many times as there are items of the input that trim and
normalise to it, and the list is free of duplicates exactly when those items
normalise to distinct URIs. -/
theorem C23_extracted_keeps_duplicates (d : Deps O) (names : List String)
    (serviceType : CamelServiceType) :
    (∀ uri : String, (extractServices d names serviceType).count uri
      = (normalisedItems d names serviceType).count uri) ∧
    ((extractServices d names serviceType).Nodup
      ↔ (normalisedItems d names serviceType).Nodup) := by
  have hperm : (extractServices d names serviceType).Perm
      (normalisedItems d names serviceType) := by
    rw [extractServices_eq]
    exact sortStrings_perm _
  exact ⟨fun uri => hperm.count_eq uri, hperm.nodup_iff⟩

/-- The amended C23 at sample names: `a` comes out twice, and distinct names
come out once each. -/
theorem C23_witness :
    (extractServices sampleDeps ["a", " a", "b"] CamelServiceTypeEndpoint).count
      "knative:endpoint/a" = 2 ∧
    (extractServices sampleDeps ["b", "a"] CamelServiceTypeEndpoint).Nodup :=
  ⟨((C23_extracted_keeps_duplicates sampleDeps ["a", " a", "b"] CamelServiceTypeEndpoint).1
      "knative:endpoint/a").trans (by decide),
   (C23_extracted_keeps_duplicates sampleDeps ["b", "a"] CamelServiceTypeEndpoint).2.mpr
      (by decide)⟩

/-- C27 fails as stated: sink binding enabled, one sink selected, the
Integration being deployed, and no post-step processor appended, because the
one sink, the channel `a-missing`, is not found in the sample cluster and
`configureSinkBinding` fails before its callback is called. -/
theorem C27_counterexample :
    BoolDeref ({ SinkBinding := some true, ChannelSinks := ["a-missing"] } : knativeTrait).SinkBinding
      false = true ∧
    (selectedSinks sampleDeps { SinkBinding := some true, ChannelSinks := ["a-missing"] }).length
      = 1 ∧
    sampleRun.e.IntegrationInPhase [.Deploying, .Running] = true ∧
    (configureSinkBinding sampleDeps { SinkBinding := some true, ChannelSinks := ["a-missing"] }
      sampleRun).2 = some (.text "cannot find channel a-missing") ∧
    (configureSinkBinding sampleDeps { SinkBinding := some true, ChannelSinks := ["a-missing"] }
      sampleRun).1.e.PostStepProcessors = [] := by
  refine ⟨?_, ?_, ?_, ?_, ?_⟩ <;> decide

/-- C27, amended: `configureSinkBinding` registers the post-action only in the
phases Deploying and Running. When sink binding is enabled, exactly one sink is
selected, the loop of `withServiceDo` has that one URI to process and reads and
resolves its reference without error, and the phase is Deploying or Running, it
returns no error and appends exactly one post-step processor, the sink-binding
post-action for the resolved reference; in every other phase, and when sink
binding is disabled or unset, it appends none. -/
theorem C27_post_action_in_active_phases (d : Deps O) (t : knativeTrait) (s : Run O) :
    (∀ (uri : String) (s1 : Run O) (ref actual : ObjectReference),
      BoolDeref t.SinkBinding false = true →
      (selectedSinks d t).length = 1 →
      extractServices d (selectedSinks d t) (sinkServiceType d t) = [uri] →
      d.ExtractObjectReference uri = .ok ref →
      resolveReference d (sinkServiceType d t) ref
        (d.FillMissingReferenceData (sinkServiceType d t) ref) s = (s1, .ok actual) →
      s.e.IntegrationInPhase [.Deploying, .Running] = true →
      (configureSinkBinding d t s).2 = none ∧
      (configureSinkBinding d t s).1.e.PostStepProcessors
        = s.e.PostStepProcessors ++ [.sinkBinding t actual]) ∧
    (s.e.IntegrationInPhase [.Deploying, .Running] = false →
      (configureSinkBinding d t s).1.e.PostStepProcessors = s.e.PostStepProcessors) ∧
    (BoolDeref t.SinkBinding false = false →
      (configureSinkBinding d t s).1.e.PostStepProcessors = s.e.PostStepProcessors) := by
  refine ⟨?_, ?_, ?_⟩
  · intro uri s1 ref actual hon hone hloop href hres hphase
    rw [configureSinkBinding_eq]
    simp only [hon, not_true_eq_false, if_false, hone, ne_eq]
    unfold withServiceDo
    rw [hloop]
    obtain ⟨h1, _, h3⟩ := withService_sinkBinding d t (sinkServiceType d t) uri s s1 ref actual
      href hres
    rw [hphase] at h3
    rcases hw : withService d false (sinkServiceType d t) CamelEndpointKindSink
      (sinkBindingGen d t (sinkServiceType d t)) uri s with ⟨s2, r⟩
    rw [hw] at h1 h3
    simp only at h1 h3
    subst h1
    simp only [forEach, hw]
    exact ⟨trivial, by simpa using h3⟩
  · intro hphase
    have hinv := forEach_preserves
      (withService d false (sinkServiceType d t) CamelEndpointKindSink
        (sinkBindingGen d t (sinkServiceType d t)))
      (fun r : Run O => r.e.Integration = s.e.Integration ∧
        r.e.PostStepProcessors = s.e.PostStepProcessors)
      (extractServices d (selectedSinks d t) (sinkServiceType d t)) s
      (fun uri _ s1 hs1 => by
        have hp1 : s1.e.IntegrationInPhase [.Deploying, .Running] = false := by
          unfold Environment.IntegrationInPhase at hphase ⊢
          rw [hs1.1]
          exact hphase
        obtain ⟨ha, hb⟩ := withService_sinkBinding_idle d t (sinkServiceType d t) uri s1 hp1
        exact ⟨ha.trans hs1.1, hb.trans hs1.2⟩)
      ⟨rfl, rfl⟩
    have hloop : (withServiceDo d false (selectedSinks d t) (sinkServiceType d t)
        CamelEndpointKindSink (sinkBindingGen d t (sinkServiceType d t))
        s).1.e.PostStepProcessors = s.e.PostStepProcessors := hinv.2
    rw [configureSinkBinding_eq]
    split_ifs <;> first | rfl | exact hloop
  · intro hoff
    rw [configureSinkBinding_eq]
    simp only [hoff, Bool.false_eq_true, not_false_eq_true, if_true]

/-- The amended C27 at the sample endpoint sink `endpoint-sink-1`: one
processor when the Integration is being deployed, none while it is initialised. -/
theorem C27_witness :
    (configureSinkBinding sampleDeps
        { SinkBinding := some true, EndpointSinks := ["endpoint-sink-1"] }
        sampleRun).1.e.PostStepProcessors
      = [.sinkBinding { SinkBinding := some true, EndpointSinks := ["endpoint-sink-1"] }
          { Kind := "Service", Namespace := "", Name := "endpoint-sink-1",
            APIVersion := servingGroupVersion }] ∧
    (configureSinkBinding sampleDeps
        { SinkBinding := some true, EndpointSinks := ["endpoint-sink-1"] }
        { sampleRun with
          e := { sampleRun.e with
                 Integration := some (sampleIntegration .Initialization) } }).1.e.PostStepProcessors
      = [] :=
  ⟨((C27_post_action_in_active_phases sampleDeps
        { SinkBinding := some true, EndpointSinks := ["endpoint-sink-1"] } sampleRun).1
      "knative:endpoint/endpoint-sink-1" sampleRun
      { Kind := "", Namespace := "", Name := "endpoint-sink-1", APIVersion := "" }
      { Kind := "Service", Namespace := "", Name := "endpoint-sink-1",
        APIVersion := servingGroupVersion }
      rfl (by decide) (by decide) rfl rfl rfl).2,
   (C27_post_action_in_active_phases sampleDeps
        { SinkBinding := some true, EndpointSinks := ["endpoint-sink-1"] }
        { sampleRun with
          e := { sampleRun.e with
                 Integration := some (sampleIntegration .Initialization) } }).2.1 rfl⟩

/-- C28: the labelling of the namespace in the sink-binding post-action is
best-effort. On a Resource Collection with a controller and no Knative
SinkBinding, when `EnableKnativeBindInNamespace` fails the post-action still
returns no error and still puts the new SinkBinding in front of the collection;
the labelling is attempted once when the `NamespaceLabel` option is unset or
true; and on any environment, when the option is false, the post-action makes no
call to the cluster. -/
theorem C28_labelling_best_effort (d : Deps O) (t : knativeTrait) (ref : ObjectReference)
    (e : Environment O) (it : Trait.Integration) (controller : O)
    (hit : e.Integration = some it)
    (hnone : ¬ HasKnativeSinkBinding d e.Resources)
    (hctrl : d.GetController e.Resources = some controller) :
    (∀ err : Error,
      BoolDeref t.NamespaceLabel true = true →
      d.EnableKnativeBindInNamespace e.ClientCalls it.ObjectMeta.Namespace = .error err →
      (sinkBindingPostStep d t ref e).2 = none ∧
      (sinkBindingPostStep d t ref e).1.Resources
        = newSinkBinding d it controller ref :: e.Resources ∧
      (sinkBindingPostStep d t ref e).1.ClientCalls
        = e.ClientCalls ++ [.EnableKnativeBindInNamespace it.ObjectMeta.Namespace]) ∧
    (BoolDeref t.NamespaceLabel true = false →
      (sinkBindingPostStep d t ref e).2 = none ∧
      (sinkBindingPostStep d t ref e).1.Resources
        = newSinkBinding d it controller ref :: e.Resources) ∧
    (BoolDeref t.NamespaceLabel true = false →
      ∀ e2 : Environment O, (sinkBindingPostStep d t ref e2).1.ClientCalls = e2.ClientCalls) := by
  obtain ⟨h1, h2, h3, _, _⟩ := sinkBindingPostStep_adds d t ref e it controller hit hnone hctrl
  refine ⟨?_, ?_, ?_⟩
  · intro err hon _
    rw [hon] at h3
    exact ⟨h1, h2, by simpa using h3⟩
  · intro _
    exact ⟨h1, h2⟩
  · intro hoff e2
    exact sinkBindingPostStep_unlabelled d t ref e2 hoff

/-- C28 at the sample run, in a cluster that refuses the labelling: the
SinkBinding is in front all the same; and with the option set to false, no call
is made. -/
theorem C28_witness :
    (sinkBindingPostStep
        { sampleDeps with EnableKnativeBindInNamespace := fun _ _ => .error (.text "forbidden") }
        {}
        { Kind := "Service", Namespace := "", Name := "endpoint-sink-1",
          APIVersion := servingGroupVersion }
        sampleRun.e).1.Resources
      = [.sinkBinding
          { Kind := "Deployment", Namespace := "ns", Name := "test", APIVersion := "apps/v1" }
          { Kind := "Service", Namespace := "ns", Name := "endpoint-sink-1",
            APIVersion := "serving.knative.dev/v1" },
         .deployment "test"] ∧
    (sinkBindingPostStep sampleDeps { NamespaceLabel := some false }
        { Kind := "Service", Namespace := "", Name := "endpoint-sink-1",
          APIVersion := servingGroupVersion }
        sampleRun.e).1.ClientCalls = [] :=
  ⟨((C28_labelling_best_effort
        { sampleDeps with EnableKnativeBindInNamespace := fun _ _ => .error (.text "forbidden") }
        {}
        { Kind := "Service", Namespace := "", Name := "endpoint-sink-1",
          APIVersion := servingGroupVersion }
        sampleRun.e (sampleIntegration .Deploying) (.deployment "test") rfl
        (by rintro ⟨o, ho, hk, _⟩
            have ho2 := List.mem_singleton.mp ho
            subst ho2
            exact absurd hk (by decide))
        rfl).1 (.text "forbidden") rfl rfl).2.1,
   (C28_labelling_best_effort sampleDeps { NamespaceLabel := some false }
        { Kind := "Service", Namespace := "", Name := "endpoint-sink-1",
          APIVersion := servingGroupVersion }
        sampleRun.e (sampleIntegration .Deploying) (.deployment "test") rfl
        (by rintro ⟨o, ho, hk, _⟩
            have ho2 := List.mem_singleton.mp ho
            subst ho2
            exact absurd hk (by decide))
        rfl).2.2 rfl sampleRun.e⟩

/-- C30: with sink binding enabled, `configureSinkBinding` fails unless the
channel, endpoint and event sinks it extracts are one in all, and the error
states how many it found; when they are one, it runs the loop of `withServiceDo`
on that sink with the service type of the list the sink came from, and that is
the type under which the resolved sink is marked as sink binding; with sink
binding disabled or unset it returns no error and changes nothing. -/
theorem C30_single_sink_required (d : Deps O) (t : knativeTrait) (s : Run O) :
    (BoolDeref t.SinkBinding false = true → (selectedSinks d t).length ≠ 1 →
      configureSinkBinding d t s
        = (s, some (.text ("sinkbinding can only be used with a single sink: found "
            ++ toString (selectedSinks d t).length ++ " sinks")))) ∧
    (∀ uri : String, BoolDeref t.SinkBinding false = true → selectedSinks d t = [uri] →
      configureSinkBinding d t s
        = withServiceDo d false [uri] (sinkServiceType d t) CamelEndpointKindSink
            (sinkBindingGen d t (sinkServiceType d t)) s ∧
      (uri ∈ extractServices d t.ChannelSinks CamelServiceTypeChannel →
        sinkServiceType d t = CamelServiceTypeChannel) ∧
      (uri ∈ extractServices d t.EndpointSinks CamelServiceTypeEndpoint →
        sinkServiceType d t = CamelServiceTypeEndpoint) ∧
      (uri ∈ extractServices d t.EventSinks CamelServiceTypeEvent →
        sinkServiceType d t = CamelServiceTypeEvent)) ∧
    (∀ (uri : String) (s1 : Run O) (ref actual : ObjectReference),
      BoolDeref t.SinkBinding false = true →
      (selectedSinks d t).length = 1 →
      extractServices d (selectedSinks d t) (sinkServiceType d t) = [uri] →
      d.ExtractObjectReference uri = .ok ref →
      resolveReference d (sinkServiceType d t) ref
        (d.FillMissingReferenceData (sinkServiceType d t) ref) s = (s1, .ok actual) →
      (configureSinkBinding d t s).1.env
        = d.SetSinkBinding s.env actual.Name CamelEndpointKindSink (sinkServiceType d t)
            actual.APIVersion actual.Kind) ∧
    (BoolDeref t.SinkBinding false = false → configureSinkBinding d t s = (s, none)) := by
  refine ⟨?_, ?_, ?_, ?_⟩
  · intro hon hmany
    rw [configureSinkBinding_eq]
    simp only [hon, not_true_eq_false, if_false, hmany, ne_eq, not_false_eq_true, if_true]
  · intro uri hon hone
    refine ⟨?_, selectedSinks_single d t uri hone⟩
    rw [configureSinkBinding_eq]
    simp only [hon, not_true_eq_false, if_false, hone, List.length_singleton, ne_eq]
  · intro uri s1 ref actual hon hone hloop href hres
    rw [configureSinkBinding_eq]
    simp only [hon, not_true_eq_false, if_false, hone, ne_eq]
    unfold withServiceDo
    rw [hloop]
    obtain ⟨h1, h2, _⟩ := withService_sinkBinding d t (sinkServiceType d t) uri s s1 ref actual
      href hres
    rcases hw : withService d false (sinkServiceType d t) CamelEndpointKindSink
      (sinkBindingGen d t (sinkServiceType d t)) uri s with ⟨s2, r⟩
    rw [hw] at h1 h2
    simp only at h1 h2
    subst h1
    simp only [forEach, hw]
    exact h2
  · intro hoff
    rw [configureSinkBinding_eq]
    simp only [hoff, Bool.false_eq_true, not_false_eq_true, if_true]

/-- C30 at the sample cluster: two sinks are refused with their number, and the
one endpoint sink is processed under the type `endpoint`. -/
theorem C30_witness :
    configureSinkBinding sampleDeps
        { SinkBinding := some true, EndpointSinks := ["endpoint-sink-1"],
          ChannelSinks := ["channel-sink-1"] } sampleRun
      = (sampleRun,
          some (.text ("sinkbinding can only be used with a single sink: found "
            ++ toString (selectedSinks sampleDeps
                { SinkBinding := some true, EndpointSinks := ["endpoint-sink-1"],
                  ChannelSinks := ["channel-sink-1"] }).length ++ " sinks"))) ∧
    (selectedSinks sampleDeps
        { SinkBinding := some true, EndpointSinks := ["endpoint-sink-1"],
          ChannelSinks := ["channel-sink-1"] }).length = 2 ∧
    sinkServiceType sampleDeps { SinkBinding := some true, EndpointSinks := ["endpoint-sink-1"] }
      = CamelServiceTypeEndpoint :=
  ⟨(C30_single_sink_required sampleDeps
      { SinkBinding := some true, EndpointSinks := ["endpoint-sink-1"],
        ChannelSinks := ["channel-sink-1"] } sampleRun).1 rfl (by decide),
   by decide,
   ((C30_single_sink_required sampleDeps
      { SinkBinding := some true, EndpointSinks := ["endpoint-sink-1"] } sampleRun).2.1
      "knative:endpoint/endpoint-sink-1" rfl (by decide)).2.2.1 (by decide)⟩

/-- C26: the metadata keys being distinct, every service definition that the
source loops of `configureChannels`, `configureEndpoints` and `configureEvents`
add to the Camel environment is of kind `source` and carries no URL; those of
the channel and of the event sources carry the reply metadata `false`, those of
the endpoint sources carry no reply metadata. -/
theorem C26_source_definitions (d : Deps O)
    (hkeys : [d.CamelMetaEndpointKind, d.CamelMetaKnativeAPIVersion, d.CamelMetaKnativeKind,
      d.CamelMetaKnativeName, d.CamelMetaKnativeReply,
      d.CamelMetaFilterPrefix ++ knativeHistoryHeader].Nodup)
    (t : knativeTrait) (s : Run O) :
    (∀ svc ∈ (ifServiceMissingDo d t.ChannelSources CamelServiceTypeChannel
        CamelEndpointKindSource (channelSourceGen d t) s).1.env.Services,
      svc ∈ s.env.Services ∨
        (svc.ServiceType = CamelServiceTypeChannel ∧ svc.URL = "" ∧
          mapGet svc.Metadata d.CamelMetaEndpointKind = CamelEndpointKindSource ∧
          mapGet svc.Metadata d.CamelMetaKnativeReply = "false")) ∧
    (∀ svc ∈ (forEach (endpointSource d)
        (extractServices d t.EndpointSources CamelServiceTypeEndpoint) s).1.env.Services,
      svc ∈ s.env.Services ∨
        (svc.ServiceType = CamelServiceTypeEndpoint ∧ svc.URL = "" ∧
          mapGet svc.Metadata d.CamelMetaEndpointKind = CamelEndpointKindSource ∧
          ∀ kv ∈ svc.Metadata, kv.1 ≠ d.CamelMetaKnativeReply)) ∧
    (∀ svc ∈ (withServiceDo d false t.EventSources CamelServiceTypeEvent
        CamelEndpointKindSource (eventSourceGen d) s).1.env.Services,
      svc ∈ s.env.Services ∨
        (svc.ServiceType = CamelServiceTypeEvent ∧ svc.URL = "" ∧
          mapGet svc.Metadata d.CamelMetaEndpointKind = CamelEndpointKindSource ∧
          mapGet svc.Metadata d.CamelMetaKnativeReply = "false")) := by
  refine ⟨?_, ?_, ?_⟩
  · unfold ifServiceMissingDo withServiceDo
    exact forEach_services _ _
      (fun uri s1 => withService_channelSource_services d t uri s1 hkeys) _ s
  · exact forEach_services _ _ (fun endpoint s1 => endpointSource_services d endpoint s1 hkeys)
      _ s
  · unfold withServiceDo
    exact forEach_services _ _
      (fun uri s1 => withService_eventSource_services d uri s1 hkeys) _ s

/-- C26 at the sample cluster, with the sources of the test: the endpoint
`s3fileMover1`, the channel `channel-source-1` and the event type `evt.type`. -/
theorem C26_witness :
    (configureEndpoints sampleDeps { EndpointSources := ["s3fileMover1"] }
        sampleRun).1.env.Services.map
        (fun svc => (svc.Name, svc.URL, mapGet svc.Metadata "knative.reply"))
      = [("s3fileMover1", "", "")] ∧
    (configureChannels sampleDeps { ChannelSources := ["channel-source-1"] }
        sampleRun).1.env.Services.map
        (fun svc => (svc.Name, svc.URL, mapGet svc.Metadata "knative.reply"))
      = [("channel-source-1", "", "false")] ∧
    (configureEvents sampleDeps { EventSources := ["knative:event/evt.type"] }
        sampleRun).1.env.Services.map
        (fun svc => (svc.Name, svc.URL, mapGet svc.Metadata "knative.reply"))
      = [("evt.type", "", "false")] ∧
    ∀ svc ∈ (withServiceDo sampleDeps false ["knative:event/evt.type"] CamelServiceTypeEvent
        CamelEndpointKindSource (eventSourceGen sampleDeps) sampleRun).1.env.Services,
      svc ∈ sampleRun.env.Services ∨
        (svc.ServiceType = CamelServiceTypeEvent ∧ svc.URL = "" ∧
          mapGet svc.Metadata sampleDeps.CamelMetaEndpointKind = CamelEndpointKindSource ∧
          mapGet svc.Metadata sampleDeps.CamelMetaKnativeReply = "false") :=
  ⟨by decide, by decide, by decide,
   (C26_source_definitions sampleDeps (by decide)
      { EventSources := ["knative:event/evt.type"] } sampleRun).2.2⟩

/-- C25: on an Integration that is not nil, whatever `Apply` returns, it leaves
the platform-http capability in `Integration.Status.Capabilities` when one of
the six lists of sources and sinks of the trait is not empty; it adds the
knative capability in the Initialization phase and, the two capabilities being
different, in no other phase; every capability that was there stays; and no
capability gets a second entry: each occurs as often as before, or once when it
did not occur. -/
theorem C25_capabilities_after_apply (c : TraitDeps O) (t : knativeTrait) (e : Environment O)
    (it : Trait.Integration) (hit : e.Integration = some it) :
    ((t.ChannelSources ≠ [] ∨ t.EndpointSources ≠ [] ∨ t.EventSources ≠ [] ∨
        t.ChannelSinks ≠ [] ∨ t.EndpointSinks ≠ [] ∨ t.EventSinks ≠ []) →
      c.CapabilityPlatformHTTP ∈ (Apply c t e).1.integration.Status.Capabilities) ∧
    (it.Status.Phase = .Initialization →
      c.CapabilityKnative ∈ (Apply c t e).1.integration.Status.Capabilities) ∧
    (it.Status.Phase ≠ .Initialization → c.CapabilityKnative ≠ c.CapabilityPlatformHTTP →
      (c.CapabilityKnative ∈ (Apply c t e).1.integration.Status.Capabilities
        ↔ c.CapabilityKnative ∈ it.Status.Capabilities)) ∧
    (∀ x ∈ it.Status.Capabilities, x ∈ (Apply c t e).1.integration.Status.Capabilities) ∧
    (∀ x : String,
      (Apply c t e).1.integration.Status.Capabilities.count x = it.Status.Capabilities.count x ∨
      (it.Status.Capabilities.count x = 0 ∧
        (Apply c t e).1.integration.Status.Capabilities.count x = 1)) := by
  obtain ⟨caps1, caps2, caps3, h1, h2, h3, happly⟩ := Apply_capabilities c t e it hit
  have hcaps : (Apply c t e).1.integration.Status.Capabilities = caps3 := by
    unfold Environment.integration
    rw [happly]
  rw [hcaps]
  have m1 : ∀ x, x ∈ caps1 ↔
      x ∈ it.Status.Capabilities ∨ (it.Status.Phase = .Initialization ∧ x = c.CapabilityKnative) := by
    intro x
    rw [h1]
    split_ifs with hp
    · rw [mem_stringSliceUniqueAdd]
      simp [hp]
    · simp [hp]
  have m2 : ∀ x, x ∈ caps2 ↔ x ∈ caps1 ∨
      ((t.ChannelSources.length > 0 ∨ t.EndpointSources.length > 0 ∨ t.EventSources.length > 0)
        ∧ x = c.CapabilityPlatformHTTP) := by
    intro x
    rw [h2]
    split_ifs with hp
    · rw [mem_stringSliceUniqueAdd]
      simp [hp]
    · simp [hp]
  have m3 : ∀ x, x ∈ caps3 ↔ x ∈ caps2 ∨
      ((t.ChannelSinks.length > 0 ∨ t.EndpointSinks.length > 0 ∨ t.EventSinks.length > 0)
        ∧ x = c.CapabilityPlatformHTTP) := by
    intro x
    rw [h3]
    split_ifs with hp
    · rw [mem_stringSliceUniqueAdd]
      simp [hp]
    · simp [hp]
  have c1 : ∀ x, caps1.count x = it.Status.Capabilities.count x ∨
      (it.Status.Capabilities.count x = 0 ∧ caps1.count x = 1) := by
    intro x
    rw [h1]
    split_ifs
    · exact count_stringSliceUniqueAdd _ _ x
    · exact Or.inl rfl
  have c2 : ∀ x, caps2.count x = caps1.count x ∨ (caps1.count x = 0 ∧ caps2.count x = 1) := by
    intro x
    rw [h2]
    split_ifs
    · exact count_stringSliceUniqueAdd _ _ x
    · exact Or.inl rfl
  have c3 : ∀ x, caps3.count x = caps2.count x ∨ (caps2.count x = 0 ∧ caps3.count x = 1) := by
    intro x
    rw [h3]
    split_ifs
    · exact count_stringSliceUniqueAdd _ _ x
    · exact Or.inl rfl
  have hpos : ∀ l : List String, l ≠ [] → l.length > 0 := fun l hl =>
    List.length_pos.mpr hl
  refine ⟨?_, ?_, ?_, ?_, ?_⟩
  · intro hsome
    rw [m3, m2]
    rcases hsome with h | h | h | h | h | h
    · exact Or.inl (Or.inr ⟨Or.inl (hpos _ h), rfl⟩)
    · exact Or.inl (Or.inr ⟨Or.inr (Or.inl (hpos _ h)), rfl⟩)
    · exact Or.inl (Or.inr ⟨Or.inr (Or.inr (hpos _ h)), rfl⟩)
    · exact Or.inr ⟨Or.inl (hpos _ h), rfl⟩
    · exact Or.inr ⟨Or.inr (Or.inl (hpos _ h)), rfl⟩
    · exact Or.inr ⟨Or.inr (Or.inr (hpos _ h)), rfl⟩
  · intro hp
    rw [m3, m2, m1]
    exact Or.inl (Or.inl (Or.inr ⟨hp, rfl⟩))
  · intro hp hne
    rw [m3, m2, m1]
    constructor
    · rintro ((( h | ⟨h, _⟩) | ⟨_, h⟩) | ⟨_, h⟩)
      · exact h
      · exact absurd h hp
      · exact absurd h hne
      · exact absurd h hne
    · intro h
      exact Or.inl (Or.inl (Or.inl h))
  · intro x hx
    rw [m3, m2, m1]
    exact Or.inl (Or.inl (Or.inl hx))
  · exact count_step_trans _ _ _ (count_step_trans _ _ _ c1 c2) c3

/-- C25 at the sample run with the channel source `channel-source-1`: while the
Integration is deployed `Apply` adds the platform-http capability alone, and
while it is initialised the knative capability first. -/
theorem C25_witness :
    sampleTraitDeps.CapabilityPlatformHTTP
      ∈ (Apply sampleTraitDeps { ChannelSources := ["channel-source-1"] }
          sampleRun.e).1.integration.Status.Capabilities ∧
    (Apply sampleTraitDeps { ChannelSources := ["channel-source-1"] }
        sampleRun.e).1.integration.Status.Capabilities = ["platform-http"] ∧
    (Apply sampleTraitDeps { ChannelSources := ["channel-source-1"] }
        { sampleRun.e with
          Integration := some (sampleIntegration .Initialization) }).1.integration.Status.Capabilities
      = ["knative", "platform-http"] :=
  ⟨(C25_capabilities_after_apply sampleTraitDeps { ChannelSources := ["channel-source-1"] }
      sampleRun.e (sampleIntegration .Deploying) rfl).1 (Or.inl (by decide)),
   by decide, by decide⟩

/-- C29: `Configure` does not fail for a trait that is not active, and tells why.
Without an Integration it returns false with no condition and no error; with
`Enabled` set to false, on an Integration in whatever phase, it returns false
with the user-disabled condition and no error; with the trait not disabled and
the Integration neither in the Initialization phase nor in a running phase it
returns false with no condition and no error; and in the three cases it leaves
the trait, its lists of sources and sinks among the rest, and the environment as
they were. -/
theorem C29_configure_inactive (c : TraitDeps O) (t : knativeTrait) (e : Environment O) :
    (e.Integration = none →
      Configure c t e
        = { t := t, e := e, enabled := false, condition := none, err := none }) ∧
    (∀ it : Trait.Integration, e.Integration = some it → t.Enabled = some false →
      Configure c t e
        = { t := t, e := e, enabled := false,
            condition := some c.NewIntegrationConditionUserDisabled, err := none }) ∧
    (∀ it : Trait.Integration, e.Integration = some it → BoolDeref t.Enabled true = true →
      e.IntegrationInPhase [.Initialization] = false →
      e.IntegrationInRunningPhases = false →
      Configure c t e
        = { t := t, e := e, enabled := false, condition := none, err := none }) := by
  refine ⟨?_, ?_, ?_⟩
  · intro hnil
    unfold Configure
    rw [hnil]
  · intro it hit hoff
    unfold Configure
    rw [hit]
    simp [hoff, BoolDeref]
  · intro it hit hon hinit hrun
    unfold Configure
    rw [hit]
    simp [hon, hinit, hrun]

/-- C29 at the sample run: the trait disabled by the user, and the trait on an
Integration whose phase is neither Initialization nor a running one. -/
theorem C29_witness :
    (Configure sampleTraitDeps { Enabled := some false, ChannelSources := ["channel-source-1"] }
        sampleRun.e).condition = some sampleTraitDeps.NewIntegrationConditionUserDisabled ∧
    (Configure sampleTraitDeps { Enabled := some false, ChannelSources := ["channel-source-1"] }
        sampleRun.e).t.ChannelSources = ["channel-source-1"] ∧
    (Configure sampleTraitDeps {}
        { sampleRun.e with
          Integration := some (sampleIntegration (.other "Building Kit")) }).enabled = false ∧
    (Configure sampleTraitDeps {} sampleRun.e).t.ChannelSources
      = ["knative:channel/channel-source-1"] :=
  ⟨congrArg Configured.condition
      ((C29_configure_inactive sampleTraitDeps
        { Enabled := some false, ChannelSources := ["channel-source-1"] } sampleRun.e).2.1
        (sampleIntegration .Deploying) rfl rfl),
   congrArg (fun r => r.t.ChannelSources)
      ((C29_configure_inactive sampleTraitDeps
        { Enabled := some false, ChannelSources := ["channel-source-1"] } sampleRun.e).2.1
        (sampleIntegration .Deploying) rfl rfl),
   congrArg Configured.enabled
      ((C29_configure_inactive sampleTraitDeps {}
        { sampleRun.e with
          Integration := some (sampleIntegration (.other "Building Kit")) }).2.2
        (sampleIntegration (.other "Building Kit")) rfl rfl rfl rfl),
   by decide⟩

/-- C24: in the engine as the specification words it, with the traits `service`
and `knative-service` both in the catalog, whose ids are distinct, both
applicable in the profile and configured (the `Configure` of each returns
enabled), the policy of the profile naming `knative-service` as the winner over
`service`, the trait of lower priority, and no winner over `knative-service`, a
run that succeeds executes `knative-service`, does not execute `service`, and
returns among its conditions the informational condition on the trait `service`
that names `knative-service` as the trait that has priority. -/
theorem C24_knative_service_has_priority {σ : Type} (c : Catalog σ) (profile : TraitProfile)
    (postActions : σ → List (σ → σ × Option Error)) (env : σ) (outcome : Outcome σ)
    (service knativeService : TraitVariant σ)
    (hsid : service.Id = "service") (hkid : knativeService.Id = "knative-service")
    (hs : service ∈ c.traits) (hk : knativeService ∈ c.traits)
    (hids : (c.traits.map (fun tr => tr.Id)).Nodup)
    (hsapp : service.ProfileApplicable profile = true)
    (hkapp : knativeService.ProfileApplicable profile = true)
    (hpolicy : c.policy profile "service" = some "knative-service")
    (hkpolicy : c.policy profile "knative-service" = none)
    (hprio : knativeService.Priority < service.Priority)
    (hsv : ∀ env0, (service.Configure env0).2.1 = true)
    (hkv : ∀ env0, (knativeService.Configure env0).2.1 = true)
    (hrun : c.apply profile postActions env = .ok outcome) :
    "knative-service" ∈ outcome.executed ∧
    "service" ∉ outcome.executed ∧
    exclusionCondition "service" "knative-service" ∈ outcome.conditions := by
  haveI : IsTotal (TraitVariant σ) (fun a b => a.Priority ≤ b.Priority) :=
    ⟨fun a b => Nat.le_total a.Priority b.Priority⟩
  haveI : IsTrans (TraitVariant σ) (fun a b => a.Priority ≤ b.Priority) :=
    ⟨fun a b c hab hbc => Nat.le_trans hab hbc⟩
  have hsorted := List.sorted_insertionSort (fun a b : TraitVariant σ => a.Priority ≤ b.Priority)
    (c.traits.filter (fun tr => tr.ProfileApplicable profile))
  have hperm := List.perm_insertionSort (fun a b : TraitVariant σ => a.Priority ≤ b.Priority)
    (c.traits.filter (fun tr => tr.ProfileApplicable profile))
  have hmem : ∀ tr, tr ∈ (c.traits.filter (fun tr => tr.ProfileApplicable profile)).insertionSort
      (fun a b => a.Priority ≤ b.Priority) ↔ tr ∈ c.traits ∧ tr.ProfileApplicable profile = true := by
    intro tr
    rw [hperm.mem_iff, List.mem_filter]
  unfold Catalog.apply at hrun
  simp only at hrun
  cases hconf : configureAll c profile
      ((c.traits.filter (fun tr => tr.ProfileApplicable profile)).insertionSort
        (fun a b => a.Priority ≤ b.Priority))
      { env := env, enabled := [], conditions := [] } with
  | error err =>
    rw [hconf] at hrun
    simp at hrun
  | ok st =>
    rw [hconf] at hrun
    simp only at hrun
    cases happly : applyAll st.enabled st.env with
    | error err =>
      rw [happly] at hrun
      simp at hrun
    | ok env1 =>
      rw [happly] at hrun
      simp only at hrun
      cases hdrain : drainPostActions (postActions env1) env1 with
      | error err =>
        rw [hdrain] at hrun
        simp at hrun
      | ok env2 =>
        rw [hdrain] at hrun
        simp only [Except.ok.injEq] at hrun
        subst hrun
        have h := configureAll_exclusion c profile service knativeService
          (by rw [hsid, hkid]; exact hpolicy) (by rw [hkid]; exact hkpolicy) hprio hsv hkv
          _ _ st hsorted
          (fun tr htr hid =>
            List.inj_on_of_nodup_map hids ((hmem tr).mp htr).1 hs hid)
          hconf (Or.inl ((hmem knativeService).mpr ⟨hk, hkapp⟩))
          (by simp)
        rw [hsid, hkid] at h
        exact ⟨h.1, h.2.1, h.2.2 (Or.inl ((hmem service).mpr ⟨hs, hsapp⟩))⟩

/-- C24 at the sample catalog in the profile `Knative`: with `knative-service`
enabled the trait `service` is not executed and its condition is returned; with
`knative-service` disabled the trait `service` is executed. -/
theorem C24_witness :
    (sampleCatalog true).apply "Knative" (fun _ => []) 0
      = .ok { env := 2, executed := ["deployment", "knative-service"],
              conditions := [exclusionCondition "service" "knative-service"] } ∧
    ("knative-service" ∈ ["deployment", "knative-service"] ∧
      "service" ∉ ["deployment", "knative-service"] ∧
      exclusionCondition "service" "knative-service"
        ∈ [exclusionCondition "service" "knative-service"]) ∧
    (sampleCatalog false).apply "Knative" (fun _ => []) 0
      = .ok { env := 2, executed := ["deployment", "service"], conditions := [] } :=
  ⟨rfl,
   C24_knative_service_has_priority (sampleCatalog true) "Knative" (fun _ => []) 0
      { env := 2, executed := ["deployment", "knative-service"],
        conditions := [exclusionCondition "service" "knative-service"] }
      (sampleVariant "service" 1500 true) (sampleVariant "knative-service" 1400 true)
      rfl rfl (List.mem_cons_self _ _)
      (List.mem_cons_of_mem _ (List.mem_cons_of_mem _ (List.mem_cons_self _ _)))
      (by decide) rfl rfl rfl rfl (by decide) (fun _ => rfl) (fun _ => rfl) rfl,
   rfl⟩

end Trait

end CamelK
